import Mathlib

/-!
# Request log records of sf1r-lite (`core/node-manager/RequestLog.h`)

A shallow embedding of the request-log record codec (`CommonReqData` and its
derived records, `ReqLogMgr::packReqLogData`, `unpackReqLogData`,
`replaceCommonReqData`), of the table driven checksum `ReqLogMgr::crc`, of the head
index record `ReqLogHead` and of the log manager `ReqLogMgr` (construction, the
write-request sets, and the prepare/append/lookup members, whose bodies are not part
of the sources and are modelled from the specification).

Conventions.
* A `std::string` is a list of byte values (`Bytes`); a byte is a `Nat` below 256.
* `uint32_t` values are `Nat` (below `2^32`), `int64_t` values are `Int`.
* A C++ member function that mutates `*this` and the unpacker takes both as
  arguments and gives both back inside a `Flow`.
-/

namespace sf1r

/-- Contents of a `std::string`: one `Nat` below 256 per `char`. -/
abbrev Bytes := List Nat

/-! ## The msgpack library used by the records -/

namespace msgpack

/-- Modelled from the spec: `msgpack::object` of the bundled msgpack library
(`3rdparty/msgpack`, not part of the sources).  The wire format of section 6.2 is
MessagePack; the object kinds are those of msgpack-c 0.5. -/
inductive object where
  | nil : object
  | boolean (b : Bool) : object
  | positive_integer (u64 : Nat) : object
  | negative_integer (i64 : Int) : object
  | double (payload : Nat) : object
  | raw (bytes : Bytes) : object
  | array (items : List object) : object
  | map (items : List (object × object)) : object

/-- Modelled from the spec: (msgpack library) exceptions of the library; both derive from `std::exception`. -/
inductive Exn where
  | unpack_error
  | type_error
  deriving DecidableEq, Repr

/-- Modelled from the spec: (msgpack library) big-endian store of a 16 bit value. -/
def store16 (n : Nat) : Bytes := [n / 256 % 256, n % 256]

/-- Modelled from the spec: (msgpack library) big-endian store of a 32 bit value. -/
def store32 (n : Nat) : Bytes :=
  [n / 16777216 % 256, n / 65536 % 256, n / 256 % 256, n % 256]

/-- Modelled from the spec: (msgpack library) big-endian store of a 64 bit value. -/
def store64 (n : Nat) : Bytes :=
  [n / 72057594037927936 % 256, n / 281474976710656 % 256, n / 1099511627776 % 256,
   n / 4294967296 % 256, n / 16777216 % 256, n / 65536 % 256, n / 256 % 256, n % 256]

/-- Modelled from the spec: (msgpack library) big-endian load of a byte sequence. -/
def load (bs : Bytes) : Nat := bs.foldl (fun acc b => acc * 256 + b) 0

/-- Modelled from the spec: (msgpack library) two's complement bit pattern of a signed value in `w` bits. -/
def twos (w : Nat) (d : Int) : Nat := (d % (2 : Int) ^ w).toNat

/-- Modelled from the spec: `packer::pack(uint32_t)` (`msgpack_pack_real_uint32`),
"integers use the narrowest form". -/
def pack_uint32 (d : Nat) : Bytes :=
  if d < 256 then
    if d < 128 then [d] else [0xcc, d]
  else
    if d < 65536 then 0xcd :: store16 d else 0xce :: store32 d

/-- Modelled from the spec: `packer::pack(int64_t)` (`msgpack_pack_real_int64`),
"integers use the narrowest form". -/
def pack_int64 (d : Int) : Bytes :=
  if d < -32 then
    if d < -32768 then
      if d < -2147483648 then 0xd3 :: store64 (twos 64 d) else 0xd2 :: store32 (twos 32 d)
    else
      if d < -128 then 0xd1 :: store16 (twos 16 d) else [0xd0, twos 8 d]
  else if d < 128 then [twos 8 d]
  else
    if d < 65536 then
      if d < 256 then [0xcc, d.toNat] else 0xcd :: store16 d.toNat
    else
      if d < 4294967296 then 0xce :: store32 d.toNat else 0xcf :: store64 d.toNat

/-- Modelled from the spec: `packer::pack_raw(size_t l)`; the length is written
through a 32 bit field. -/
def pack_raw (l : Nat) : Bytes :=
  if l < 32 then [0xa0 + l]
  else if l < 65536 then 0xda :: store16 l
  else 0xdb :: store32 (l % 4294967296)

/-- Modelled from the spec: `packer::pack_array(unsigned int n)`. -/
def pack_array (n : Nat) : Bytes :=
  if n < 16 then [0x90 + n]
  else if n < 65536 then 0xdc :: store16 n
  else 0xdd :: store32 (n % 4294967296)

/-- Modelled from the spec: `packer::pack_map(unsigned int n)`. -/
def pack_map (n : Nat) : Bytes :=
  if n < 16 then [0x80 + n]
  else if n < 65536 then 0xde :: store16 n
  else 0xdf :: store32 (n % 4294967296)

/-- Modelled from the spec: `packer::pack(const std::string&)`: "strings are
byte-length-prefixed". -/
def pack_string (v : Bytes) : Bytes := pack_raw v.length ++ v

/-- Modelled from the spec: `packer::pack(const std::vector<std::string>&)`. -/
def pack_vector_string (v : List Bytes) : Bytes :=
  pack_array v.length ++ (v.map pack_string).flatten

/-- Modelled from the spec: `packer::pack` of a `std::vector<uint32_t>` or a
`std::list<uint32_t>`. -/
def pack_vector_uint32 (v : List Nat) : Bytes :=
  pack_array v.length ++ (v.map pack_uint32).flatten

/-- Modelled from the spec: `packer::pack(const std::map<std::string, std::string>&)`:
the entries in key order, key then value. -/
def pack_map_string (v : List (Bytes × Bytes)) : Bytes :=
  pack_map v.length ++ (v.map fun kv => pack_string kv.1 ++ pack_string kv.2).flatten

/-- Modelled from the spec: (msgpack library) outcome of the streaming parser on the unread part of the buffer. -/
inductive PRes (α : Type) where
  | done (v : α) (rest : Bytes) : PRes α
  | more : PRes α
  | failed : PRes α

/-- Modelled from the spec: (msgpack library) read `n` payload bytes, or report that the buffer ends first. -/
def PRes.payload (n : Nat) (bs : Bytes) (k : Bytes → Bytes → PRes α) : PRes α :=
  if n ≤ bs.length then k (bs.take n) (bs.drop n) else .more

/-- Modelled from the spec: (msgpack library) parse `n` consecutive objects with the element parser `sub`. -/
def parseItems (sub : Bytes → PRes object) : Nat → Bytes → PRes (List object)
  | 0, bs => .done [] bs
  | n + 1, bs =>
    match sub bs with
    | .done o r =>
      match parseItems sub n r with
      | .done os r2 => .done (o :: os) r2
      | .more => .more
      | .failed => .failed
    | .more => .more
    | .failed => .failed

/-- Modelled from the spec: (msgpack library) parse `n` consecutive key/value pairs with the element parser `sub`. -/
def parsePairs (sub : Bytes → PRes object) : Nat → Bytes → PRes (List (object × object))
  | 0, bs => .done [] bs
  | n + 1, bs =>
    match sub bs with
    | .done k r =>
      match sub r with
      | .done v r1 =>
        match parsePairs sub n r1 with
        | .done os r2 => .done ((k, v) :: os) r2
        | .more => .more
        | .failed => .failed
      | .more => .more
      | .failed => .failed
    | .more => .more
    | .failed => .failed

/-- Modelled from the spec: (msgpack library) start of an array of `n` items: fails when the container stack is full
(`sub = none`). -/
def startArray (sub : Option (Bytes → PRes object)) (n : Nat) (bs : Bytes) : PRes object :=
  match sub with
  | none => .failed
  | some p =>
    match parseItems p n bs with
    | .done os r => .done (.array os) r
    | .more => .more
    | .failed => .failed

/-- Modelled from the spec: (msgpack library) start of a map of `n` pairs: fails when the container stack is full. -/
def startMap (sub : Option (Bytes → PRes object)) (n : Nat) (bs : Bytes) : PRes object :=
  match sub with
  | none => .failed
  | some p =>
    match parsePairs p n bs with
    | .done os r => .done (.map os) r
    | .more => .more
    | .failed => .failed

/-- Modelled from the spec: (msgpack library) signed reading of a `w` bit pattern. -/
def signedObj (w : Nat) (u : Nat) : object :=
  if u < 2 ^ (w - 1) then .positive_integer u else .negative_integer ((u : Int) - (2 : Int) ^ w)

/-- Modelled from the spec: one object of the MessagePack wire format
(`template_execute` of msgpack-c 0.5) whose first byte is `b`, the nested items being
parsed by `sub`. -/
def parseByte (sub : Option (Bytes → PRes object)) (b : Nat) (bs : Bytes) : PRes object :=
    if b < 0x80 then .done (.positive_integer b) bs
    else if b < 0x90 then startMap sub (b - 0x80) bs
    else if b < 0xa0 then startArray sub (b - 0x90) bs
    else if b < 0xc0 then PRes.payload (b - 0xa0) bs fun p r => .done (.raw p) r
    else if b = 0xc0 then .done .nil bs
    else if b = 0xc2 then .done (.boolean false) bs
    else if b = 0xc3 then .done (.boolean true) bs
    else if b = 0xca then PRes.payload 4 bs fun p r => .done (.double (load p)) r
    else if b = 0xcb then PRes.payload 8 bs fun p r => .done (.double (load p)) r
    else if b = 0xcc then PRes.payload 1 bs fun p r => .done (.positive_integer (load p)) r
    else if b = 0xcd then PRes.payload 2 bs fun p r => .done (.positive_integer (load p)) r
    else if b = 0xce then PRes.payload 4 bs fun p r => .done (.positive_integer (load p)) r
    else if b = 0xcf then PRes.payload 8 bs fun p r => .done (.positive_integer (load p)) r
    else if b = 0xd0 then PRes.payload 1 bs fun p r => .done (signedObj 8 (load p)) r
    else if b = 0xd1 then PRes.payload 2 bs fun p r => .done (signedObj 16 (load p)) r
    else if b = 0xd2 then PRes.payload 4 bs fun p r => .done (signedObj 32 (load p)) r
    else if b = 0xd3 then PRes.payload 8 bs fun p r => .done (signedObj 64 (load p)) r
    else if b = 0xda then
      PRes.payload 2 bs fun h r => PRes.payload (load h) r fun p r2 => .done (.raw p) r2
    else if b = 0xdb then
      PRes.payload 4 bs fun h r => PRes.payload (load h) r fun p r2 => .done (.raw p) r2
    else if b = 0xdc then PRes.payload 2 bs fun h r => startArray sub (load h) r
    else if b = 0xdd then PRes.payload 4 bs fun h r => startArray sub (load h) r
    else if b = 0xde then PRes.payload 2 bs fun h r => startMap sub (load h) r
    else if b = 0xdf then PRes.payload 4 bs fun h r => startMap sub (load h) r
    else if 0xe0 ≤ b ∧ b < 0x100 then .done (.negative_integer ((b : Int) - 256)) bs
    else .failed

/-- Modelled from the spec: one object from the unread part of the buffer. -/
def parseHead (sub : Option (Bytes → PRes object)) : Bytes → PRes object
  | [] => .more
  | b :: bs => parseByte sub b bs

/-- Modelled from the spec: (msgpack library) the parser with `d` free slots on its container stack. -/
def parseObj : Nat → Bytes → PRes object
  | 0 => parseHead none
  | d + 1 => parseHead (some (parseObj d))

/-- Modelled from the spec: (msgpack library) depth of the container stack (`MSGPACK_EMBED_STACK_SIZE`). -/
def EMBED_STACK_SIZE : Nat := 32

/-- Modelled from the spec: (msgpack library) result of `unpacker::next`. -/
inductive NextRes where
  | object (o : object) (unpak : Bytes) : NextRes
  | none (unpak : Bytes) : NextRes
  | unpack_error (unpak : Bytes) : NextRes

/-- Modelled from the spec: `unpacker::next(&msg)`: `true` with the next object,
`false` when the buffer holds no complete object, `unpack_error` on a parse
error.  The unpacker is the unread part of its buffer. -/
def unpacker.next (unpak : Bytes) : NextRes :=
  match parseObj EMBED_STACK_SIZE unpak with
  | .done o r => .object o r
  | .more => .none unpak
  | .failed => .unpack_error unpak

/-- Modelled from the spec: (msgpack library) outcome of `object::convert(&target)`: the target afterwards, and whether
`type_error` was thrown. -/
inductive ConvRes (α : Type) where
  | ok (v : α) : ConvRes α
  | type_error (v : α) : ConvRes α
  deriving DecidableEq, Repr

/-- Modelled from the spec: conversion to `uint32_t`: a positive integer that
fits, otherwise `type_error`. -/
def convert_uint32 (o : object) (target : Nat) : ConvRes Nat :=
  match o with
  | .positive_integer u => if u > 4294967295 then .type_error target else .ok u
  | _ => .type_error target

/-- Modelled from the spec: conversion to `int64_t`. -/
def convert_int64 (o : object) (target : Int) : ConvRes Int :=
  match o with
  | .positive_integer u => if u > 9223372036854775807 then .type_error target else .ok u
  | .negative_integer i => if i < -9223372036854775808 then .type_error target else .ok i
  | _ => .type_error target

/-- Modelled from the spec: conversion to `std::string`: `assign` from a raw. -/
def convert_string (o : object) (target : Bytes) : ConvRes Bytes :=
  match o with
  | .raw p => .ok p
  | _ => .type_error target

/-- Modelled from the spec: (msgpack library) the container's `resize(n)`: cut, or fill with default constructed values. -/
def resize {α : Type} (dflt : α) (v : List α) (n : Nat) : List α :=
  v.take n ++ List.replicate (n - v.length) dflt

/-- Modelled from the spec: (msgpack library) element-wise conversion into an already resized container; stops at the
first element that throws. -/
def convert_items {α : Type} (conv : object → α → ConvRes α) :
    List object → List α → ConvRes (List α)
  | [], v => .ok v
  | _ :: _, [] => .ok []
  | o :: os, x :: xs =>
    match conv o x with
    | .ok y =>
      match convert_items conv os xs with
      | .ok ys => .ok (y :: ys)
      | .type_error ys => .type_error (y :: ys)
    | .type_error y => .type_error (y :: xs)

/-- Modelled from the spec: conversion to `std::vector<std::string>`. -/
def convert_vector_string (o : object) (target : List Bytes) : ConvRes (List Bytes) :=
  match o with
  | .array items => convert_items convert_string items (resize [] target items.length)
  | _ => .type_error target

/-- Modelled from the spec: conversion to `std::vector<uint32_t>` or
`std::list<uint32_t>`. -/
def convert_vector_uint32 (o : object) (target : List Nat) : ConvRes (List Nat) :=
  match o with
  | .array items => convert_items convert_uint32 items (resize 0 target items.length)
  | _ => .type_error target

/-- Modelled from the spec: (msgpack library) the order of `std::string`: lexicographic on the bytes. -/
def string_lt : Bytes → Bytes → Bool
  | [], [] => false
  | [], _ :: _ => true
  | _ :: _, [] => false
  | a :: as, b :: bs => decide (a < b) || (a == b && string_lt as bs)

/-- Modelled from the spec: (msgpack library) assignment `m[key] = val` on a `std::map` kept as its entries in key order. -/
def map_put (key val : Bytes) : List (Bytes × Bytes) → List (Bytes × Bytes)
  | [] => [(key, val)]
  | (k, v) :: t =>
    if string_lt k key then (k, v) :: map_put key val t
    else if string_lt key k then (key, val) :: (k, v) :: t
    else (k, val) :: t

/-- Modelled from the spec: (msgpack library) entry-wise conversion into a `std::map`: entries are stored one by one into
the target, which is not cleared first. -/
def convert_pairs : List (object × object) → List (Bytes × Bytes) →
    ConvRes (List (Bytes × Bytes))
  | [], m => .ok m
  | (ko, vo) :: rest, m =>
    match convert_string ko [] with
    | .type_error _ => .type_error m
    | .ok key =>
      match convert_string vo [] with
      | .type_error _ => .type_error m
      | .ok val => convert_pairs rest (map_put key val m)

/-- Modelled from the spec: conversion to `std::map<std::string, std::string>`. -/
def convert_map_string (o : object) (target : List (Bytes × Bytes)) :
    ConvRes (List (Bytes × Bytes)) :=
  match o with
  | .map items => convert_pairs items target
  | _ => .type_error target

end msgpack

open msgpack

/-! ## Control flow of the `unpack` member functions -/

/-- Where a member function stands after some of its statements: still running,
returned a value, or left by an exception.  `self` is the object, `unpak` the
unpacker, both as the statements left them. -/
inductive Flow (σ : Type) where
  | running (self : σ) (unpak : Bytes) : Flow σ
  | returned (b : Bool) (self : σ) (unpak : Bytes) : Flow σ
  | thrown (e : Exn) (self : σ) (unpak : Bytes) : Flow σ
  deriving DecidableEq, Repr

/-- Sequencing of statements. -/
def Flow.andThen {σ : Type} (f : Flow σ) (k : σ → Bytes → Flow σ) : Flow σ :=
  match f with
  | .running s u => k s u
  | .returned b s u => .returned b s u
  | .thrown e s u => .thrown e s u

/-- The handler `catch (const std::exception& e) { ...; return false; }`. -/
def Flow.catchReturnFalse {σ : Type} (f : Flow σ) : Flow σ :=
  match f with
  | .thrown _ s u => .returned false s u
  | x => x

/-- The final `return true;`. -/
def Flow.returnTrue {σ : Type} (f : Flow σ) : Flow σ :=
  f.andThen fun s u => .returned true s u

/-- The statement pair
`if (!unpak.next(&msg)) return false; msg.get().convert(&field);`
for the field read by `get` and written by `set`. -/
def nextConvert {σ α : Type} (conv : object → α → ConvRes α) (get : σ → α)
    (set : σ → α → σ) (self : σ) (unpak : Bytes) : Flow σ :=
  match unpacker.next unpak with
  | .unpack_error u => .thrown .unpack_error self u
  | .none u => .returned false self u
  | .object o u =>
    match conv o (get self) with
    | .ok v => .running (set self v) u
    | .type_error v => .thrown .type_error (set self v) u

/-- The statement `if (!CommonReqData::unpack(unpak)) return false;` of a derived
record: `base` is the outcome of the call on the base sub-object, `put` stores
the sub-object back. -/
def baseUnpack {σ β : Type} (base : Flow β) (put : β → σ) : Flow σ :=
  match base with
  | .running c u => .running (put c) u
  | .returned true c u => .running (put c) u
  | .returned false c u => .returned false (put c) u
  | .thrown e c u => .thrown e (put c) u

/-! ## The records -/

/-- The enumeration `ReqLogType`. -/
inductive ReqLogType where
  | Req_None
  | Req_NoAdditionDataReq
  | Req_NoAdditionData_NeedBackup_Req
  | Req_NoAdditionDataNoRollback
  | Req_CronJob
  | Req_Callback
  | Req_WithTimestamp
  | Req_Index
  | Req_CreateOrUpdate_Doc
  | Req_Product
  | Req_UpdateConfig
  | Req_Recommend_Index
  | Req_Rebuild_FromSCD
  deriving DecidableEq, Repr

/-- Numeric value of an enumerator. -/
def ReqLogType.val : ReqLogType → Nat
  | .Req_None => 0
  | .Req_NoAdditionDataReq => 1
  | .Req_NoAdditionData_NeedBackup_Req => 2
  | .Req_NoAdditionDataNoRollback => 3
  | .Req_CronJob => 4
  | .Req_Callback => 5
  | .Req_WithTimestamp => 6
  | .Req_Index => 7
  | .Req_CreateOrUpdate_Doc => 8
  | .Req_Product => 9
  | .Req_UpdateConfig => 10
  | .Req_Recommend_Index => 11
  | .Req_Rebuild_FromSCD => 12

/-- The struct `CommonReqData`. -/
structure CommonReqData where
  inc_id : Nat
  reqtype : Nat
  req_json_data : Bytes
  deriving DecidableEq, Repr

/-- The constructor `CommonReqData()`. -/
def CommonReqData.new : CommonReqData :=
  { inc_id := 0, reqtype := ReqLogType.Req_None.val, req_json_data := [] }

/-- The member `CommonReqData::pack`. -/
def CommonReqData.pack (self : CommonReqData) (pk : Bytes) : Bytes :=
  pk ++ pack_uint32 self.inc_id ++ pack_uint32 self.reqtype ++ pack_string self.req_json_data

/-- The member `CommonReqData::unpack`. -/
def CommonReqData.unpack (self : CommonReqData) (unpak : Bytes) : Flow CommonReqData :=
  (((nextConvert convert_uint32 (·.inc_id) (fun s v => { s with inc_id := v }) self unpak
    ).andThen (nextConvert convert_uint32 (·.reqtype) (fun s v => { s with reqtype := v }))
    ).andThen (nextConvert convert_string (·.req_json_data)
      (fun s v => { s with req_json_data := v }))
    ).catchReturnFalse.returnTrue

/-- Transport of an outcome along an embedding of the object. -/
def Flow.map {β σ : Type} (f : β → σ) : Flow β → Flow σ
  | .running s u => .running (f s) u
  | .returned b s u => .returned b (f s) u
  | .thrown e s u => .thrown e (f s) u

/-- The struct `NoAdditionReqLog`; `pack` and `unpack` are inherited. -/
structure NoAdditionReqLog extends CommonReqData
  deriving DecidableEq, Repr

/-- The constructor `NoAdditionReqLog()`. -/
def NoAdditionReqLog.new : NoAdditionReqLog :=
  { CommonReqData.new with reqtype := ReqLogType.Req_NoAdditionDataReq.val }

/-- The struct `NoAdditionNeedBackupReqLog`; `pack` and `unpack` are inherited. -/
structure NoAdditionNeedBackupReqLog extends CommonReqData
  deriving DecidableEq, Repr

/-- The constructor `NoAdditionNeedBackupReqLog()`. -/
def NoAdditionNeedBackupReqLog.new : NoAdditionNeedBackupReqLog :=
  { CommonReqData.new with reqtype := ReqLogType.Req_NoAdditionData_NeedBackup_Req.val }

/-- The struct `NoAdditionNoRollbackReqLog`; `pack` and `unpack` are inherited. -/
structure NoAdditionNoRollbackReqLog extends CommonReqData
  deriving DecidableEq, Repr

/-- The constructor `NoAdditionNoRollbackReqLog()`. -/
def NoAdditionNoRollbackReqLog.new : NoAdditionNoRollbackReqLog :=
  { CommonReqData.new with reqtype := ReqLogType.Req_NoAdditionDataNoRollback.val }

/-- The struct `CronJobReqLog`. -/
structure CronJobReqLog extends CommonReqData where
  cron_time : Int
  deriving DecidableEq, Repr

/-- The constructor `CronJobReqLog()`. -/
def CronJobReqLog.new : CronJobReqLog :=
  { CommonReqData.new with reqtype := ReqLogType.Req_CronJob.val, cron_time := 0 }

/-- The member `CronJobReqLog::pack`. -/
def CronJobReqLog.pack (self : CronJobReqLog) (pk : Bytes) : Bytes :=
  self.toCommonReqData.pack pk ++ pack_int64 self.cron_time

/-- The member `CronJobReqLog::unpack`. -/
def CronJobReqLog.unpack (self : CronJobReqLog) (unpak : Bytes) : Flow CronJobReqLog :=
  (baseUnpack (self.toCommonReqData.unpack unpak) fun c => { self with toCommonReqData := c }
    ).andThen fun self unpak =>
      (nextConvert convert_int64 (·.cron_time) (fun s v => { s with cron_time := v }) self unpak
        ).catchReturnFalse.returnTrue

/-- The struct `TimestampReqLog`. -/
structure TimestampReqLog extends CommonReqData where
  timestamp : Int
  deriving DecidableEq, Repr

/-- The constructor `TimestampReqLog()`. -/
def TimestampReqLog.new : TimestampReqLog :=
  { CommonReqData.new with reqtype := ReqLogType.Req_WithTimestamp.val, timestamp := 0 }

/-- The member `TimestampReqLog::pack`. -/
def TimestampReqLog.pack (self : TimestampReqLog) (pk : Bytes) : Bytes :=
  self.toCommonReqData.pack pk ++ pack_int64 self.timestamp

/-- The member `TimestampReqLog::unpack`. -/
def TimestampReqLog.unpack (self : TimestampReqLog) (unpak : Bytes) : Flow TimestampReqLog :=
  (baseUnpack (self.toCommonReqData.unpack unpak) fun c => { self with toCommonReqData := c }
    ).andThen fun self unpak =>
      (nextConvert convert_int64 (·.timestamp) (fun s v => { s with timestamp := v }) self unpak
        ).catchReturnFalse.returnTrue

/-- The struct `CreateOrUpdateDocReqLog`. -/
structure CreateOrUpdateDocReqLog extends CommonReqData where
  timestamp : Int
  deriving DecidableEq, Repr

/-- The constructor `CreateOrUpdateDocReqLog()`. -/
def CreateOrUpdateDocReqLog.new : CreateOrUpdateDocReqLog :=
  { CommonReqData.new with reqtype := ReqLogType.Req_CreateOrUpdate_Doc.val, timestamp := 0 }

/-- The member `CreateOrUpdateDocReqLog::pack`. -/
def CreateOrUpdateDocReqLog.pack (self : CreateOrUpdateDocReqLog) (pk : Bytes) : Bytes :=
  self.toCommonReqData.pack pk ++ pack_int64 self.timestamp

/-- The member `CreateOrUpdateDocReqLog::unpack`. -/
def CreateOrUpdateDocReqLog.unpack (self : CreateOrUpdateDocReqLog) (unpak : Bytes) :
    Flow CreateOrUpdateDocReqLog :=
  (baseUnpack (self.toCommonReqData.unpack unpak) fun c => { self with toCommonReqData := c }
    ).andThen fun self unpak =>
      (nextConvert convert_int64 (·.timestamp) (fun s v => { s with timestamp := v }) self unpak
        ).catchReturnFalse.returnTrue

/-- The struct `IndexReqLog`. -/
structure IndexReqLog extends CommonReqData where
  scd_list : List Bytes
  timestamp : Int
  deriving DecidableEq, Repr

/-- The constructor `IndexReqLog()`. -/
def IndexReqLog.new : IndexReqLog :=
  { CommonReqData.new with reqtype := ReqLogType.Req_Index.val, scd_list := [], timestamp := 0 }

/-- The member `IndexReqLog::pack`. -/
def IndexReqLog.pack (self : IndexReqLog) (pk : Bytes) : Bytes :=
  self.toCommonReqData.pack pk ++ pack_vector_string self.scd_list ++ pack_int64 self.timestamp

/-- The member `IndexReqLog::unpack`. -/
def IndexReqLog.unpack (self : IndexReqLog) (unpak : Bytes) : Flow IndexReqLog :=
  (baseUnpack (self.toCommonReqData.unpack unpak) fun c => { self with toCommonReqData := c }
    ).andThen fun self unpak =>
      ((nextConvert convert_vector_string (·.scd_list) (fun s v => { s with scd_list := v })
          self unpak
        ).andThen (nextConvert convert_int64 (·.timestamp) (fun s v => { s with timestamp := v }))
        ).catchReturnFalse.returnTrue

/-- The struct `ProductReqLog`. -/
structure ProductReqLog extends CommonReqData where
  str_uuid_list : List Bytes
  deriving DecidableEq, Repr

/-- The constructor `ProductReqLog()`. -/
def ProductReqLog.new : ProductReqLog :=
  { CommonReqData.new with reqtype := ReqLogType.Req_Product.val, str_uuid_list := [] }

/-- The member `ProductReqLog::pack`. -/
def ProductReqLog.pack (self : ProductReqLog) (pk : Bytes) : Bytes :=
  self.toCommonReqData.pack pk ++ pack_vector_string self.str_uuid_list

/-- The member `ProductReqLog::unpack`. -/
def ProductReqLog.unpack (self : ProductReqLog) (unpak : Bytes) : Flow ProductReqLog :=
  (baseUnpack (self.toCommonReqData.unpack unpak) fun c => { self with toCommonReqData := c }
    ).andThen fun self unpak =>
      (nextConvert convert_vector_string (·.str_uuid_list)
          (fun s v => { s with str_uuid_list := v }) self unpak
        ).catchReturnFalse.returnTrue

/-- The struct `UpdateConfigReqLog`; the `std::map` is its entries in key order. -/
structure UpdateConfigReqLog extends CommonReqData where
  config_file_list : List (Bytes × Bytes)
  deriving DecidableEq, Repr

/-- The constructor `UpdateConfigReqLog()`. -/
def UpdateConfigReqLog.new : UpdateConfigReqLog :=
  { CommonReqData.new with reqtype := ReqLogType.Req_UpdateConfig.val, config_file_list := [] }

/-- The member `UpdateConfigReqLog::pack`. -/
def UpdateConfigReqLog.pack (self : UpdateConfigReqLog) (pk : Bytes) : Bytes :=
  self.toCommonReqData.pack pk ++ pack_map_string self.config_file_list

/-- The member `UpdateConfigReqLog::unpack`. -/
def UpdateConfigReqLog.unpack (self : UpdateConfigReqLog) (unpak : Bytes) :
    Flow UpdateConfigReqLog :=
  (baseUnpack (self.toCommonReqData.unpack unpak) fun c => { self with toCommonReqData := c }
    ).andThen fun self unpak =>
      (nextConvert convert_map_string (·.config_file_list)
          (fun s v => { s with config_file_list := v }) self unpak
        ).catchReturnFalse.returnTrue

/-- The struct `UpdateRecCallbackReqLog`. -/
structure UpdateRecCallbackReqLog extends CommonReqData where
  oldItems : List Nat
  newItems : List Nat
  deriving DecidableEq, Repr

/-- The constructor `UpdateRecCallbackReqLog()`. -/
def UpdateRecCallbackReqLog.new : UpdateRecCallbackReqLog :=
  { CommonReqData.new with reqtype := ReqLogType.Req_Callback.val, oldItems := [], newItems := [] }

/-- The member `UpdateRecCallbackReqLog::pack`. -/
def UpdateRecCallbackReqLog.pack (self : UpdateRecCallbackReqLog) (pk : Bytes) : Bytes :=
  self.toCommonReqData.pack pk ++ pack_vector_uint32 self.oldItems
    ++ pack_vector_uint32 self.newItems

/-- The member `UpdateRecCallbackReqLog::unpack`. -/
def UpdateRecCallbackReqLog.unpack (self : UpdateRecCallbackReqLog) (unpak : Bytes) :
    Flow UpdateRecCallbackReqLog :=
  (baseUnpack (self.toCommonReqData.unpack unpak) fun c => { self with toCommonReqData := c }
    ).andThen fun self unpak =>
      ((nextConvert convert_vector_uint32 (·.oldItems) (fun s v => { s with oldItems := v })
          self unpak
        ).andThen (nextConvert convert_vector_uint32 (·.newItems)
          (fun s v => { s with newItems := v }))
        ).catchReturnFalse.returnTrue

/-- The struct `BuildPurchaseSimCallbackReqLog`. -/
structure BuildPurchaseSimCallbackReqLog extends CommonReqData
  deriving DecidableEq, Repr

/-- The constructor `BuildPurchaseSimCallbackReqLog()`. -/
def BuildPurchaseSimCallbackReqLog.new : BuildPurchaseSimCallbackReqLog :=
  { CommonReqData.new with reqtype := ReqLogType.Req_Callback.val }

/-- The member `BuildPurchaseSimCallbackReqLog::pack`. -/
def BuildPurchaseSimCallbackReqLog.pack (self : BuildPurchaseSimCallbackReqLog) (pk : Bytes) :
    Bytes :=
  self.toCommonReqData.pack pk

/-- The member `BuildPurchaseSimCallbackReqLog::unpack`. -/
def BuildPurchaseSimCallbackReqLog.unpack (self : BuildPurchaseSimCallbackReqLog)
    (unpak : Bytes) : Flow BuildPurchaseSimCallbackReqLog :=
  (baseUnpack (self.toCommonReqData.unpack unpak) fun c => { self with toCommonReqData := c }
    ).returnTrue

/-- The struct `RecommendIndexReqLog`. -/
structure RecommendIndexReqLog extends CommonReqData where
  user_scd_list : List Bytes
  order_scd_list : List Bytes
  timestamp : Int
  deriving DecidableEq, Repr

/-- The constructor `RecommendIndexReqLog()`. -/
def RecommendIndexReqLog.new : RecommendIndexReqLog :=
  { CommonReqData.new with
    reqtype := ReqLogType.Req_Recommend_Index.val
    user_scd_list := [], order_scd_list := [], timestamp := 0 }

/-- The member `RecommendIndexReqLog::pack`. -/
def RecommendIndexReqLog.pack (self : RecommendIndexReqLog) (pk : Bytes) : Bytes :=
  self.toCommonReqData.pack pk ++ pack_vector_string self.user_scd_list
    ++ pack_vector_string self.order_scd_list ++ pack_int64 self.timestamp

/-- The member `RecommendIndexReqLog::unpack`. -/
def RecommendIndexReqLog.unpack (self : RecommendIndexReqLog) (unpak : Bytes) :
    Flow RecommendIndexReqLog :=
  (baseUnpack (self.toCommonReqData.unpack unpak) fun c => { self with toCommonReqData := c }
    ).andThen fun self unpak =>
      (((nextConvert convert_vector_string (·.user_scd_list)
          (fun s v => { s with user_scd_list := v }) self unpak
        ).andThen (nextConvert convert_vector_string (·.order_scd_list)
          (fun s v => { s with order_scd_list := v }))
        ).andThen (nextConvert convert_int64 (·.timestamp) (fun s v => { s with timestamp := v }))
        ).catchReturnFalse.returnTrue

/-- The struct `RebuildCronTaskReqLog`. -/
structure RebuildCronTaskReqLog extends CommonReqData where
  cron_time : Int
  replayed_id_list : List Nat
  deriving DecidableEq, Repr

/-- The constructor `RebuildCronTaskReqLog()`; it leaves `cron_time` uninitialised, so
the value found there is a parameter. -/
def RebuildCronTaskReqLog.new (uninit_cron_time : Int) : RebuildCronTaskReqLog :=
  { CommonReqData.new with
    reqtype := ReqLogType.Req_CronJob.val
    cron_time := uninit_cron_time, replayed_id_list := [] }

/-- The member `RebuildCronTaskReqLog::pack`. -/
def RebuildCronTaskReqLog.pack (self : RebuildCronTaskReqLog) (pk : Bytes) : Bytes :=
  self.toCommonReqData.pack pk ++ pack_int64 self.cron_time
    ++ pack_vector_uint32 self.replayed_id_list

/-- The member `RebuildCronTaskReqLog::unpack`. -/
def RebuildCronTaskReqLog.unpack (self : RebuildCronTaskReqLog) (unpak : Bytes) :
    Flow RebuildCronTaskReqLog :=
  (baseUnpack (self.toCommonReqData.unpack unpak) fun c => { self with toCommonReqData := c }
    ).andThen fun self unpak =>
      ((nextConvert convert_int64 (·.cron_time) (fun s v => { s with cron_time := v }) self unpak
        ).andThen (nextConvert convert_vector_uint32 (·.replayed_id_list)
          (fun s v => { s with replayed_id_list := v }))
        ).catchReturnFalse.returnTrue

/-- The struct `RebuildFromSCDReqLog`. -/
structure RebuildFromSCDReqLog extends CommonReqData where
  scd_list : List Bytes
  timestamp : Int
  replayed_id_list : List Nat
  deriving DecidableEq, Repr

/-- The constructor `RebuildFromSCDReqLog()`. -/
def RebuildFromSCDReqLog.new : RebuildFromSCDReqLog :=
  { CommonReqData.new with
    reqtype := ReqLogType.Req_Rebuild_FromSCD.val
    scd_list := [], timestamp := 0, replayed_id_list := [] }

/-- The member `RebuildFromSCDReqLog::pack`. -/
def RebuildFromSCDReqLog.pack (self : RebuildFromSCDReqLog) (pk : Bytes) : Bytes :=
  self.toCommonReqData.pack pk ++ pack_vector_string self.scd_list ++ pack_int64 self.timestamp
    ++ pack_vector_uint32 self.replayed_id_list

/-- The member `RebuildFromSCDReqLog::unpack`. -/
def RebuildFromSCDReqLog.unpack (self : RebuildFromSCDReqLog) (unpak : Bytes) :
    Flow RebuildFromSCDReqLog :=
  (baseUnpack (self.toCommonReqData.unpack unpak) fun c => { self with toCommonReqData := c }
    ).andThen fun self unpak =>
      (((nextConvert convert_vector_string (·.scd_list) (fun s v => { s with scd_list := v })
          self unpak
        ).andThen (nextConvert convert_int64 (·.timestamp) (fun s v => { s with timestamp := v }))
        ).andThen (nextConvert convert_vector_uint32 (·.replayed_id_list)
          (fun s v => { s with replayed_id_list := v }))
        ).catchReturnFalse.returnTrue

/-! ## Records behind a `CommonReqData&` -/

/-- An object seen through a `CommonReqData&`: its dynamic type and its value. -/
inductive ReqData where
  | Common (r : CommonReqData)
  | NoAddition (r : NoAdditionReqLog)
  | NoAdditionNeedBackup (r : NoAdditionNeedBackupReqLog)
  | NoAdditionNoRollback (r : NoAdditionNoRollbackReqLog)
  | CronJob (r : CronJobReqLog)
  | Timestamp (r : TimestampReqLog)
  | CreateOrUpdateDoc (r : CreateOrUpdateDocReqLog)
  | Index (r : IndexReqLog)
  | Product (r : ProductReqLog)
  | UpdateConfig (r : UpdateConfigReqLog)
  | UpdateRecCallback (r : UpdateRecCallbackReqLog)
  | BuildPurchaseSimCallback (r : BuildPurchaseSimCallbackReqLog)
  | RecommendIndex (r : RecommendIndexReqLog)
  | RebuildCronTask (r : RebuildCronTaskReqLog)
  | RebuildFromSCD (r : RebuildFromSCDReqLog)
  deriving DecidableEq, Repr

/-- The base sub-object. -/
def ReqData.common : ReqData → CommonReqData
  | .Common r => r
  | .NoAddition r => r.toCommonReqData
  | .NoAdditionNeedBackup r => r.toCommonReqData
  | .NoAdditionNoRollback r => r.toCommonReqData
  | .CronJob r => r.toCommonReqData
  | .Timestamp r => r.toCommonReqData
  | .CreateOrUpdateDoc r => r.toCommonReqData
  | .Index r => r.toCommonReqData
  | .Product r => r.toCommonReqData
  | .UpdateConfig r => r.toCommonReqData
  | .UpdateRecCallback r => r.toCommonReqData
  | .BuildPurchaseSimCallback r => r.toCommonReqData
  | .RecommendIndex r => r.toCommonReqData
  | .RebuildCronTask r => r.toCommonReqData
  | .RebuildFromSCD r => r.toCommonReqData

/-- The virtual call `reqdata.pack(pk)`. -/
def ReqData.pack : ReqData → Bytes → Bytes
  | .Common r, pk => r.pack pk
  | .NoAddition r, pk => r.toCommonReqData.pack pk
  | .NoAdditionNeedBackup r, pk => r.toCommonReqData.pack pk
  | .NoAdditionNoRollback r, pk => r.toCommonReqData.pack pk
  | .CronJob r, pk => r.pack pk
  | .Timestamp r, pk => r.pack pk
  | .CreateOrUpdateDoc r, pk => r.pack pk
  | .Index r, pk => r.pack pk
  | .Product r, pk => r.pack pk
  | .UpdateConfig r, pk => r.pack pk
  | .UpdateRecCallback r, pk => r.pack pk
  | .BuildPurchaseSimCallback r, pk => r.pack pk
  | .RecommendIndex r, pk => r.pack pk
  | .RebuildCronTask r, pk => r.pack pk
  | .RebuildFromSCD r, pk => r.pack pk

/-- The virtual call `reqdata.unpack(unpak)`. -/
def ReqData.unpack : ReqData → Bytes → Flow ReqData
  | .Common r, unpak => (r.unpack unpak).map .Common
  | .NoAddition r, unpak =>
    (r.toCommonReqData.unpack unpak).map fun c => .NoAddition { r with toCommonReqData := c }
  | .NoAdditionNeedBackup r, unpak =>
    (r.toCommonReqData.unpack unpak).map fun c => .NoAdditionNeedBackup { r with toCommonReqData := c }
  | .NoAdditionNoRollback r, unpak =>
    (r.toCommonReqData.unpack unpak).map fun c => .NoAdditionNoRollback { r with toCommonReqData := c }
  | .CronJob r, unpak => (r.unpack unpak).map .CronJob
  | .Timestamp r, unpak => (r.unpack unpak).map .Timestamp
  | .CreateOrUpdateDoc r, unpak => (r.unpack unpak).map .CreateOrUpdateDoc
  | .Index r, unpak => (r.unpack unpak).map .Index
  | .Product r, unpak => (r.unpack unpak).map .Product
  | .UpdateConfig r, unpak => (r.unpack unpak).map .UpdateConfig
  | .UpdateRecCallback r, unpak => (r.unpack unpak).map .UpdateRecCallback
  | .BuildPurchaseSimCallback r, unpak => (r.unpack unpak).map .BuildPurchaseSimCallback
  | .RecommendIndex r, unpak => (r.unpack unpak).map .RecommendIndex
  | .RebuildCronTask r, unpak => (r.unpack unpak).map .RebuildCronTask
  | .RebuildFromSCD r, unpak => (r.unpack unpak).map .RebuildFromSCD

/-- A default constructed record of the same dynamic type as `r`; `uninit` is the
value found in a member the constructor does not initialise. -/
def ReqData.newLike (uninit : Int) : ReqData → ReqData
  | .Common _ => .Common CommonReqData.new
  | .NoAddition _ => .NoAddition NoAdditionReqLog.new
  | .NoAdditionNeedBackup _ => .NoAdditionNeedBackup NoAdditionNeedBackupReqLog.new
  | .NoAdditionNoRollback _ => .NoAdditionNoRollback NoAdditionNoRollbackReqLog.new
  | .CronJob _ => .CronJob CronJobReqLog.new
  | .Timestamp _ => .Timestamp TimestampReqLog.new
  | .CreateOrUpdateDoc _ => .CreateOrUpdateDoc CreateOrUpdateDocReqLog.new
  | .Index _ => .Index IndexReqLog.new
  | .Product _ => .Product ProductReqLog.new
  | .UpdateConfig _ => .UpdateConfig UpdateConfigReqLog.new
  | .UpdateRecCallback _ => .UpdateRecCallback UpdateRecCallbackReqLog.new
  | .BuildPurchaseSimCallback _ => .BuildPurchaseSimCallback BuildPurchaseSimCallbackReqLog.new
  | .RecommendIndex _ => .RecommendIndex RecommendIndexReqLog.new
  | .RebuildCronTask _ => .RebuildCronTask (RebuildCronTaskReqLog.new uninit)
  | .RebuildFromSCD _ => .RebuildFromSCD RebuildFromSCDReqLog.new

/-! ## `ReqLogMgr`: the static codec functions -/

namespace ReqLogMgr

/-- The function `ReqLogMgr::packReqLogData`; the result is the value assigned to
`packed_data`. -/
def packReqLogData (reqdata : ReqData) : Bytes :=
  reqdata.pack []

/-- The function `ReqLogMgr::unpackReqLogData`: the unpacker buffer is a copy of
`packed_data`. -/
def unpackReqLogData (packed_data : Bytes) (reqdata : ReqData) : Flow ReqData :=
  reqdata.unpack packed_data

/-- Exceptions of `std::string`. -/
inductive StdExn where
  | out_of_range
  deriving DecidableEq, Repr

/-- The member `std::string::replace(pos, len, str)`. -/
def string_replace (s : Bytes) (pos len : Nat) (str : Bytes) : Except StdExn Bytes :=
  if pos > s.length then .error .out_of_range
  else .ok (s.take pos ++ str ++ s.drop (pos + min len (s.length - pos)))

/-- The function `ReqLogMgr::replaceCommonReqData`; the result is `packed_data`
afterwards, or the exception that left the function. -/
def replaceCommonReqData (old_common new_common : ReqData) (packed_data : Bytes) :
    Except StdExn Bytes :=
  let old_common_packed_data := packReqLogData old_common
  let new_common_packed_data := packReqLogData new_common
  string_replace packed_data 0 old_common_packed_data.length new_common_packed_data

end ReqLogMgr

/-! ## Values a record can hold -/

/-- A `uint32_t` value. -/
def IsUInt32 (n : Nat) : Prop := n < 4294967296

/-- An `int64_t` value. -/
def IsInt64 (d : Int) : Prop := -9223372036854775808 ≤ d ∧ d < 9223372036854775808

/-- A string whose size fits the 32 bit length field of the wire format. -/
def IsString (v : Bytes) : Prop := v.length < 4294967296

/-- A sequence of strings whose sizes fit the wire format. -/
def IsStringList (v : List Bytes) : Prop := v.length < 4294967296 ∧ ∀ x ∈ v, IsString x

/-- A sequence of `uint32_t` whose size fits the wire format. -/
def IsUInt32List (v : List Nat) : Prop := v.length < 4294967296 ∧ ∀ x ∈ v, IsUInt32 x

/-- A `std::map<std::string, std::string>`: entries in strictly increasing key order. -/
def IsStringMap (v : List (Bytes × Bytes)) : Prop :=
  v.length < 4294967296 ∧ (∀ x ∈ v, IsString x.1 ∧ IsString x.2) ∧
    v.Pairwise fun a b => string_lt a.1 b.1 = true

instance (n : Nat) : Decidable (IsUInt32 n) := by unfold IsUInt32; infer_instance
instance (d : Int) : Decidable (IsInt64 d) := by unfold IsInt64; infer_instance
instance (v : Bytes) : Decidable (IsString v) := by unfold IsString; infer_instance
instance (v : List Bytes) : Decidable (IsStringList v) := by unfold IsStringList; infer_instance
instance (v : List Nat) : Decidable (IsUInt32List v) := by unfold IsUInt32List; infer_instance
instance (v : List (Bytes × Bytes)) : Decidable (IsStringMap v) := by
  unfold IsStringMap; infer_instance

/-- The members of a `CommonReqData` hold values of their C++ types. -/
def CommonReqData.Legal (c : CommonReqData) : Prop :=
  IsUInt32 c.inc_id ∧ IsUInt32 c.reqtype ∧ IsString c.req_json_data

instance (c : CommonReqData) : Decidable c.Legal := by
  unfold CommonReqData.Legal; infer_instance

/-- The members of a record hold values of their C++ types, with sizes that fit
the 32 bit length fields of the wire format. -/
def ReqData.Legal : ReqData → Prop
  | .Common r => r.Legal
  | .NoAddition r => r.toCommonReqData.Legal
  | .NoAdditionNeedBackup r => r.toCommonReqData.Legal
  | .NoAdditionNoRollback r => r.toCommonReqData.Legal
  | .CronJob r => r.toCommonReqData.Legal ∧ IsInt64 r.cron_time
  | .Timestamp r => r.toCommonReqData.Legal ∧ IsInt64 r.timestamp
  | .CreateOrUpdateDoc r => r.toCommonReqData.Legal ∧ IsInt64 r.timestamp
  | .Index r => r.toCommonReqData.Legal ∧ IsStringList r.scd_list ∧ IsInt64 r.timestamp
  | .Product r => r.toCommonReqData.Legal ∧ IsStringList r.str_uuid_list
  | .UpdateConfig r => r.toCommonReqData.Legal ∧ IsStringMap r.config_file_list
  | .UpdateRecCallback r =>
    r.toCommonReqData.Legal ∧ IsUInt32List r.oldItems ∧ IsUInt32List r.newItems
  | .BuildPurchaseSimCallback r => r.toCommonReqData.Legal
  | .RecommendIndex r =>
    r.toCommonReqData.Legal ∧ IsStringList r.user_scd_list ∧ IsStringList r.order_scd_list ∧
      IsInt64 r.timestamp
  | .RebuildCronTask r =>
    r.toCommonReqData.Legal ∧ IsInt64 r.cron_time ∧ IsUInt32List r.replayed_id_list
  | .RebuildFromSCD r =>
    r.toCommonReqData.Legal ∧ IsStringList r.scd_list ∧ IsInt64 r.timestamp ∧
      IsUInt32List r.replayed_id_list

instance (r : ReqData) : Decidable r.Legal := by
  cases r <;> (unfold ReqData.Legal; infer_instance)

/-- The object the parser builds for a signed value. -/
def msgpack.int64_object (d : Int) : object :=
  if 0 ≤ d then .positive_integer d.toNat else .negative_integer d

/-- The record `r` with its base sub-object replaced by `c` and every member of the
derived type kept. -/
def ReqData.withCommon (c : CommonReqData) : ReqData → ReqData
  | .Common _ => .Common c
  | .NoAddition r => .NoAddition { r with toCommonReqData := c }
  | .NoAdditionNeedBackup r => .NoAdditionNeedBackup { r with toCommonReqData := c }
  | .NoAdditionNoRollback r => .NoAdditionNoRollback { r with toCommonReqData := c }
  | .CronJob r => .CronJob { r with toCommonReqData := c }
  | .Timestamp r => .Timestamp { r with toCommonReqData := c }
  | .CreateOrUpdateDoc r => .CreateOrUpdateDoc { r with toCommonReqData := c }
  | .Index r => .Index { r with toCommonReqData := c }
  | .Product r => .Product { r with toCommonReqData := c }
  | .UpdateConfig r => .UpdateConfig { r with toCommonReqData := c }
  | .UpdateRecCallback r => .UpdateRecCallback { r with toCommonReqData := c }
  | .BuildPurchaseSimCallback r => .BuildPurchaseSimCallback { r with toCommonReqData := c }
  | .RecommendIndex r => .RecommendIndex { r with toCommonReqData := c }
  | .RebuildCronTask r => .RebuildCronTask { r with toCommonReqData := c }
  | .RebuildFromSCD r => .RebuildFromSCD { r with toCommonReqData := c }

/-- Width class of the narrowest msgpack form of an unsigned value: 0 for a fixnum,
1, 2, 3 for the 8, 16 and 32 bit forms. -/
def msgpack.uint32_form (d : Nat) : Nat :=
  if d < 128 then 0 else if d < 256 then 1 else if d < 65536 then 2 else 3

/-! ## Sample records -/

/-- A rebuild record with an empty string in its list and a negative timestamp. -/
def sampleRebuild : ReqData :=
  .RebuildFromSCD
    { inc_id := 300, reqtype := 12, req_json_data := [123, 125]
      scd_list := [[97, 46, 83, 67, 68], [], [98]]
      timestamp := -5000000000
      replayed_id_list := [1, 200, 70000] }

/-- A configuration record with two files. -/
def sampleConfig : ReqData :=
  .UpdateConfig
    { inc_id := 1, reqtype := 10, req_json_data := []
      config_file_list := [([97], [1, 2, 3]), ([97, 98], [])] }

/-- A cron record with a one byte identifier. -/
def sampleCron : ReqData :=
  .CronJob { inc_id := 7, reqtype := 4, req_json_data := [106, 111, 98], cron_time := 1360000000 }

/-- A common part whose identifier needs the 8 bit form. -/
def sampleCommon128 : CommonReqData :=
  { inc_id := 128, reqtype := 1, req_json_data := [123, 125] }

/-- A common part whose identifier is a fixnum. -/
def sampleCommon127 : CommonReqData :=
  { inc_id := 127, reqtype := 1, req_json_data := [123, 125] }

/-! ## The checksum -/

/-- The table `_crc32tab`. -/
def _crc32tab : List Nat :=
  [
   0x0, 0x77073096, 0xee0e612c, 0x990951ba, 0x76dc419, 0x706af48f, 0xe963a535, 0x9e6495a3,
   0xedb8832, 0x79dcb8a4, 0xe0d5e91e, 0x97d2d988, 0x9b64c2b, 0x7eb17cbd, 0xe7b82d07, 0x90bf1d91,
   0x1db71064, 0x6ab020f2, 0xf3b97148, 0x84be41de, 0x1adad47d, 0x6ddde4eb, 0xf4d4b551, 0x83d385c7,
   0x136c9856, 0x646ba8c0, 0xfd62f97a, 0x8a65c9ec, 0x14015c4f, 0x63066cd9, 0xfa0f3d63, 0x8d080df5,
   0x3b6e20c8, 0x4c69105e, 0xd56041e4, 0xa2677172, 0x3c03e4d1, 0x4b04d447, 0xd20d85fd, 0xa50ab56b,
   0x35b5a8fa, 0x42b2986c, 0xdbbbc9d6, 0xacbcf940, 0x32d86ce3, 0x45df5c75, 0xdcd60dcf, 0xabd13d59,
   0x26d930ac, 0x51de003a, 0xc8d75180, 0xbfd06116, 0x21b4f4b5, 0x56b3c423, 0xcfba9599, 0xb8bda50f,
   0x2802b89e, 0x5f058808, 0xc60cd9b2, 0xb10be924, 0x2f6f7c87, 0x58684c11, 0xc1611dab, 0xb6662d3d,
   0x76dc4190, 0x1db7106, 0x98d220bc, 0xefd5102a, 0x71b18589, 0x6b6b51f, 0x9fbfe4a5, 0xe8b8d433,
   0x7807c9a2, 0xf00f934, 0x9609a88e, 0xe10e9818, 0x7f6a0dbb, 0x86d3d2d, 0x91646c97, 0xe6635c01,
   0x6b6b51f4, 0x1c6c6162, 0x856530d8, 0xf262004e, 0x6c0695ed, 0x1b01a57b, 0x8208f4c1, 0xf50fc457,
   0x65b0d9c6, 0x12b7e950, 0x8bbeb8ea, 0xfcb9887c, 0x62dd1ddf, 0x15da2d49, 0x8cd37cf3, 0xfbd44c65,
   0x4db26158, 0x3ab551ce, 0xa3bc0074, 0xd4bb30e2, 0x4adfa541, 0x3dd895d7, 0xa4d1c46d, 0xd3d6f4fb,
   0x4369e96a, 0x346ed9fc, 0xad678846, 0xda60b8d0, 0x44042d73, 0x33031de5, 0xaa0a4c5f, 0xdd0d7cc9,
   0x5005713c, 0x270241aa, 0xbe0b1010, 0xc90c2086, 0x5768b525, 0x206f85b3, 0xb966d409, 0xce61e49f,
   0x5edef90e, 0x29d9c998, 0xb0d09822, 0xc7d7a8b4, 0x59b33d17, 0x2eb40d81, 0xb7bd5c3b, 0xc0ba6cad,
   0xedb88320, 0x9abfb3b6, 0x3b6e20c, 0x74b1d29a, 0xead54739, 0x9dd277af, 0x4db2615, 0x73dc1683,
   0xe3630b12, 0x94643b84, 0xd6d6a3e, 0x7a6a5aa8, 0xe40ecf0b, 0x9309ff9d, 0xa00ae27, 0x7d079eb1,
   0xf00f9344, 0x8708a3d2, 0x1e01f268, 0x6906c2fe, 0xf762575d, 0x806567cb, 0x196c3671, 0x6e6b06e7,
   0xfed41b76, 0x89d32be0, 0x10da7a5a, 0x67dd4acc, 0xf9b9df6f, 0x8ebeeff9, 0x17b7be43, 0x60b08ed5,
   0xd6d6a3e8, 0xa1d1937e, 0x38d8c2c4, 0x4fdff252, 0xd1bb67f1, 0xa6bc5767, 0x3fb506dd, 0x48b2364b,
   0xd80d2bda, 0xaf0a1b4c, 0x36034af6, 0x41047a60, 0xdf60efc3, 0xa867df55, 0x316e8eef, 0x4669be79,
   0xcb61b38c, 0xbc66831a, 0x256fd2a0, 0x5268e236, 0xcc0c7795, 0xbb0b4703, 0x220216b9, 0x5505262f,
   0xc5ba3bbe, 0xb2bd0b28, 0x2bb45a92, 0x5cb36a04, 0xc2d7ffa7, 0xb5d0cf31, 0x2cd99e8b, 0x5bdeae1d,
   0x9b64c2b0, 0xec63f226, 0x756aa39c, 0x26d930a, 0x9c0906a9, 0xeb0e363f, 0x72076785, 0x5005713,
   0x95bf4a82, 0xe2b87a14, 0x7bb12bae, 0xcb61b38, 0x92d28e9b, 0xe5d5be0d, 0x7cdcefb7, 0xbdbdf21,
   0x86d3d2d4, 0xf1d4e242, 0x68ddb3f8, 0x1fda836e, 0x81be16cd, 0xf6b9265b, 0x6fb077e1, 0x18b74777,
   0x88085ae6, 0xff0f6a70, 0x66063bca, 0x11010b5c, 0x8f659eff, 0xf862ae69, 0x616bffd3, 0x166ccf45,
   0xa00ae278, 0xd70dd2ee, 0x4e048354, 0x3903b3c2, 0xa7672661, 0xd06016f7, 0x4969474d, 0x3e6e77db,
   0xaed16a4a, 0xd9d65adc, 0x40df0b66, 0x37d83bf0, 0xa9bcae53, 0xdebb9ec5, 0x47b2cf7f, 0x30b5ffe9,
   0xbdbdf21c, 0xcabac28a, 0x53b39330, 0x24b4a3a6, 0xbad03605, 0xcdd70693, 0x54de5729, 0x23d967bf,
   0xb3667a2e, 0xc4614ab8, 0x5d681b02, 0x2a6f2b94, 0xb40bbe37, 0xc30c8ea1, 0x5a05df1b, 0x2d02ef8d]

/-- The value of `*data` inside `crc ^ (*data)`: a `char` of byte value `b` is
signed, so it is sign extended to 32 bits before the exclusive or. -/
def charToUInt32 (b : Nat) : Nat :=
  if b < 128 then b else b + 0xFFFFFF00

/-- The function `ReqLogMgr::crc`; `len` is the signed 32 bit length.  The loop
reads `data[0 .. len-1]`; the model stops at the end of `data`. -/
def ReqLogMgr.crc : Nat → Bytes → Int → Nat
  | crc, [], _ => crc
  | crc, b :: data, len =>
    if 0 < len then
      ReqLogMgr.crc ((crc >>> 8) ^^^ _crc32tab.getD ((crc ^^^ charToUInt32 b) &&& 0xff) 0)
        data (len - 1)
    else crc

/-- One bit of the reflected (least significant bit first) CRC-32 register update
with polynomial `0xEDB88320`: shift right, and fold the polynomial in when the bit
shifted out is set. -/
def crcBitStep (v : Nat) : Nat :=
  (v >>> 1) ^^^ (if v % 2 = 1 then 0xEDB88320 else 0)

/-- The bitwise register update for one byte: the byte enters the low bits of the
register, then eight bit steps. -/
def crcByteBitwise (c b : Nat) : Nat :=
  crcBitStep^[8] (c ^^^ b)

/-- The bitwise register update folded over a byte sequence. -/
def crcBitwise (c : Nat) (bs : Bytes) : Nat :=
  bs.foldl crcByteBitwise c

/-- The ASCII bytes of `"123456789"`. -/
def crcCheckInput : Bytes := [49, 50, 51, 52, 53, 54, 55, 56, 57]

/-! ## Members on the wire -/

/-- Whether a conversion completed without `type_error`. -/
def msgpack.ConvRes.isOk {α : Type} : ConvRes α → Bool
  | .ok _ => true
  | .type_error _ => false

/-- The C++ types of the members that records put on the wire. -/
inductive FieldType where
  | uint32
  | int64
  | string
  | vector_string
  | vector_uint32
  | map_string
  deriving DecidableEq, Repr

/-- Whether `object::convert` into a member of the given type accepts the object
(it throws `type_error` otherwise). -/
def FieldType.convertible : FieldType → object → Bool
  | .uint32, o => (convert_uint32 o 0).isOk
  | .int64, o => (convert_int64 o 0).isOk
  | .string, o => (convert_string o []).isOk
  | .vector_string, o => (convert_vector_string o []).isOk
  | .vector_uint32, o => (convert_vector_uint32 o []).isOk
  | .map_string, o => (convert_map_string o []).isOk

/-- The members of `CommonReqData` in declaration order. -/
def CommonReqData.fields : List FieldType := [.uint32, .uint32, .string]

/-- The members of a record in the order `pack` writes and `unpack` reads them. -/
def ReqData.fields : ReqData → List FieldType
  | .Common _ => CommonReqData.fields
  | .NoAddition _ => CommonReqData.fields
  | .NoAdditionNeedBackup _ => CommonReqData.fields
  | .NoAdditionNoRollback _ => CommonReqData.fields
  | .CronJob _ => CommonReqData.fields ++ [.int64]
  | .Timestamp _ => CommonReqData.fields ++ [.int64]
  | .CreateOrUpdateDoc _ => CommonReqData.fields ++ [.int64]
  | .Index _ => CommonReqData.fields ++ [.vector_string, .int64]
  | .Product _ => CommonReqData.fields ++ [.vector_string]
  | .UpdateConfig _ => CommonReqData.fields ++ [.map_string]
  | .UpdateRecCallback _ => CommonReqData.fields ++ [.vector_uint32, .vector_uint32]
  | .BuildPurchaseSimCallback _ => CommonReqData.fields
  | .RecommendIndex _ => CommonReqData.fields ++ [.vector_string, .vector_string, .int64]
  | .RebuildCronTask _ => CommonReqData.fields ++ [.int64, .vector_uint32]
  | .RebuildFromSCD _ => CommonReqData.fields ++ [.vector_string, .int64, .vector_uint32]

/-- The `k`-th object (from 0) that successive calls of `unpacker::next` deliver
on a buffer, when all of the first `k + 1` calls deliver one. -/
def atomAt : Nat → Bytes → Option object
  | 0, s =>
    match unpacker.next s with
    | .object o _ => some o
    | _ => none
  | k + 1, s =>
    match unpacker.next s with
    | .object _ u => atomAt k u
    | _ => none

/-- The buffer left when each member type in turn finds a complete object that it
accepts; `none` when some member does not. -/
def readFields : List FieldType → Bytes → Option Bytes
  | [], u => some u
  | ft :: fts, u =>
    match unpacker.next u with
    | .object o r => if ft.convertible o then readFields fts r else none
    | _ => none

/-- A block of statements has read the members `fts` from `q`: it is still running on
the rest of the buffer when all were found and accepted, and has returned `false` or
thrown otherwise. -/
def Flow.Reads {σ : Type} (fts : List FieldType) (q : Bytes) (f : Flow σ) : Prop :=
  match readFields fts q with
  | some u => ∃ s, f = .running s u
  | none => ∃ s u, f = .returned false s u ∨ ∃ e, f = .thrown e s u

/-- A call has decoded the members `fts` from `q`: it returned `true` with the rest of
the buffer when all were found and accepted, and returned `false` otherwise. -/
def Flow.Decodes {σ : Type} (fts : List FieldType) (q : Bytes) (f : Flow σ) : Prop :=
  match readFields fts q with
  | some u => ∃ s, f = .returned true s u
  | none => ∃ s u, f = .returned false s u

/-- A parser keeps its result when bytes are added behind the buffer. -/
def msgpack.ExtDone {α : Type} (F : Bytes → PRes α) : Prop :=
  ∀ (q s : Bytes) (v : α) (r : Bytes), F q = .done v r → F (q ++ s) = .done v (r ++ s)

/-- Two records have the same dynamic type. -/
def ReqData.sameType (a b : ReqData) : Prop := a.newLike 0 = b.newLike 0

instance (a b : ReqData) : Decidable (a.sameType b) := by
  unfold ReqData.sameType; infer_instance

/-- The object as the statements left it, whatever the outcome. -/
def Flow.self {σ : Type} : Flow σ → σ
  | .running s _ => s
  | .returned _ s _ => s
  | .thrown _ s _ => s

/-! ## The head index record -/

/-- The struct `ReqLogHead`, declared under `#pragma pack(1)`. -/
structure ReqLogHead where
  inc_id : Nat
  reqtype : Nat
  req_data_offset : Nat
  req_data_len : Nat
  req_data_crc : Nat
  deriving DecidableEq, Repr

/-- The members of a `ReqLogHead` hold `uint32_t` values. -/
def ReqLogHead.Legal (h : ReqLogHead) : Prop :=
  IsUInt32 h.inc_id ∧ IsUInt32 h.reqtype ∧ IsUInt32 h.req_data_offset ∧
    IsUInt32 h.req_data_len ∧ IsUInt32 h.req_data_crc

instance (h : ReqLogHead) : Decidable h.Legal := by
  unfold ReqLogHead.Legal; infer_instance

/-- Size and natural alignment of each member of `ReqLogHead`, in declaration order:
five `uint32_t`. -/
def ReqLogHead.members : List (Nat × Nat) := [(4, 4), (4, 4), (4, 4), (4, 4), (4, 4)]

/-- Modelled from the spec: the offsets of struct members under `#pragma pack(n)`
("explicit single-byte alignment" for `n = 1`): a member of size `sz` and natural
alignment `al` is placed at the first multiple of `min n al` not below the end of the
member before it.  `off` is the end of the members placed so far. -/
def packedOffsets (n : Nat) : Nat → List (Nat × Nat) → List Nat
  | _, [] => []
  | off, (sz, al) :: ms =>
    let o := (off + (min n al - 1)) / min n al * min n al
    o :: packedOffsets n (o + sz) ms

/-- Modelled from the spec: the size of a struct under `#pragma pack(n)`: the end of
the last member, rounded up to the alignment of the struct. -/
def packedSize (n : Nat) (ms : List (Nat × Nat)) : Nat :=
  let ends := (List.zip (packedOffsets n 0 ms) ms).map fun p => p.1 + p.2.1
  let a := min n ((ms.map fun m => m.2).foldl max 1)
  ((ends.foldl max 0) + (a - 1)) / a * a

/-- Little-endian store of a 32 bit value. -/
def storeLE32 (n : Nat) : Bytes :=
  [n % 256, n / 256 % 256, n / 65536 % 256, n / 16777216 % 256]

/-- Little-endian load of a byte sequence. -/
def loadLE (bs : Bytes) : Nat := bs.foldr (fun b acc => b + 256 * acc) 0

/-- Modelled from the spec: the bytes of a header in the head index: the five members
in declaration order, little-endian, tightly packed (section 3.3). -/
def ReqLogHead.image (h : ReqLogHead) : Bytes :=
  storeLE32 h.inc_id ++ storeLE32 h.reqtype ++ storeLE32 h.req_data_offset ++
    storeLE32 h.req_data_len ++ storeLE32 h.req_data_crc

/-- Modelled from the spec: a header read back from its 20 bytes. -/
def ReqLogHead.read (bs : Bytes) : Option ReqLogHead :=
  if bs.length = 20 then
    some
      { inc_id := loadLE ((bs.drop 0).take 4)
        reqtype := loadLE ((bs.drop 4).take 4)
        req_data_offset := loadLE ((bs.drop 8).take 4)
        req_data_len := loadLE ((bs.drop 12).take 4)
        req_data_crc := loadLE ((bs.drop 16).take 4) }
  else none

/-- Modelled from the spec: the head index file holding the given headers, "a tightly
packed array (no gaps, no padding)". -/
def headIndexBytes (hs : List ReqLogHead) : Bytes := (hs.map ReqLogHead.image).flatten

/-- A sample header. -/
def sampleHead : ReqLogHead :=
  { inc_id := 1001, reqtype := 7, req_data_offset := 0, req_data_len := 300,
    req_data_crc := 3421780262 }

/-! ## The log manager -/

/-- The class `ReqLogMgr`: its non-static data members (the mutex apart). -/
structure ReqLogMgr where
  base_path_ : Bytes
  head_log_path_ : Bytes
  inc_id_ : Nat
  last_writed_id_ : Nat
  prepared_req_ : List CommonReqData
  cached_head_offset_ : List (Nat × Nat)
  deriving DecidableEq, Repr

/-- The constructor `ReqLogMgr()`: `inc_id_(1)`, `last_writed_id_(0)`, the other members
default constructed. -/
def ReqLogMgr.new : ReqLogMgr :=
  { base_path_ := [], head_log_path_ := [], inc_id_ := 1, last_writed_id_ := 0,
    prepared_req_ := [], cached_head_offset_ := [] }

/-- The member `ReqLogMgr::getLastSuccessReqId`. -/
def ReqLogMgr.getLastSuccessReqId (self : ReqLogMgr) : Nat :=
  self.last_writed_id_

/-- The member `ReqLogMgr::getRequestLogPath`. -/
def ReqLogMgr.getRequestLogPath (self : ReqLogMgr) : Bytes :=
  self.base_path_

/-- The static members `write_req_set_`, `replay_write_req_set_` and
`auto_shard_write_set_`; a `std::set<std::string>` is the list of its elements. -/
structure WriteRequestSets where
  write_req_set_ : List Bytes
  replay_write_req_set_ : List Bytes
  auto_shard_write_set_ : List Bytes
  deriving DecidableEq, Repr

/-- The key `controller + "_" + action`. -/
def requestKey (controller action : Bytes) : Bytes := controller ++ [95] ++ action

/-- The function `ReqLogMgr::isWriteRequest`; the sets are given back as the call
left them. -/
def ReqLogMgr.isWriteRequest (sets : WriteRequestSets) (controller action : Bytes) :
    Bool × WriteRequestSets :=
  if sets.write_req_set_.contains (requestKey controller action) then (true, sets)
  else (false, sets)

/-- The function `ReqLogMgr::isReplayWriteReq`. -/
def ReqLogMgr.isReplayWriteReq (sets : WriteRequestSets) (controller action : Bytes) :
    Bool × WriteRequestSets :=
  if sets.replay_write_req_set_.contains (requestKey controller action) then (true, sets)
  else (false, sets)

/-- The function `ReqLogMgr::isAutoShardWriteReq`. -/
def ReqLogMgr.isAutoShardWriteReq (sets : WriteRequestSets) (controller action : Bytes) :
    Bool × WriteRequestSets :=
  if sets.auto_shard_write_set_.contains (requestKey controller action) then (true, sets)
  else (false, sets)

/-- Sample sets: `documents_create` is a write that is replayed, `commands_index` a
write that is not. -/
def sampleSets : WriteRequestSets :=
  { write_req_set_ :=
      [[100, 111, 99, 117, 109, 101, 110, 116, 115, 95, 99, 114, 101, 97, 116, 101],
       [99, 111, 109, 109, 97, 110, 100, 115, 95, 105, 110, 100, 101, 120]]
    replay_write_req_set_ :=
      [[100, 111, 99, 117, 109, 101, 110, 116, 115, 95, 99, 114, 101, 97, 116, 101]]
    auto_shard_write_set_ := [] }

/-- Modelled from the spec: the number of the data segment owning a record
(section 3.3): record `n` "lives in segment `(n−1)/1000`". -/
def segmentOf (inc_id : Nat) : Nat := (inc_id - 1) / 1000

/-- The decimal digits of a number as characters, most significant first; `fuel`
bounds the number of digits. -/
def decimalDigits : Nat → Nat → Bytes → Bytes
  | 0, _, acc => acc
  | fuel + 1, n, acc =>
    if n / 10 = 0 then (48 + n % 10) :: acc
    else decimalDigits fuel (n / 10) ((48 + n % 10) :: acc)

/-- The decimal text of a number. -/
def decimal (n : Nat) : Bytes := decimalDigits (n + 1) n []

/-- Modelled from the spec: the member `ReqLogMgr::getDataPath` (declared, its body
is not part of the sources): the file `<base>/<k>.req.log` of the segment `k` owning
the record (sections 3.3 and 6.1). -/
def ReqLogMgr.getDataPath (self : ReqLogMgr) (inc_id : Nat) : Bytes :=
  self.base_path_ ++ [47] ++ decimal (segmentOf inc_id) ++ [46, 114, 101, 113, 46, 108, 111, 103]

/-! ## The log: prepare, append, lookup -/

/-- Modelled from the spec: the error kinds of section 7. -/
inductive LogError where
  | CodecError
  | CorruptRecord
  | NotFound
  | OutOfOrder
  | AlreadyPrepared
  | Io
  | InvariantViolation
  deriving DecidableEq, Repr

/-- Modelled from the spec: the files under the base directory (section 3.3): the
head index `head.req.log` as the array of its headers (the `k`-th at byte `20 * k`), and
the content of each data segment `k.req.log` (empty when the file does not exist). -/
structure LogFiles where
  head : List ReqLogHead
  segments : Nat → Bytes

/-- Modelled from the spec: a directory without log files. -/
def LogFiles.empty : LogFiles :=
  { head := [], segments := fun _ => [] }

/-- Modelled from the spec: the checksum stored in a header, "a standard IEEE-802.3
table-driven CRC-32 ... computed over the packed body bytes" (section 4.2). -/
def bodyCrc (body : Bytes) : Nat :=
  ReqLogMgr.crc 0xFFFFFFFF body body.length ^^^ 0xFFFFFFFF

/-- Outcome of `prepareReqLog`: the return value, the error kind behind a `false`,
the manager and the caller's record afterwards. -/
structure PrepareResult where
  ret : Bool
  err : Option LogError
  mgr : ReqLogMgr
  prepared_reqdata : CommonReqData
  deriving DecidableEq, Repr

/-- Modelled from the spec: the member `ReqLogMgr::prepareReqLog` (declared, its body
is not part of the sources), section 4.4: rejected with `AlreadyPrepared` when the
prepared queue is non-empty; a primary stamps the next id on the record; a replica's
record must carry the next id, otherwise `OutOfOrder`; on success the record is pushed
onto the prepared queue.  The next id moves past an id once a record holds it, for a
replica as for a primary ("never reused", section 3.1); it is a `uint32_t`. -/
def ReqLogMgr.prepareReqLog (self : ReqLogMgr) (prepared_reqdata : CommonReqData)
    (isprimary : Bool) : PrepareResult :=
  if self.prepared_req_ ≠ [] then
    { ret := false, err := some .AlreadyPrepared, mgr := self,
      prepared_reqdata := prepared_reqdata }
  else if isprimary then
    { ret := true, err := none
      mgr :=
        { self with
          inc_id_ := (self.inc_id_ + 1) % 4294967296
          prepared_req_ :=
            self.prepared_req_ ++ [{ prepared_reqdata with inc_id := self.inc_id_ }] }
      prepared_reqdata := { prepared_reqdata with inc_id := self.inc_id_ } }
  else if prepared_reqdata.inc_id = self.inc_id_ then
    { ret := true, err := none
      mgr :=
        { self with
          inc_id_ := (self.inc_id_ + 1) % 4294967296
          prepared_req_ := self.prepared_req_ ++ [prepared_reqdata] }
      prepared_reqdata := prepared_reqdata }
  else
    { ret := false, err := some .OutOfOrder, mgr := self,
      prepared_reqdata := prepared_reqdata }

/-- Modelled from the spec: the member `ReqLogMgr::getPreparedReqLog` (declared only):
"peek front of queue"; `false` when the queue is empty. -/
def ReqLogMgr.getPreparedReqLog (self : ReqLogMgr) (reqdata : CommonReqData) :
    Bool × CommonReqData :=
  match self.prepared_req_ with
  | [] => (false, reqdata)
  | p :: _ => (true, p)

/-- Modelled from the spec: the member `ReqLogMgr::delPreparedReqLog` (declared only):
"pop front"; the id is not recycled. -/
def ReqLogMgr.delPreparedReqLog (self : ReqLogMgr) : ReqLogMgr :=
  { self with prepared_req_ := self.prepared_req_.tail }

/-- Outcome of `appendReqData`. -/
structure AppendResult where
  ret : Bool
  err : Option LogError
  mgr : ReqLogMgr
  files : LogFiles

/-- Modelled from the spec: the member `ReqLogMgr::appendReqData` (declared, its body
is not part of the sources), sections 4.3 and 4.4: the common part is unpacked; the
appended id must be that of the prepared record; the body goes to the end of the
segment owning the id and a header `{id, kind, offset, length, crc}` to the end of the
head index; the last written id and the offset cache are updated and the prepared
queue is popped.  `io_ok = false` stands for a file system failure: the operation
fails and the prepared record stays in the queue. -/
def ReqLogMgr.appendReqData (self : ReqLogMgr) (files : LogFiles) (req_packed_data : Bytes)
    (io_ok : Bool) : AppendResult :=
  match ReqLogMgr.unpackReqLogData req_packed_data (.Common CommonReqData.new) with
  | .returned true (.Common c) _ =>
    match self.prepared_req_ with
    | [] => { ret := false, err := some .InvariantViolation, mgr := self, files := files }
    | p :: rest =>
      if p.inc_id ≠ c.inc_id then
        { ret := false, err := some .InvariantViolation, mgr := self, files := files }
      else if io_ok = false then
        { ret := false, err := some .Io, mgr := self, files := files }
      else
        { ret := true, err := none
          mgr :=
            { self with
              last_writed_id_ := c.inc_id
              cached_head_offset_ := (c.inc_id, 20 * files.head.length) :: self.cached_head_offset_
              prepared_req_ := rest }
          files :=
            { head :=
                files.head ++
                  [{ inc_id := c.inc_id, reqtype := c.reqtype
                     req_data_offset := (files.segments (segmentOf c.inc_id)).length % 4294967296
                     req_data_len := req_packed_data.length % 4294967296
                     req_data_crc := bodyCrc req_packed_data }]
              segments :=
                Function.update files.segments (segmentOf c.inc_id)
                  (files.segments (segmentOf c.inc_id) ++ req_packed_data) } }
  | _ => { ret := false, err := some .CodecError, mgr := self, files := files }

/-- The member `ReqLogMgr::appendTypedReqLog`. -/
def ReqLogMgr.appendTypedReqLog (self : ReqLogMgr) (files : LogFiles) (reqdata : ReqData)
    (io_ok : Bool) : AppendResult :=
  let packed_data := ReqLogMgr.packReqLogData reqdata
  self.appendReqData files packed_data io_ok

/-- Modelled from the spec: the header at a byte offset of the head index. -/
def LogFiles.headAt (files : LogFiles) (offset : Nat) : Option ReqLogHead :=
  if offset % 20 = 0 then files.head[offset / 20]? else none

/-- Modelled from the spec: the walk over the head index by offset to the first header
whose id is not less than `inc_id`. -/
def scanHead (inc_id : Nat) : List ReqLogHead → Nat → Option (ReqLogHead × Nat)
  | [], _ => none
  | h :: hs, offset =>
    if inc_id ≤ h.inc_id then some (h, offset) else scanHead inc_id hs (offset + 20)

/-- Modelled from the spec: the read of the header with exactly the id `inc_id`
(section 4.3, read by id, steps 1 and 2): the offset comes from the cache or is
computed as `(inc_id - 1) * 20`; the header there must carry the id. -/
def ReqLogMgr.exactHead (self : ReqLogMgr) (files : LogFiles) (inc_id : Nat) :
    Option (ReqLogHead × Nat) :=
  let offset :=
    match self.cached_head_offset_.lookup inc_id with
    | some off => off
    | none => (inc_id - 1) * 20
  match files.headAt offset with
  | some h => if h.inc_id = inc_id ∧ 1 ≤ inc_id then some (h, offset) else none
  | none => none

/-- Modelled from the spec: the member `ReqLogMgr::getHeadOffset` (declared only):
the header of the request `inc_id`, "or the minimize that not less than inc_id if not
exist"; nothing when `inc_id` is above the last written id. -/
def ReqLogMgr.getHeadOffset (self : ReqLogMgr) (files : LogFiles) (inc_id : Nat) :
    Option (ReqLogHead × Nat) :=
  if self.last_writed_id_ < inc_id then none
  else
    match self.exactHead files inc_id with
    | some r => some r
    | none => scanHead inc_id files.head 0

/-- Modelled from the spec: the member `ReqLogMgr::getReqPackedDataByHead` (declared
only): the `req_data_len` bytes at `req_data_offset` of the segment owning the id, with
the checksum verified (section 4.3, step 3). -/
def ReqLogMgr.getReqPackedDataByHead (files : LogFiles) (head : ReqLogHead) :
    Except LogError Bytes :=
  let data := ((files.segments (segmentOf head.inc_id)).drop head.req_data_offset).take
    head.req_data_len
  if data.length ≠ head.req_data_len then .error .CorruptRecord
  else if bodyCrc data ≠ head.req_data_crc then .error .CorruptRecord
  else .ok data

/-- Outcome of `getReqData`: `found` stands for `true` with the values left in the
reference parameters, `notFound` for `false`, `failed` for a surfaced error. -/
inductive ReadResult where
  | found (inc_id : Nat) (rethead : ReqLogHead) (headoffset : Nat) (req_packed_data : Bytes)
  | notFound
  | failed (e : LogError)
  deriving DecidableEq, Repr

/-- Modelled from the spec: the member `ReqLogMgr::getReqData` (declared, its body is
not part of the sources): "get request with inc_id or the minimize that not less than
inc_id if not exist. if no more request return false". -/
def ReqLogMgr.getReqData (self : ReqLogMgr) (files : LogFiles) (inc_id : Nat) : ReadResult :=
  match self.getHeadOffset files inc_id with
  | none => .notFound
  | some (h, offset) =>
    match ReqLogMgr.getReqPackedDataByHead files h with
    | .ok data => .found h.inc_id h offset data
    | .error e => .failed e

/-- A call on the log. -/
inductive LogOp where
  | prepareReqLog (reqdata : CommonReqData) (isprimary : Bool)
  | getPreparedReqLog
  | delPreparedReqLog
  | appendReqData (req_packed_data : Bytes) (io_ok : Bool)
  deriving DecidableEq, Repr

/-- A log with the history of what its calls did: the ids stamped by the successful
prepares and the records appended, both in order. -/
structure LogRun where
  mgr : ReqLogMgr
  files : LogFiles
  stamped : List Nat
  appended : List (Nat × Bytes)

/-- A freshly constructed manager on an empty directory. -/
def LogRun.fresh : LogRun :=
  { mgr := ReqLogMgr.new, files := LogFiles.empty, stamped := [], appended := [] }

/-- The id in the common part of a packed record, when it unpacks. -/
def packedId (req_packed_data : Bytes) : Nat :=
  match ReqLogMgr.unpackReqLogData req_packed_data (.Common CommonReqData.new) with
  | .returned true r _ => r.common.inc_id
  | _ => 0

/-- One call on the log. -/
def LogRun.step (t : LogRun) : LogOp → LogRun
  | .prepareReqLog reqdata isprimary =>
    let r := t.mgr.prepareReqLog reqdata isprimary
    { t with
      mgr := r.mgr
      stamped := if r.ret then t.stamped ++ [r.prepared_reqdata.inc_id] else t.stamped }
  | .getPreparedReqLog => t
  | .delPreparedReqLog => { t with mgr := t.mgr.delPreparedReqLog }
  | .appendReqData req_packed_data io_ok =>
    let r := t.mgr.appendReqData t.files req_packed_data io_ok
    { t with
      mgr := r.mgr
      files := r.files
      appended :=
        if r.ret then t.appended ++ [(packedId req_packed_data, req_packed_data)]
        else t.appended }

/-- A sequence of calls on the log. -/
def LogRun.run (t : LogRun) (ops : List LogOp) : LogRun :=
  ops.foldl LogRun.step t

/-- Whether every prepare among the calls is made as primary. -/
def LogOp.isPrimaryOnly : LogOp → Bool
  | .prepareReqLog _ isprimary => isprimary
  | _ => true

/-- The bytes the append calls of a sequence carry, accepted or not. -/
def LogOp.bytes : LogOp → Nat
  | .appendReqData req_packed_data _ => req_packed_data.length
  | _ => 0

/-- A header describes a record of the history: its id, the length and checksum of
its body, and where the body lies in the segment owning the id. -/
def Stored (files : LogFiles) (h : ReqLogHead) (p : Nat × Bytes) : Prop :=
  h.inc_id = p.1 ∧ h.req_data_len = p.2.length ∧ h.req_data_crc = bodyCrc p.2 ∧
    h.req_data_offset + p.2.length ≤ (files.segments (segmentOf p.1)).length ∧
    ((files.segments (segmentOf p.1)).drop h.req_data_offset).take p.2.length = p.2

/-- What holds of a log after `n` calls carrying `B` bytes from a fresh log: the head
index lists the appended records in order, with strictly increasing ids that lie below
the next id and not above the last written id; a prepared record holds an id above all
appended ones; every header describes its record. -/
structure LogRun.Inv (t : LogRun) (n B : Nat) : Prop where
  ids : t.files.head.map (fun h => h.inc_id) = t.appended.map (fun p => p.1)
  sorted : (t.appended.map (fun p => p.1)).Pairwise (fun a b => a < b)
  below : ∀ id ∈ t.appended.map (fun p => p.1), id < t.mgr.inc_id_ ∧ id ≤ t.mgr.last_writed_id_
  next : t.mgr.inc_id_ ≤ n + 1
  prepared : ∀ p ∈ t.mgr.prepared_req_,
    (∀ id ∈ t.appended.map (fun p => p.1), id < p.inc_id) ∧ p.inc_id < t.mgr.inc_id_
  queue : t.mgr.prepared_req_.length ≤ 1
  stored : ∀ x ∈ List.zip t.files.head t.appended, Stored t.files x.1 x.2
  size : ∀ k, (t.files.segments k).length ≤ B

/-- A sample sequence of calls: record 1 is prepared and appended, id 2 is prepared
and abandoned, record 3 is prepared and appended. -/
def sampleOps : List LogOp :=
  [.prepareReqLog sampleCommon127 true, .appendReqData [1, 1, 162, 123, 125] true,
   .prepareReqLog sampleCommon127 true, .delPreparedReqLog,
   .prepareReqLog sampleCommon127 true, .appendReqData [3, 1, 161, 1] true]

/-! ## Members as values -/

/-- The value held by a member, with the C++ type of the member. -/
inductive FieldValue where
  | uint32 (v : Nat)
  | int64 (v : Int)
  | string (v : Bytes)
  | vector_string (v : List Bytes)
  | vector_uint32 (v : List Nat)
  | map_string (v : List (Bytes × Bytes))
  deriving DecidableEq, Repr

/-- The C++ type of the member that holds a value. -/
def FieldValue.type : FieldValue → FieldType
  | .uint32 _ => .uint32
  | .int64 _ => .int64
  | .string _ => .string
  | .vector_string _ => .vector_string
  | .vector_uint32 _ => .vector_uint32
  | .map_string _ => .map_string

/-- Transport of the outcome of a conversion. -/
def msgpack.ConvRes.map {α β : Type} (f : α → β) : ConvRes α → ConvRes β
  | .ok v => .ok (f v)
  | .type_error v => .type_error (f v)

/-- The call `object::convert(&member)` on a member that holds the given value: the
value the member holds afterwards, and whether `type_error` was thrown. -/
def FieldValue.convert (o : object) : FieldValue → ConvRes FieldValue
  | .uint32 t => (convert_uint32 o t).map .uint32
  | .int64 t => (convert_int64 o t).map .int64
  | .string t => (convert_string o t).map .string
  | .vector_string t => (convert_vector_string o t).map .vector_string
  | .vector_uint32 t => (convert_vector_uint32 o t).map .vector_uint32
  | .map_string t => (convert_map_string o t).map .map_string

/-- The members of a `CommonReqData` in declaration order, as values. -/
def CommonReqData.values (c : CommonReqData) : List FieldValue :=
  [.uint32 c.inc_id, .uint32 c.reqtype, .string c.req_json_data]

/-- The members of a record in the order `pack` writes and `unpack` reads them, as
values. -/
def ReqData.values : ReqData → List FieldValue
  | .Common r => r.values
  | .NoAddition r => r.toCommonReqData.values
  | .NoAdditionNeedBackup r => r.toCommonReqData.values
  | .NoAdditionNoRollback r => r.toCommonReqData.values
  | .CronJob r => r.toCommonReqData.values ++ [.int64 r.cron_time]
  | .Timestamp r => r.toCommonReqData.values ++ [.int64 r.timestamp]
  | .CreateOrUpdateDoc r => r.toCommonReqData.values ++ [.int64 r.timestamp]
  | .Index r => r.toCommonReqData.values ++ [.vector_string r.scd_list, .int64 r.timestamp]
  | .Product r => r.toCommonReqData.values ++ [.vector_string r.str_uuid_list]
  | .UpdateConfig r => r.toCommonReqData.values ++ [.map_string r.config_file_list]
  | .UpdateRecCallback r =>
    r.toCommonReqData.values ++ [.vector_uint32 r.oldItems, .vector_uint32 r.newItems]
  | .BuildPurchaseSimCallback r => r.toCommonReqData.values
  | .RecommendIndex r =>
    r.toCommonReqData.values ++
      [.vector_string r.user_scd_list, .vector_string r.order_scd_list, .int64 r.timestamp]
  | .RebuildCronTask r =>
    r.toCommonReqData.values ++ [.int64 r.cron_time, .vector_uint32 r.replayed_id_list]
  | .RebuildFromSCD r =>
    r.toCommonReqData.values ++
      [.vector_string r.scd_list, .int64 r.timestamp, .vector_uint32 r.replayed_id_list]

/-- What reading members in order leaves behind: all members converted, with the rest of
the buffer, or a stop at the first member whose object is missing or not convertible.
In both cases `vals` are the values the members hold afterwards. -/
inductive ReadValues where
  | ok (vals : List FieldValue) (rest : Bytes)
  | fail (vals : List FieldValue)
  deriving DecidableEq, Repr

/-- Reading members that hold the values `ts` from a buffer, one object per member in
order, each converted into its member; the reading stops at the first object that is
missing or that throws, and the members behind it are not touched. -/
def readValues : List FieldValue → Bytes → ReadValues
  | [], u => .ok [] u
  | t :: ts, u =>
    match unpacker.next u with
    | .object o r =>
      match t.convert o with
      | .ok v =>
        match readValues ts r with
        | .ok vs rest => .ok (v :: vs) rest
        | .fail vs => .fail (v :: vs)
      | .type_error v => .fail (v :: ts)
    | _ => .fail (t :: ts)

/-- A call on an object whose members hold `ts` has decoded them from `q`: it returned
`true` with the rest of the buffer when all members were converted and `false`
otherwise, and the members hold what `readValues` says. -/
def Flow.DecodesTo {σ : Type} (view : σ → List FieldValue) (ts : List FieldValue) (q : Bytes)
    (f : Flow σ) : Prop :=
  match readValues ts q with
  | .ok vs u => ∃ s, f = .returned true s u ∧ view s = vs
  | .fail vs => ∃ s u, f = .returned false s u ∧ view s = vs

/-- Two members of the same C++ type that, when the type is the `std::map`, hold the same
value. -/
def FieldValue.Agree (a b : FieldValue) : Prop :=
  a.type = b.type ∧ (a.type = .map_string → a = b)

/-- An index record whose list holds three names, as a target of `unpack`. -/
def sampleIndexTarget : ReqData :=
  .Index
    { inc_id := 9, reqtype := 7, req_json_data := [1]
      scd_list := [[1], [2], [3]], timestamp := 4 }

/-- A configuration record whose map holds one entry, as a target of `unpack`. -/
def sampleConfigTarget : ReqData :=
  .UpdateConfig
    { inc_id := 9, reqtype := 10, req_json_data := [1]
      config_file_list := [([98], [1])] }

/-! # Properties of the codec and of the checksum -/

/-! ## Wire format: what the parser reads back from the packer's output -/

namespace msgpack

theorem load_store16 (n : Nat) (h : n < 65536) : load (store16 n) = n := by
  simp only [load, store16, List.foldl]; omega

theorem load_store32 (n : Nat) (h : n < 4294967296) : load (store32 n) = n := by
  simp only [load, store32, List.foldl]; omega

theorem load_store64 (n : Nat) (h : n < 18446744073709551616) : load (store64 n) = n := by
  simp only [load, store64, List.foldl]; omega

theorem payload_append {α : Type} (p rest : Bytes) (k : Bytes → Bytes → PRes α) :
    PRes.payload p.length (p ++ rest) k = k p rest := by
  simp [PRes.payload]

theorem payload_store16 {α : Type} (n : Nat) (rest : Bytes) (k : Bytes → Bytes → PRes α) :
    PRes.payload 2 (store16 n ++ rest) k = k (store16 n) rest :=
  payload_append (store16 n) rest k

theorem payload_store32 {α : Type} (n : Nat) (rest : Bytes) (k : Bytes → Bytes → PRes α) :
    PRes.payload 4 (store32 n ++ rest) k = k (store32 n) rest :=
  payload_append (store32 n) rest k

theorem payload_store64 {α : Type} (n : Nat) (rest : Bytes) (k : Bytes → Bytes → PRes α) :
    PRes.payload 8 (store64 n ++ rest) k = k (store64 n) rest :=
  payload_append (store64 n) rest k

theorem payload_one {α : Type} (b : Nat) (rest : Bytes) (k : Bytes → Bytes → PRes α) :
    PRes.payload 1 (b :: rest) k = k [b] rest :=
  payload_append [b] rest k

theorem load_one (b : Nat) : load [b] = b := by simp [load]

theorem parseHead_posfix (sub : Option (Bytes → PRes object)) (b : Nat) (h : b < 128)
    (rest : Bytes) : parseHead sub (b :: rest) = .done (.positive_integer b) rest := by
  simp [parseHead, parseByte, h]

theorem parseHead_negfix (sub : Option (Bytes → PRes object)) (b : Nat) (h1 : 224 ≤ b)
    (h2 : b < 256) (rest : Bytes) :
    parseHead sub (b :: rest) = .done (.negative_integer ((b : Int) - 256)) rest := by
  simp only [parseHead, parseByte]
  repeat (first | rw [if_pos (by omega)] | rw [if_neg (by omega)])

theorem parseHead_fixraw (sub : Option (Bytes → PRes object)) (b : Nat) (h1 : 160 ≤ b)
    (h2 : b < 192) (rest : Bytes) :
    parseHead sub (b :: rest) = PRes.payload (b - 160) rest fun p r => .done (.raw p) r := by
  simp only [parseHead, parseByte]
  repeat (first | rw [if_pos (by omega)] | rw [if_neg (by omega)])

theorem parseHead_fixarray (sub : Option (Bytes → PRes object)) (b : Nat) (h1 : 144 ≤ b)
    (h2 : b < 160) (rest : Bytes) :
    parseHead sub (b :: rest) = startArray sub (b - 144) rest := by
  simp only [parseHead, parseByte]
  repeat (first | rw [if_pos (by omega)] | rw [if_neg (by omega)])

theorem parseHead_fixmap (sub : Option (Bytes → PRes object)) (b : Nat) (h1 : 128 ≤ b)
    (h2 : b < 144) (rest : Bytes) :
    parseHead sub (b :: rest) = startMap sub (b - 128) rest := by
  simp only [parseHead, parseByte]
  repeat (first | rw [if_pos (by omega)] | rw [if_neg (by omega)])

theorem parseHead_pack_uint32 (sub : Option (Bytes → PRes object)) (n : Nat)
    (h : n < 4294967296) (rest : Bytes) :
    parseHead sub (pack_uint32 n ++ rest) = .done (.positive_integer n) rest := by
  unfold pack_uint32
  split_ifs with h1 h2 h3
  · simp [parseHead, parseByte, h2]
  · simp [parseHead, parseByte, payload_one, load_one]
  · simp [parseHead, parseByte, payload_store16, load_store16 n h3]
  · simp [parseHead, parseByte, payload_store32, load_store32 n h]

theorem twos8 (d : Int) : twos 8 d = (d % 256).toNat := by simp [twos]
theorem twos16 (d : Int) : twos 16 d = (d % 65536).toNat := by simp [twos]
theorem twos32 (d : Int) : twos 32 d = (d % 4294967296).toNat := by simp [twos]
theorem twos64 (d : Int) : twos 64 d = (d % 18446744073709551616).toNat := by simp [twos]

theorem signedObj_neg (w : Nat) (u : Nat) (d : Int) (h1 : ¬ u < 2 ^ (w - 1))
    (h2 : (u : Int) - (2 : Int) ^ w = d) : signedObj w u = .negative_integer d := by
  simp [signedObj, h1, h2]

theorem signedObj8 (d : Int) (hd : d < 0) (hlo : -128 ≤ d) :
    signedObj 8 (twos 8 d) = .negative_integer d := by
  apply signedObj_neg <;> rw [twos8] <;> norm_num <;> omega

theorem signedObj16 (d : Int) (hd : d < 0) (hlo : -32768 ≤ d) :
    signedObj 16 (twos 16 d) = .negative_integer d := by
  apply signedObj_neg <;> rw [twos16] <;> norm_num <;> omega

theorem signedObj32 (d : Int) (hd : d < 0) (hlo : -2147483648 ≤ d) :
    signedObj 32 (twos 32 d) = .negative_integer d := by
  apply signedObj_neg <;> rw [twos32] <;> norm_num <;> omega

theorem signedObj64 (d : Int) (hd : d < 0) (hlo : -9223372036854775808 ≤ d) :
    signedObj 64 (twos 64 d) = .negative_integer d := by
  apply signedObj_neg <;> rw [twos64] <;> norm_num <;> omega

theorem parseHead_pack_int64 (sub : Option (Bytes → PRes object)) (d : Int)
    (h : IsInt64 d) (rest : Bytes) :
    parseHead sub (pack_int64 d ++ rest) = .done (int64_object d) rest := by
  obtain ⟨hlo, hhi⟩ := h
  unfold pack_int64 int64_object
  split_ifs with h1 h2 h3 h4 h5 h6 h7 h8 h9 h10 h11 <;> try omega
  · have e := twos64 d
    have hb : twos 64 d < 18446744073709551616 := by omega
    simp [parseHead, parseByte, payload_store64, load_store64 _ hb, signedObj64 d (by omega) hlo]
  · have e := twos32 d
    have hb : twos 32 d < 4294967296 := by omega
    simp [parseHead, parseByte, payload_store32, load_store32 _ hb, signedObj32 d (by omega) (by omega)]
  · have e := twos16 d
    have hb : twos 16 d < 65536 := by omega
    simp [parseHead, parseByte, payload_store16, load_store16 _ hb, signedObj16 d (by omega) (by omega)]
  · simp [parseHead, parseByte, payload_one, load_one, signedObj8 d (by omega) (by omega)]
  · have e := twos8 d
    have hb : twos 8 d < 128 ∧ twos 8 d = d.toNat := by omega
    rw [List.singleton_append, parseHead_posfix sub _ hb.1, hb.2]
  · have e := twos8 d
    have hb : 224 ≤ twos 8 d ∧ twos 8 d < 256 ∧ ((twos 8 d : Nat) : Int) - 256 = d := by
      omega
    rw [List.singleton_append, parseHead_negfix sub _ hb.1 hb.2.1, hb.2.2]
  · have hb : d.toNat < 256 ∧ (d.toNat : Int) = d := by omega
    simp [parseHead, parseByte, payload_one, load_one]
  · have hb : d.toNat < 65536 := by omega
    simp [parseHead, parseByte, payload_store16, load_store16 _ hb]
  · have hb : d.toNat < 4294967296 := by omega
    simp [parseHead, parseByte, payload_store32, load_store32 _ hb]
  · have hb : d.toNat < 18446744073709551616 := by omega
    simp [parseHead, parseByte, payload_store64, load_store64 _ hb]

theorem parseHead_pack_string (sub : Option (Bytes → PRes object)) (v : Bytes)
    (h : IsString v) (rest : Bytes) :
    parseHead sub (pack_string v ++ rest) = .done (.raw v) rest := by
  unfold IsString at h
  unfold pack_string pack_raw
  split_ifs with h1 h2
  · rw [List.singleton_append, List.cons_append,
      parseHead_fixraw sub _ (by omega) (by omega)]
    have e : 160 + v.length - 160 = v.length := by omega
    rw [e, payload_append]
  · have e : load (store16 v.length) = v.length := load_store16 _ h2
    simp [parseHead, parseByte, payload_store16, e, payload_append]
  · have e : load (store32 (v.length % 4294967296)) = v.length := by
      rw [load_store32 _ (by omega)]; omega
    simp [parseHead, parseByte, payload_store32, e, payload_append]

end msgpack

namespace msgpack

theorem parseItems_map {α : Type} (p : Bytes → PRes object) (enc : α → Bytes)
    (obj : α → object) (v : List α)
    (hp : ∀ x ∈ v, ∀ r, p (enc x ++ r) = .done (obj x) r) (rest : Bytes) :
    parseItems p v.length ((v.map enc).flatten ++ rest) = .done (v.map obj) rest := by
  induction v with
  | nil => simp [parseItems]
  | cons x xs ih =>
    have hx := hp x (List.mem_cons_self x xs)
    have hxs := ih (fun y hy => hp y (List.mem_cons_of_mem x hy))
    simp only [List.map_cons, List.flatten_cons, List.length_cons, List.append_assoc,
      parseItems, hx, hxs]

theorem parsePairs_map (p : Bytes → PRes object) (v : List (Bytes × Bytes))
    (hp : ∀ x ∈ v, ∀ r, p (pack_string x.1 ++ r) = .done (.raw x.1) r ∧
      p (pack_string x.2 ++ r) = .done (.raw x.2) r) (rest : Bytes) :
    parsePairs p v.length
        ((v.map fun kv => pack_string kv.1 ++ pack_string kv.2).flatten ++ rest) =
      .done (v.map fun kv => (object.raw kv.1, object.raw kv.2)) rest := by
  induction v with
  | nil => simp [parsePairs]
  | cons x xs ih =>
    have hx := hp x (List.mem_cons_self x xs)
    have hxs := ih (fun y hy => hp y (List.mem_cons_of_mem x hy))
    simp only [List.map_cons, List.flatten_cons, List.length_cons, List.append_assoc,
      parsePairs, (hx _).1, (hx _).2, hxs]

theorem parseHead_pack_array (sub : Option (Bytes → PRes object)) (n : Nat)
    (h : n < 4294967296) (rest : Bytes) :
    parseHead sub (pack_array n ++ rest) = startArray sub n rest := by
  unfold pack_array
  split_ifs with h1 h2
  · rw [List.singleton_append, parseHead_fixarray sub _ (by omega) (by omega)]
    have e : 144 + n - 144 = n := by omega
    rw [e]
  · simp [parseHead, parseByte, payload_store16, load_store16 _ h2]
  · have e : load (store32 (n % 4294967296)) = n := by
      rw [load_store32 _ (by omega)]; omega
    simp [parseHead, parseByte, payload_store32, e]

theorem parseHead_pack_map (sub : Option (Bytes → PRes object)) (n : Nat)
    (h : n < 4294967296) (rest : Bytes) :
    parseHead sub (pack_map n ++ rest) = startMap sub n rest := by
  unfold pack_map
  split_ifs with h1 h2
  · rw [List.singleton_append, parseHead_fixmap sub _ (by omega) (by omega)]
    have e : 128 + n - 128 = n := by omega
    rw [e]
  · simp [parseHead, parseByte, payload_store16, load_store16 _ h2]
  · have e : load (store32 (n % 4294967296)) = n := by
      rw [load_store32 _ (by omega)]; omega
    simp [parseHead, parseByte, payload_store32, e]

theorem parseObj_eq (d : Nat) :
    parseObj d = parseHead (match d with | 0 => none | k + 1 => some (parseObj k)) := by
  cases d <;> rfl

theorem parseObj_pack_uint32 (d n : Nat) (h : IsUInt32 n) (rest : Bytes) :
    parseObj d (pack_uint32 n ++ rest) = .done (.positive_integer n) rest := by
  rw [parseObj_eq]; exact parseHead_pack_uint32 _ n h rest

theorem parseObj_pack_int64 (d : Nat) (t : Int) (h : IsInt64 t) (rest : Bytes) :
    parseObj d (pack_int64 t ++ rest) = .done (int64_object t) rest := by
  rw [parseObj_eq]; exact parseHead_pack_int64 _ t h rest

theorem parseObj_pack_string (d : Nat) (v : Bytes) (h : IsString v) (rest : Bytes) :
    parseObj d (pack_string v ++ rest) = .done (.raw v) rest := by
  rw [parseObj_eq]; exact parseHead_pack_string _ v h rest

theorem parseObj_pack_vector_string (d : Nat) (v : List Bytes) (h : IsStringList v)
    (rest : Bytes) :
    parseObj (d + 1) (pack_vector_string v ++ rest) = .done (.array (v.map .raw)) rest := by
  simp only [parseObj, pack_vector_string, List.append_assoc]
  rw [parseHead_pack_array _ _ h.1, startArray,
    parseItems_map (parseObj d) pack_string object.raw v
      (fun x hx r => parseObj_pack_string d x (h.2 x hx) r)]

theorem parseObj_pack_vector_uint32 (d : Nat) (v : List Nat) (h : IsUInt32List v)
    (rest : Bytes) :
    parseObj (d + 1) (pack_vector_uint32 v ++ rest) =
      .done (.array (v.map .positive_integer)) rest := by
  simp only [parseObj, pack_vector_uint32, List.append_assoc]
  rw [parseHead_pack_array _ _ h.1, startArray,
    parseItems_map (parseObj d) pack_uint32 object.positive_integer v
      (fun x hx r => parseObj_pack_uint32 d x (h.2 x hx) r)]

theorem parseObj_pack_map_string (d : Nat) (v : List (Bytes × Bytes)) (h : IsStringMap v)
    (rest : Bytes) :
    parseObj (d + 1) (pack_map_string v ++ rest) =
      .done (.map (v.map fun kv => (object.raw kv.1, object.raw kv.2))) rest := by
  simp only [parseObj, pack_map_string, List.append_assoc]
  rw [parseHead_pack_map _ _ h.1, startMap,
    parsePairs_map (parseObj d) v
      (fun x hx r => ⟨parseObj_pack_string d x.1 (h.2.1 x hx).1 r,
        parseObj_pack_string d x.2 (h.2.1 x hx).2 r⟩)]

/-! ### Conversions of the objects read back -/

theorem convert_int64_object (t : Int) (h : IsInt64 t) (target : Int) :
    convert_int64 (int64_object t) target = .ok t := by
  obtain ⟨hlo, hhi⟩ := h
  unfold int64_object
  split_ifs with h0
  · have h1 : ¬ t.toNat > 9223372036854775807 := by omega
    have h2 : ((t.toNat : Nat) : Int) = t := by omega
    simp only [convert_int64, if_neg h1, h2]
  · have h1 : ¬ t < -9223372036854775808 := by omega
    simp only [convert_int64, if_neg h1]

theorem convert_uint32_ok (n : Nat) (h : IsUInt32 n) (target : Nat) :
    convert_uint32 (.positive_integer n) target = .ok n := by
  unfold IsUInt32 at h
  have h1 : ¬ n > 4294967295 := by omega
  simp only [convert_uint32, if_neg h1]

theorem resize_length {α : Type} (dflt : α) (v : List α) (n : Nat) :
    (resize dflt v n).length = n := by
  simp [resize]; omega

theorem convert_items_map {α : Type} (conv : object → α → ConvRes α) (obj : α → object)
    (v : List α) (hc : ∀ x ∈ v, ∀ t, conv (obj x) t = .ok x) :
    ∀ target : List α, target.length = v.length →
      convert_items conv (v.map obj) target = .ok v := by
  induction v with
  | nil =>
    intro target ht
    have : target = [] := List.length_eq_zero.mp (by simpa using ht)
    subst this
    simp [convert_items]
  | cons x xs ih =>
    intro target ht
    cases target with
    | nil => simp at ht
    | cons y ys =>
      have hx := hc x (List.mem_cons_self x xs) y
      have hxs := ih (fun z hz => hc z (List.mem_cons_of_mem x hz)) ys (by simpa using ht)
      simp only [List.map_cons, convert_items, hx, hxs]

theorem convert_vector_string_ok (v target : List Bytes) :
    convert_vector_string (.array (v.map .raw)) target = .ok v := by
  simp only [convert_vector_string]
  exact convert_items_map convert_string object.raw v (fun _ _ _ => rfl) _
    (by rw [resize_length]; simp)

theorem convert_vector_uint32_ok (v target : List Nat) (h : IsUInt32List v) :
    convert_vector_uint32 (.array (v.map .positive_integer)) target = .ok v := by
  simp only [convert_vector_uint32]
  exact convert_items_map convert_uint32 object.positive_integer v
    (fun x hx t => convert_uint32_ok x (h.2 x hx) t) _ (by rw [resize_length]; simp)

end msgpack

namespace msgpack

theorem map_put_append (key val : Bytes) (acc : List (Bytes × Bytes))
    (h : ∀ a ∈ acc, string_lt a.1 key = true) :
    map_put key val acc = acc ++ [(key, val)] := by
  induction acc with
  | nil => rfl
  | cons a t ih =>
    obtain ⟨k, v⟩ := a
    have hk : string_lt k key = true := h (k, v) (List.mem_cons_self _ _)
    simp only [map_put, hk, if_true, List.cons_append]
    rw [ih (fun b hb => h b (List.mem_cons_of_mem _ hb))]

theorem convert_pairs_sorted (v : List (Bytes × Bytes)) :
    ∀ acc : List (Bytes × Bytes),
      v.Pairwise (fun a b => string_lt a.1 b.1 = true) →
      (∀ a ∈ acc, ∀ b ∈ v, string_lt a.1 b.1 = true) →
      convert_pairs (v.map fun kv => (object.raw kv.1, object.raw kv.2)) acc =
        .ok (acc ++ v) := by
  induction v with
  | nil => intro acc _ _; simp [convert_pairs]
  | cons x xs ih =>
    intro acc hs ha
    rw [List.pairwise_cons] at hs
    have hput : map_put x.1 x.2 acc = acc ++ [x] :=
      map_put_append x.1 x.2 acc (fun a h => ha a h x (List.mem_cons_self _ _))
    simp only [List.map_cons, convert_pairs, convert_string, hput]
    rw [ih (acc ++ [x]) hs.2]
    · simp
    · intro a h b hb
      rcases List.mem_append.mp h with h | h
      · exact ha a h b (List.mem_cons_of_mem _ hb)
      · rw [List.mem_singleton.mp h]; exact hs.1 b hb

theorem convert_map_string_ok (v : List (Bytes × Bytes)) (h : IsStringMap v) :
    convert_map_string (.map (v.map fun kv => (object.raw kv.1, object.raw kv.2))) [] =
      .ok v := by
  simp only [convert_map_string]
  rw [convert_pairs_sorted v [] h.2.2 (by simp)]
  simp

theorem next_pack_uint32 (n : Nat) (h : IsUInt32 n) (rest : Bytes) :
    unpacker.next (pack_uint32 n ++ rest) = .object (.positive_integer n) rest := by
  simp only [unpacker.next, parseObj_pack_uint32 _ n h rest]

theorem next_pack_int64 (t : Int) (h : IsInt64 t) (rest : Bytes) :
    unpacker.next (pack_int64 t ++ rest) = .object (int64_object t) rest := by
  simp only [unpacker.next, parseObj_pack_int64 _ t h rest]

theorem next_pack_string (v : Bytes) (h : IsString v) (rest : Bytes) :
    unpacker.next (pack_string v ++ rest) = .object (.raw v) rest := by
  simp only [unpacker.next, parseObj_pack_string _ v h rest]

theorem next_pack_vector_string (v : List Bytes) (h : IsStringList v) (rest : Bytes) :
    unpacker.next (pack_vector_string v ++ rest) = .object (.array (v.map .raw)) rest := by
  simp only [unpacker.next, EMBED_STACK_SIZE, parseObj_pack_vector_string 31 v h rest]

theorem next_pack_vector_uint32 (v : List Nat) (h : IsUInt32List v) (rest : Bytes) :
    unpacker.next (pack_vector_uint32 v ++ rest) =
      .object (.array (v.map .positive_integer)) rest := by
  simp only [unpacker.next, EMBED_STACK_SIZE, parseObj_pack_vector_uint32 31 v h rest]

theorem next_pack_map_string (v : List (Bytes × Bytes)) (h : IsStringMap v) (rest : Bytes) :
    unpacker.next (pack_map_string v ++ rest) =
      .object (.map (v.map fun kv => (object.raw kv.1, object.raw kv.2))) rest := by
  simp only [unpacker.next, EMBED_STACK_SIZE, parseObj_pack_map_string 31 v h rest]

end msgpack

/-! ## Reading a field back -/

theorem nextConvert_uint32 {σ : Type} (get : σ → Nat) (set : σ → Nat → σ) (self : σ)
    (n : Nat) (h : IsUInt32 n) (rest : Bytes) :
    nextConvert convert_uint32 get set self (pack_uint32 n ++ rest) =
      .running (set self n) rest := by
  simp only [nextConvert, next_pack_uint32 n h, convert_uint32_ok n h]

theorem nextConvert_int64 {σ : Type} (get : σ → Int) (set : σ → Int → σ) (self : σ)
    (t : Int) (h : IsInt64 t) (rest : Bytes) :
    nextConvert convert_int64 get set self (pack_int64 t ++ rest) =
      .running (set self t) rest := by
  simp only [nextConvert, next_pack_int64 t h, convert_int64_object t h]

theorem nextConvert_string {σ : Type} (get : σ → Bytes) (set : σ → Bytes → σ) (self : σ)
    (v : Bytes) (h : IsString v) (rest : Bytes) :
    nextConvert convert_string get set self (pack_string v ++ rest) =
      .running (set self v) rest := by
  simp only [nextConvert, next_pack_string v h, convert_string]

theorem nextConvert_vector_string {σ : Type} (get : σ → List Bytes)
    (set : σ → List Bytes → σ) (self : σ) (v : List Bytes) (h : IsStringList v)
    (rest : Bytes) :
    nextConvert convert_vector_string get set self (pack_vector_string v ++ rest) =
      .running (set self v) rest := by
  simp only [nextConvert, next_pack_vector_string v h, convert_vector_string_ok]

theorem nextConvert_vector_uint32 {σ : Type} (get : σ → List Nat)
    (set : σ → List Nat → σ) (self : σ) (v : List Nat) (h : IsUInt32List v)
    (rest : Bytes) :
    nextConvert convert_vector_uint32 get set self (pack_vector_uint32 v ++ rest) =
      .running (set self v) rest := by
  simp only [nextConvert, next_pack_vector_uint32 v h, convert_vector_uint32_ok _ _ h]

theorem nextConvert_map_string {σ : Type} (get : σ → List (Bytes × Bytes))
    (set : σ → List (Bytes × Bytes) → σ) (self : σ) (v : List (Bytes × Bytes))
    (h : IsStringMap v) (hfresh : get self = []) (rest : Bytes) :
    nextConvert convert_map_string get set self (pack_map_string v ++ rest) =
      .running (set self v) rest := by
  simp only [nextConvert, next_pack_map_string v h, hfresh, convert_map_string_ok v h]

/-- The common part read back from its own encoding, whatever follows it and whatever
the target held before. -/
theorem CommonReqData.unpack_pack (c : CommonReqData) (h : c.Legal) (target : CommonReqData)
    (rest : Bytes) :
    target.unpack (c.pack [] ++ rest) = .returned true c rest := by
  obtain ⟨h1, h2, h3⟩ := h
  simp only [CommonReqData.unpack, CommonReqData.pack, List.nil_append, List.append_assoc,
    nextConvert_uint32 _ _ _ _ h1, Flow.andThen, nextConvert_uint32 _ _ _ _ h2,
    nextConvert_string _ _ _ _ h3, Flow.catchReturnFalse, Flow.returnTrue]

/-- Every record read back from its own encoding into a default constructed record
of its type, whatever bytes follow the encoding. -/
theorem ReqData.unpack_pack_append (r : ReqData) (h : r.Legal) (uninit : Int) (rest : Bytes) :
    (r.newLike uninit).unpack (r.pack [] ++ rest) = .returned true r rest := by
  cases r with
  | Common r =>
    simp only [ReqData.newLike, ReqData.unpack, ReqData.pack,
      CommonReqData.unpack_pack r h, Flow.map]
  | NoAddition r =>
    simp only [ReqData.newLike, ReqData.unpack, ReqData.pack,
      CommonReqData.unpack_pack r.toCommonReqData h, Flow.map]
  | NoAdditionNeedBackup r =>
    simp only [ReqData.newLike, ReqData.unpack, ReqData.pack,
      CommonReqData.unpack_pack r.toCommonReqData h, Flow.map]
  | NoAdditionNoRollback r =>
    simp only [ReqData.newLike, ReqData.unpack, ReqData.pack,
      CommonReqData.unpack_pack r.toCommonReqData h, Flow.map]
  | CronJob r =>
    obtain ⟨hc, h1⟩ := h
    simp only [ReqData.newLike, ReqData.unpack, ReqData.pack, CronJobReqLog.unpack,
      CronJobReqLog.pack, List.append_assoc, CommonReqData.unpack_pack _ hc, baseUnpack,
      Flow.andThen, Flow.catchReturnFalse, Flow.returnTrue, Flow.map,
      nextConvert_int64 _ _ _ _ h1]
  | Timestamp r =>
    obtain ⟨hc, h1⟩ := h
    simp only [ReqData.newLike, ReqData.unpack, ReqData.pack, TimestampReqLog.unpack,
      TimestampReqLog.pack, List.append_assoc, CommonReqData.unpack_pack _ hc, baseUnpack,
      Flow.andThen, Flow.catchReturnFalse, Flow.returnTrue, Flow.map,
      nextConvert_int64 _ _ _ _ h1]
  | CreateOrUpdateDoc r =>
    obtain ⟨hc, h1⟩ := h
    simp only [ReqData.newLike, ReqData.unpack, ReqData.pack, CreateOrUpdateDocReqLog.unpack,
      CreateOrUpdateDocReqLog.pack, List.append_assoc, CommonReqData.unpack_pack _ hc, baseUnpack,
      Flow.andThen, Flow.catchReturnFalse, Flow.returnTrue, Flow.map,
      nextConvert_int64 _ _ _ _ h1]
  | Index r =>
    obtain ⟨hc, h1, h2⟩ := h
    simp only [ReqData.newLike, ReqData.unpack, ReqData.pack, IndexReqLog.unpack,
      IndexReqLog.pack, List.append_assoc, CommonReqData.unpack_pack _ hc, baseUnpack,
      Flow.andThen, Flow.catchReturnFalse, Flow.returnTrue, Flow.map,
      nextConvert_vector_string _ _ _ _ h1,
      nextConvert_int64 _ _ _ _ h2]
  | Product r =>
    obtain ⟨hc, h1⟩ := h
    simp only [ReqData.newLike, ReqData.unpack, ReqData.pack, ProductReqLog.unpack,
      ProductReqLog.pack, List.append_assoc, CommonReqData.unpack_pack _ hc, baseUnpack,
      Flow.andThen, Flow.catchReturnFalse, Flow.returnTrue, Flow.map,
      nextConvert_vector_string _ _ _ _ h1]
  | UpdateConfig r =>
    obtain ⟨hc, h1⟩ := h
    simp only [ReqData.newLike, ReqData.unpack, ReqData.pack, UpdateConfigReqLog.unpack,
      UpdateConfigReqLog.pack, List.append_assoc, CommonReqData.unpack_pack _ hc, baseUnpack,
      Flow.andThen, Flow.catchReturnFalse, Flow.returnTrue, Flow.map]
    rw [nextConvert_map_string _ _ _ _ h1 rfl]
  | UpdateRecCallback r =>
    obtain ⟨hc, h1, h2⟩ := h
    simp only [ReqData.newLike, ReqData.unpack, ReqData.pack, UpdateRecCallbackReqLog.unpack,
      UpdateRecCallbackReqLog.pack, List.append_assoc, CommonReqData.unpack_pack _ hc, baseUnpack,
      Flow.andThen, Flow.catchReturnFalse, Flow.returnTrue, Flow.map,
      nextConvert_vector_uint32 _ _ _ _ h1,
      nextConvert_vector_uint32 _ _ _ _ h2]
  | BuildPurchaseSimCallback r =>
    have hc : r.toCommonReqData.Legal := h
    simp only [ReqData.newLike, ReqData.unpack, ReqData.pack, BuildPurchaseSimCallbackReqLog.unpack,
      BuildPurchaseSimCallbackReqLog.pack, List.append_assoc, CommonReqData.unpack_pack _ hc, baseUnpack,
      Flow.andThen, Flow.catchReturnFalse, Flow.returnTrue, Flow.map]
  | RecommendIndex r =>
    obtain ⟨hc, h1, h2, h3⟩ := h
    simp only [ReqData.newLike, ReqData.unpack, ReqData.pack, RecommendIndexReqLog.unpack,
      RecommendIndexReqLog.pack, List.append_assoc, CommonReqData.unpack_pack _ hc, baseUnpack,
      Flow.andThen, Flow.catchReturnFalse, Flow.returnTrue, Flow.map,
      nextConvert_vector_string _ _ _ _ h1,
      nextConvert_vector_string _ _ _ _ h2,
      nextConvert_int64 _ _ _ _ h3]
  | RebuildCronTask r =>
    obtain ⟨hc, h1, h2⟩ := h
    simp only [ReqData.newLike, ReqData.unpack, ReqData.pack, RebuildCronTaskReqLog.unpack,
      RebuildCronTaskReqLog.pack, List.append_assoc, CommonReqData.unpack_pack _ hc, baseUnpack,
      Flow.andThen, Flow.catchReturnFalse, Flow.returnTrue, Flow.map,
      nextConvert_int64 _ _ _ _ h1,
      nextConvert_vector_uint32 _ _ _ _ h2]
  | RebuildFromSCD r =>
    obtain ⟨hc, h1, h2, h3⟩ := h
    simp only [ReqData.newLike, ReqData.unpack, ReqData.pack, RebuildFromSCDReqLog.unpack,
      RebuildFromSCDReqLog.pack, List.append_assoc, CommonReqData.unpack_pack _ hc, baseUnpack,
      Flow.andThen, Flow.catchReturnFalse, Flow.returnTrue, Flow.map,
      nextConvert_vector_string _ _ _ _ h1,
      nextConvert_int64 _ _ _ _ h2,
      nextConvert_vector_uint32 _ _ _ _ h3]

/-! ## Records and their common part -/

theorem ReqData.withCommon_common (r : ReqData) : r.withCommon r.common = r := by
  cases r <;> rfl

theorem ReqData.common_withCommon (r : ReqData) (c : CommonReqData) :
    (r.withCommon c).common = c := by
  cases r <;> rfl

theorem ReqData.newLike_withCommon (r : ReqData) (c : CommonReqData) (uninit : Int) :
    (r.withCommon c).newLike uninit = r.newLike uninit := by
  cases r <;> rfl

theorem ReqData.legal_withCommon (r : ReqData) (h : r.Legal) (c : CommonReqData)
    (hc : c.Legal) : (r.withCommon c).Legal := by
  cases r <;> first | exact hc | exact ⟨hc, h.2⟩

/-- The encoding of a record is the encoding of its common part followed by bytes
that do not depend on the common part. -/
theorem ReqData.pack_tail (r : ReqData) :
    ∃ tail : Bytes, ∀ c : CommonReqData, (r.withCommon c).pack [] = c.pack [] ++ tail := by
  cases r with
  | Common r => exact ⟨[], fun c => by simp [ReqData.withCommon, ReqData.pack]⟩
  | NoAddition r => exact ⟨[], fun c => by simp [ReqData.withCommon, ReqData.pack]⟩
  | NoAdditionNeedBackup r => exact ⟨[], fun c => by simp [ReqData.withCommon, ReqData.pack]⟩
  | NoAdditionNoRollback r => exact ⟨[], fun c => by simp [ReqData.withCommon, ReqData.pack]⟩
  | CronJob r => exact ⟨_, fun c => by
      simp only [ReqData.withCommon, ReqData.pack, CronJobReqLog.pack]; rfl⟩
  | Timestamp r => exact ⟨_, fun c => by
      simp only [ReqData.withCommon, ReqData.pack, TimestampReqLog.pack]; rfl⟩
  | CreateOrUpdateDoc r => exact ⟨_, fun c => by
      simp only [ReqData.withCommon, ReqData.pack, CreateOrUpdateDocReqLog.pack]; rfl⟩
  | Index r => exact ⟨_, fun c => by
      simp only [ReqData.withCommon, ReqData.pack, IndexReqLog.pack, List.append_assoc]; rfl⟩
  | Product r => exact ⟨_, fun c => by
      simp only [ReqData.withCommon, ReqData.pack, ProductReqLog.pack]; rfl⟩
  | UpdateConfig r => exact ⟨_, fun c => by
      simp only [ReqData.withCommon, ReqData.pack, UpdateConfigReqLog.pack]; rfl⟩
  | UpdateRecCallback r => exact ⟨_, fun c => by
      simp only [ReqData.withCommon, ReqData.pack, UpdateRecCallbackReqLog.pack,
        List.append_assoc]; rfl⟩
  | BuildPurchaseSimCallback r => exact ⟨[], fun c => by
      simp [ReqData.withCommon, ReqData.pack, BuildPurchaseSimCallbackReqLog.pack]⟩
  | RecommendIndex r => exact ⟨_, fun c => by
      simp only [ReqData.withCommon, ReqData.pack, RecommendIndexReqLog.pack,
        List.append_assoc]; rfl⟩
  | RebuildCronTask r => exact ⟨_, fun c => by
      simp only [ReqData.withCommon, ReqData.pack, RebuildCronTaskReqLog.pack,
        List.append_assoc]; rfl⟩
  | RebuildFromSCD r => exact ⟨_, fun c => by
      simp only [ReqData.withCommon, ReqData.pack, RebuildFromSCDReqLog.pack,
        List.append_assoc]; rfl⟩

theorem ReqLogMgr.string_replace_front (a b tail : Bytes) :
    ReqLogMgr.string_replace (a ++ tail) 0 a.length b = .ok (b ++ tail) := by
  simp [ReqLogMgr.string_replace]

/-- Splicing a new common part over the encoding of a record gives the encoding of
the record with that common part. -/
theorem ReqLogMgr.replaceCommon_pack (r : ReqData) (c : CommonReqData) :
    ReqLogMgr.replaceCommonReqData (.Common r.common) (.Common c)
        (ReqLogMgr.packReqLogData r) =
      .ok (ReqLogMgr.packReqLogData (r.withCommon c)) := by
  obtain ⟨tail, ht⟩ := r.pack_tail
  have h1 := ht r.common
  rw [r.withCommon_common] at h1
  simp only [ReqLogMgr.replaceCommonReqData, ReqLogMgr.packReqLogData, ht c, h1]
  exact ReqLogMgr.string_replace_front _ _ _

/-! ## The checksum: table against bit steps -/

theorem crcBitStep_eq (v : Nat) :
    crcBitStep v = (v / 2) ^^^ (if v % 2 = 1 then 0xEDB88320 else 0) := by
  simp [crcBitStep, Nat.shiftRight_eq_div_pow]

theorem crcBitStep_xor (a b : Nat) :
    crcBitStep (a ^^^ b) = crcBitStep a ^^^ crcBitStep b := by
  simp only [crcBitStep_eq, Nat.xor_div_two]
  have hab := @Nat.xor_mod_two_eq_one a b
  rcases Nat.mod_two_eq_zero_or_one a with ha | ha <;>
    rcases Nat.mod_two_eq_zero_or_one b with hb | hb
  · have h : ¬ (a ^^^ b) % 2 = 1 := by rw [hab]; omega
    have ha1 : ¬ a % 2 = 1 := by omega
    have hb1 : ¬ b % 2 = 1 := by omega
    simp only [if_neg h, if_neg ha1, if_neg hb1, Nat.xor_zero]
  · have h : (a ^^^ b) % 2 = 1 := by rw [hab]; omega
    have ha1 : ¬ a % 2 = 1 := by omega
    simp only [if_pos h, if_neg ha1, if_pos hb, Nat.xor_zero, Nat.xor_assoc]
  · have h : (a ^^^ b) % 2 = 1 := by rw [hab]; omega
    have hb1 : ¬ b % 2 = 1 := by omega
    simp only [if_pos h, if_pos ha, if_neg hb1, Nat.xor_zero, Nat.xor_assoc]
    rw [Nat.xor_comm (b / 2)]
  · have h : ¬ (a ^^^ b) % 2 = 1 := by rw [hab]; omega
    simp only [if_neg h, if_pos ha, if_pos hb, Nat.xor_zero]
    rw [Nat.xor_assoc, ← Nat.xor_assoc 3988292384, Nat.xor_comm 3988292384 (b / 2),
      Nat.xor_assoc, Nat.xor_self, Nat.xor_zero]

theorem crcBitStep_iterate_xor (k a b : Nat) :
    crcBitStep^[k] (a ^^^ b) = crcBitStep^[k] a ^^^ crcBitStep^[k] b := by
  induction k generalizing a b with
  | zero => rfl
  | succ k ih => simp only [Function.iterate_succ_apply, crcBitStep_xor, ih]

theorem crcBitStep_iterate_shift (k h : Nat) : crcBitStep^[k] (2 ^ k * h) = h := by
  induction k with
  | zero => simp
  | succ k ih =>
    have e : crcBitStep (2 ^ (k + 1) * h) = 2 ^ k * h := by
      rw [crcBitStep_eq]
      have h1 : 2 ^ (k + 1) * h = 2 * (2 ^ k * h) := by ring
      have h2 : ¬ (2 * (2 ^ k * h)) % 2 = 1 := by omega
      rw [h1, if_neg h2, Nat.xor_zero]; omega
    rw [Function.iterate_succ_apply, e, ih]

theorem split_low_byte (x : Nat) : x = (2 ^ 8 * (x / 256)) ^^^ (x % 256) := by
  apply Nat.eq_of_testBit_eq
  intro j
  have hx : x = 2 ^ 8 * (x / 256) + x % 256 := by omega
  have hlt : x % 256 < 2 ^ 8 := by omega
  rw [Nat.testBit_xor, Nat.testBit_mul_pow_two]
  conv_lhs => rw [hx, Nat.testBit_mul_pow_two_add _ hlt]
  by_cases hj : j < 8
  · have : ¬ j ≥ 8 := by omega
    simp [hj, this]
  · have h8 : j ≥ 8 := by omega
    have hf : (x % 256).testBit j = false :=
      Nat.testBit_lt_two_pow (Nat.lt_of_lt_of_le hlt (Nat.pow_le_pow_right (by decide) h8))
    simp [hj, h8, hf]

set_option maxRecDepth 100000 in
theorem crc32tab_length : _crc32tab.length = 256 := by
  decide

set_option maxRecDepth 100000 in
theorem crc32tab_entries : ∀ i, i < 256 → _crc32tab.getD i 0 = crcBitStep^[8] i := by
  decide

theorem crcBitStep_iterate_byte (x : Nat) :
    crcBitStep^[8] x = (x / 256) ^^^ _crc32tab.getD (x % 256) 0 := by
  conv_lhs => rw [split_low_byte x]
  rw [crcBitStep_iterate_xor, crcBitStep_iterate_shift,
    crc32tab_entries (x % 256) (by omega)]

theorem charToUInt32_low (b : Nat) (hb : b < 256) : charToUInt32 b % 256 = b := by
  unfold charToUInt32; split_ifs <;> omega

theorem xor_byte_div (c b : Nat) (hb : b < 256) : (c ^^^ b) / 256 = c / 256 := by
  have h : ∀ x, x / 256 = x >>> 8 := fun x => by simp [Nat.shiftRight_eq_div_pow]
  rw [h, h]
  apply Nat.eq_of_testBit_eq
  intro j
  have hf : b.testBit (8 + j) = false :=
    Nat.testBit_lt_two_pow (Nat.lt_of_lt_of_le hb
      (by rw [show 256 = 2 ^ 8 from rfl]; exact Nat.pow_le_pow_right (by decide) (by omega)))
  simp [Nat.testBit_shiftRight, Nat.testBit_xor, hf]

theorem xor_low_byte (c d : Nat) : (c ^^^ d) &&& 255 = ((c ^^^ (d % 256)) % 256) := by
  have h : ∀ x, x % 256 = x &&& 255 := fun x => (Nat.and_pow_two_sub_one_eq_mod x 8).symm
  rw [h (c ^^^ (d % 256)), h d, Nat.and_xor_distrib_right, Nat.and_xor_distrib_right,
    Nat.and_assoc, Nat.and_self]

/-- One round of the table driven loop is the bitwise update for that byte. -/
theorem crc_round (c b : Nat) (hb : b < 256) :
    (c >>> 8) ^^^ _crc32tab.getD ((c ^^^ charToUInt32 b) &&& 0xff) 0 = crcByteBitwise c b := by
  unfold crcByteBitwise
  rw [crcBitStep_iterate_byte, xor_byte_div c b hb, xor_low_byte, charToUInt32_low b hb,
    Nat.shiftRight_eq_div_pow]

/-- The table driven loop over a whole buffer is the bitwise update folded over it. -/
theorem crc_eq_bitwise (bs : Bytes) (hbs : ∀ b ∈ bs, b < 256) :
    ∀ c : Nat, ReqLogMgr.crc c bs bs.length = crcBitwise c bs := by
  induction bs with
  | nil => intro c; rfl
  | cons b bs ih =>
    intro c
    have hpos : (0 : Int) < ((b :: bs).length : Int) := by
      simp only [List.length_cons]; omega
    have hlen : (((b :: bs).length : Nat) : Int) - 1 = (bs.length : Int) := by
      simp only [List.length_cons]; omega
    simp only [ReqLogMgr.crc, if_pos hpos, hlen,
      crc_round c b (hbs b (List.mem_cons_self _ _))]
    rw [ih (fun x hx => hbs x (List.mem_cons_of_mem _ hx))]
    rfl

/-! ## The checksum: the register update is injective -/

theorem crcBitStep_lt (v : Nat) (hv : v < 2 ^ 32) : crcBitStep v < 2 ^ 32 := by
  rw [crcBitStep_eq]
  apply Nat.xor_lt_two_pow
  · omega
  · split_ifs <;> decide

theorem crcBitStep_top_bit (v : Nat) (hv : v < 2 ^ 32) :
    (crcBitStep v).testBit 31 = decide (v % 2 = 1) := by
  rw [crcBitStep_eq, Nat.testBit_xor]
  have h1 : (v / 2).testBit 31 = false := Nat.testBit_lt_two_pow (by omega)
  rw [h1]
  by_cases h : v % 2 = 1
  · simp only [if_pos h]; simp [h]; decide
  · simp only [if_neg h]; simp [h]

theorem crcBitStep_inj (v w : Nat) (hv : v < 2 ^ 32) (hw : w < 2 ^ 32)
    (h : crcBitStep v = crcBitStep w) : v = w := by
  have hb : decide (v % 2 = 1) = decide (w % 2 = 1) := by
    rw [← crcBitStep_top_bit v hv, ← crcBitStep_top_bit w hw, h]
  have hp : (v % 2 = 1) ↔ (w % 2 = 1) := by simpa using hb
  rw [crcBitStep_eq, crcBitStep_eq] at h
  have hd : v / 2 = w / 2 := by
    by_cases h1 : v % 2 = 1
    · rw [if_pos h1, if_pos (hp.mp h1)] at h
      exact Nat.xor_left_injective h
    · rw [if_neg h1, if_neg (fun h2 => h1 (hp.mpr h2)), Nat.xor_zero, Nat.xor_zero] at h
      exact h
  omega

theorem crcBitStep_iterate_lt (k v : Nat) (hv : v < 2 ^ 32) : crcBitStep^[k] v < 2 ^ 32 := by
  induction k generalizing v with
  | zero => exact hv
  | succ k ih => rw [Function.iterate_succ_apply]; exact ih _ (crcBitStep_lt v hv)

theorem crcBitStep_iterate_inj (k v w : Nat) (hv : v < 2 ^ 32) (hw : w < 2 ^ 32)
    (h : crcBitStep^[k] v = crcBitStep^[k] w) : v = w := by
  induction k generalizing v w with
  | zero => exact h
  | succ k ih =>
    rw [Function.iterate_succ_apply, Function.iterate_succ_apply] at h
    exact crcBitStep_inj v w hv hw (ih _ _ (crcBitStep_lt v hv) (crcBitStep_lt w hw) h)

theorem xor_byte_lt (c b : Nat) (hc : c < 2 ^ 32) (hb : b < 256) : c ^^^ b < 2 ^ 32 :=
  Nat.xor_lt_two_pow hc (by omega)

theorem crcByteBitwise_lt (c b : Nat) (hc : c < 2 ^ 32) (hb : b < 256) :
    crcByteBitwise c b < 2 ^ 32 :=
  crcBitStep_iterate_lt 8 _ (xor_byte_lt c b hc hb)

theorem crcBitwise_lt (bs : Bytes) (hbs : ∀ b ∈ bs, b < 256) :
    ∀ c : Nat, c < 2 ^ 32 → crcBitwise c bs < 2 ^ 32 := by
  induction bs with
  | nil => intro c hc; exact hc
  | cons b bs ih =>
    intro c hc
    exact ih (fun x hx => hbs x (List.mem_cons_of_mem _ hx)) _
      (crcByteBitwise_lt c b hc (hbs b (List.mem_cons_self _ _)))

/-- Different registers stay different under the same bytes. -/
theorem crcBitwise_ne (bs : Bytes) (hbs : ∀ b ∈ bs, b < 256) :
    ∀ c d : Nat, c < 2 ^ 32 → d < 2 ^ 32 → c ≠ d → crcBitwise c bs ≠ crcBitwise d bs := by
  induction bs with
  | nil => intro c d _ _ h; exact h
  | cons b bs ih =>
    intro c d hc hd h
    have hb := hbs b (List.mem_cons_self _ _)
    apply ih (fun x hx => hbs x (List.mem_cons_of_mem _ hx)) _ _
      (crcByteBitwise_lt c b hc hb) (crcByteBitwise_lt d b hd hb)
    intro he
    have := crcBitStep_iterate_inj 8 _ _ (xor_byte_lt c b hc hb) (xor_byte_lt d b hd hb) he
    exact h (Nat.xor_left_injective this)

/-- Different bytes entering the same register give different registers. -/
theorem crcByteBitwise_ne (c x y : Nat) (hc : c < 2 ^ 32) (hx : x < 256) (hy : y < 256)
    (h : x ≠ y) : crcByteBitwise c x ≠ crcByteBitwise c y := by
  intro he
  have := crcBitStep_iterate_inj 8 _ _ (xor_byte_lt c x hc hx) (xor_byte_lt c y hc hy) he
  exact h (Nat.xor_right_injective this)

theorem crcBitwise_append (c : Nat) (a b : Bytes) :
    crcBitwise c (a ++ b) = crcBitwise (crcBitwise c a) b := by
  simp [crcBitwise, List.foldl_append]

/-- Two buffers that differ in one byte have different checksums. -/
theorem crc_one_byte_differs (c : Nat) (hc : c < 2 ^ 32) (pre suf : Bytes) (x y : Nat)
    (hpre : ∀ b ∈ pre, b < 256) (hsuf : ∀ b ∈ suf, b < 256) (hx : x < 256) (hy : y < 256)
    (hxy : x ≠ y) :
    ReqLogMgr.crc c (pre ++ x :: suf) (pre ++ x :: suf).length ≠
      ReqLogMgr.crc c (pre ++ y :: suf) (pre ++ y :: suf).length := by
  have hbx : ∀ b ∈ pre ++ x :: suf, b < 256 := by
    intro b hb
    rcases List.mem_append.mp hb with h | h
    · exact hpre b h
    · rcases List.mem_cons.mp h with h | h
      · rw [h]; exact hx
      · exact hsuf b h
  have hby : ∀ b ∈ pre ++ y :: suf, b < 256 := by
    intro b hb
    rcases List.mem_append.mp hb with h | h
    · exact hpre b h
    · rcases List.mem_cons.mp h with h | h
      · rw [h]; exact hy
      · exact hsuf b h
  rw [crc_eq_bitwise _ hbx, crc_eq_bitwise _ hby, crcBitwise_append, crcBitwise_append]
  have hp := crcBitwise_lt pre hpre c hc
  exact crcBitwise_ne suf hsuf _ _ (crcByteBitwise_lt _ x hp hx) (crcByteBitwise_lt _ y hp hy)
    (crcByteBitwise_ne _ x y hp hx hy hxy)

/-! ## Reading members: what decides the result of `unpack` -/

namespace msgpack

theorem convert_items_isOk {α : Type} (conv : object → α → ConvRes α)
    (hconv : ∀ o t t2, (conv o t).isOk = (conv o t2).isOk) (items : List object) :
    ∀ t t2 : List α, t.length = items.length → t2.length = items.length →
      (convert_items conv items t).isOk = (convert_items conv items t2).isOk := by
  induction items with
  | nil => intro t t2 _ _; rfl
  | cons o os ih =>
    intro t t2 ht ht2
    cases t with
    | nil => simp at ht
    | cons x xs =>
      cases t2 with
      | nil => simp at ht2
      | cons y ys =>
        have h1 := hconv o x y
        have h2 := ih xs ys (by simpa using ht) (by simpa using ht2)
        simp only [convert_items]
        cases hx : conv o x <;> cases hy : conv o y <;> rw [hx, hy] at h1 <;>
          simp only [ConvRes.isOk] at h1 ⊢
        · cases hxs : convert_items conv os xs <;> cases hys : convert_items conv os ys <;>
            rw [hxs, hys] at h2 <;> simp only [ConvRes.isOk] at h2 ⊢
          all_goals first | rfl | exact absurd h2 (by decide)
        all_goals first | rfl | exact absurd h1 (by decide)

theorem convert_pairs_isOk (items : List (object × object)) :
    ∀ m m2 : List (Bytes × Bytes),
      (convert_pairs items m).isOk = (convert_pairs items m2).isOk := by
  induction items with
  | nil => intro m m2; rfl
  | cons kv rest ih =>
    intro m m2
    obtain ⟨ko, vo⟩ := kv
    simp only [convert_pairs]
    cases hk : convert_string ko [] with
    | type_error _ => rfl
    | ok key =>
      cases hv : convert_string vo [] with
      | type_error _ => rfl
      | ok val => exact ih _ _

end msgpack

theorem isOk_uint32 (o : object) (t : Nat) :
    (convert_uint32 o t).isOk = FieldType.uint32.convertible o := by
  cases o <;> simp only [FieldType.convertible, convert_uint32, ConvRes.isOk]
  split_ifs <;> rfl

theorem isOk_int64 (o : object) (t : Int) :
    (convert_int64 o t).isOk = FieldType.int64.convertible o := by
  cases o <;> simp only [FieldType.convertible, convert_int64, ConvRes.isOk]
  all_goals split_ifs <;> rfl

theorem isOk_string (o : object) (t : Bytes) :
    (convert_string o t).isOk = FieldType.string.convertible o := by
  cases o <;> simp only [FieldType.convertible, convert_string, ConvRes.isOk]

theorem isOk_vector_string (o : object) (t : List Bytes) :
    (convert_vector_string o t).isOk = FieldType.vector_string.convertible o := by
  cases o <;> simp only [FieldType.convertible, convert_vector_string, ConvRes.isOk]
  exact convert_items_isOk convert_string
    (fun o t t2 => by rw [isOk_string, isOk_string]) _ _ _
    (resize_length _ _ _) (resize_length _ _ _)

theorem isOk_vector_uint32 (o : object) (t : List Nat) :
    (convert_vector_uint32 o t).isOk = FieldType.vector_uint32.convertible o := by
  cases o <;> simp only [FieldType.convertible, convert_vector_uint32, ConvRes.isOk]
  exact convert_items_isOk convert_uint32
    (fun o t t2 => by rw [isOk_uint32, isOk_uint32]) _ _ _
    (resize_length _ _ _) (resize_length _ _ _)

theorem isOk_map_string (o : object) (t : List (Bytes × Bytes)) :
    (convert_map_string o t).isOk = FieldType.map_string.convertible o := by
  cases o <;> simp only [FieldType.convertible, convert_map_string, ConvRes.isOk]
  exact convert_pairs_isOk _ _ _

/-- One `next`/`convert` pair reads one member. -/
theorem nextConvert_reads {σ α : Type} (ft : FieldType) (conv : object → α → ConvRes α)
    (hconv : ∀ o t, (conv o t).isOk = ft.convertible o) (get : σ → α) (set : σ → α → σ)
    (self : σ) (q : Bytes) :
    (nextConvert conv get set self q).Reads [ft] q := by
  unfold Flow.Reads nextConvert
  simp only [readFields]
  cases hn : unpacker.next q with
  | unpack_error u => exact ⟨self, u, Or.inr ⟨_, rfl⟩⟩
  | none u => exact ⟨self, u, Or.inl rfl⟩
  | object o u =>
    have h := hconv o (get self)
    cases hc : conv o (get self) with
    | ok v =>
      rw [hc] at h
      simp only [ConvRes.isOk] at h
      simp only [← h, if_true]
      exact ⟨set self v, by rw [hc]⟩
    | type_error v =>
      rw [hc] at h
      simp only [ConvRes.isOk] at h
      simp only [← h]
      exact ⟨set self v, u, Or.inr ⟨Exn.type_error, by rw [hc]⟩⟩

theorem readFields_append (a b : List FieldType) (q : Bytes) :
    readFields (a ++ b) q = (readFields a q).bind (readFields b) := by
  induction a generalizing q with
  | nil => rfl
  | cons ft fts ih =>
    simp only [List.cons_append, readFields]
    cases unpacker.next q with
    | object o r =>
      by_cases h : ft.convertible o
      · simp only [h, if_true]; exact ih r
      · simp only [h]; rfl
    | none u => rfl
    | unpack_error u => rfl

/-- Sequencing of reads. -/
theorem Flow.Reads.andThen {σ : Type} {a b : List FieldType} {q : Bytes} {f : Flow σ}
    {g : σ → Bytes → Flow σ} (hf : f.Reads a q) (hg : ∀ s u, (g s u).Reads b u) :
    (f.andThen g).Reads (a ++ b) q := by
  unfold Flow.Reads at hf ⊢
  rw [readFields_append]
  cases h : readFields a q with
  | some u =>
    rw [h] at hf
    obtain ⟨s, rfl⟩ := hf
    simp only [Option.bind, Flow.andThen]
    exact hg s u
  | none =>
    rw [h] at hf
    obtain ⟨s, u, hsu | ⟨e, hsu⟩⟩ := hf
    · subst hsu; exact ⟨s, u, Or.inl rfl⟩
    · subst hsu; exact ⟨s, u, Or.inr ⟨e, rfl⟩⟩

/-- A `try` block that read members, with `catch ... return false` and the final
`return true`, decodes those members. -/
theorem Flow.Reads.decodes {σ : Type} {a : List FieldType} {q : Bytes} {f : Flow σ}
    (hf : f.Reads a q) : f.catchReturnFalse.returnTrue.Decodes a q := by
  unfold Flow.Reads at hf
  unfold Flow.Decodes
  cases h : readFields a q with
  | some u =>
    rw [h] at hf
    obtain ⟨s, rfl⟩ := hf
    exact ⟨s, rfl⟩
  | none =>
    rw [h] at hf
    obtain ⟨s, u, hsu | ⟨e, hsu⟩⟩ := hf
    · subst hsu; exact ⟨s, u, rfl⟩
    · subst hsu; exact ⟨s, u, rfl⟩

/-- The base call followed by the block of the derived record. -/
theorem Flow.Decodes.derived {σ β : Type} {a b : List FieldType} {q : Bytes}
    {base : Flow β} {put : β → σ} {g : σ → Bytes → Flow σ} (hb : base.Decodes a q)
    (hg : ∀ s u, (g s u).Decodes b u) :
    ((baseUnpack base put).andThen g).Decodes (a ++ b) q := by
  unfold Flow.Decodes at hb ⊢
  rw [readFields_append]
  cases h : readFields a q with
  | some u =>
    rw [h] at hb
    obtain ⟨s, rfl⟩ := hb
    simp only [Option.bind, baseUnpack, Flow.andThen]
    exact hg (put s) u
  | none =>
    rw [h] at hb
    obtain ⟨s, u, rfl⟩ := hb
    exact ⟨put s, u, rfl⟩

theorem Flow.Decodes.map {σ β : Type} {a : List FieldType} {q : Bytes} {f : Flow β}
    (h : β → σ) (hf : f.Decodes a q) : (f.map h).Decodes a q := by
  unfold Flow.Decodes at hf ⊢
  cases hr : readFields a q with
  | some u => rw [hr] at hf; obtain ⟨s, rfl⟩ := hf; exact ⟨h s, rfl⟩
  | none => rw [hr] at hf; obtain ⟨s, u, rfl⟩ := hf; exact ⟨h s, u, rfl⟩

/-- `CommonReqData::unpack` decodes the three common members. -/
theorem CommonReqData.unpack_decodes_common (self : CommonReqData) (q : Bytes) :
    (self.unpack q).Decodes CommonReqData.fields q :=
  Flow.Reads.decodes
    (Flow.Reads.andThen
      (Flow.Reads.andThen (nextConvert_reads .uint32 convert_uint32 isOk_uint32 _ _ self q)
        (fun s u => nextConvert_reads .uint32 convert_uint32 isOk_uint32 _ _ s u))
      (fun s u => nextConvert_reads .string convert_string isOk_string _ _ s u))

/-- The virtual `unpack` of every record type decodes exactly the members of that
type: it returns `true` when every member finds an object it accepts, and `false`
otherwise; no exception leaves it. -/
theorem ReqData.unpack_decodes (t : ReqData) (q : Bytes) :
    (t.unpack q).Decodes t.fields q := by
  cases t with
  | Common r => exact Flow.Decodes.map _ (CommonReqData.unpack_decodes_common r q)
  | NoAddition r => exact Flow.Decodes.map _ (CommonReqData.unpack_decodes_common r.toCommonReqData q)
  | NoAdditionNeedBackup r => exact Flow.Decodes.map _ (CommonReqData.unpack_decodes_common r.toCommonReqData q)
  | NoAdditionNoRollback r => exact Flow.Decodes.map _ (CommonReqData.unpack_decodes_common r.toCommonReqData q)
  | CronJob r =>
    exact Flow.Decodes.map _ (Flow.Decodes.derived
      (CommonReqData.unpack_decodes_common r.toCommonReqData q)
      (fun s u => Flow.Reads.decodes (nextConvert_reads .int64 convert_int64 isOk_int64 _ _ s u)))
  | Timestamp r =>
    exact Flow.Decodes.map _ (Flow.Decodes.derived
      (CommonReqData.unpack_decodes_common r.toCommonReqData q)
      (fun s u => Flow.Reads.decodes (nextConvert_reads .int64 convert_int64 isOk_int64 _ _ s u)))
  | CreateOrUpdateDoc r =>
    exact Flow.Decodes.map _ (Flow.Decodes.derived
      (CommonReqData.unpack_decodes_common r.toCommonReqData q)
      (fun s u => Flow.Reads.decodes (nextConvert_reads .int64 convert_int64 isOk_int64 _ _ s u)))
  | Index r =>
    exact Flow.Decodes.map _ (Flow.Decodes.derived
      (CommonReqData.unpack_decodes_common r.toCommonReqData q)
      (fun s u => Flow.Reads.decodes (Flow.Reads.andThen (nextConvert_reads .vector_string convert_vector_string isOk_vector_string _ _ s u)
        (fun s2 u2 => nextConvert_reads .int64 convert_int64 isOk_int64 _ _ s2 u2))))
  | Product r =>
    exact Flow.Decodes.map _ (Flow.Decodes.derived
      (CommonReqData.unpack_decodes_common r.toCommonReqData q)
      (fun s u => Flow.Reads.decodes (nextConvert_reads .vector_string convert_vector_string isOk_vector_string _ _ s u)))
  | UpdateConfig r =>
    exact Flow.Decodes.map _ (Flow.Decodes.derived
      (CommonReqData.unpack_decodes_common r.toCommonReqData q)
      (fun s u => Flow.Reads.decodes (nextConvert_reads .map_string convert_map_string isOk_map_string _ _ s u)))
  | UpdateRecCallback r =>
    exact Flow.Decodes.map _ (Flow.Decodes.derived
      (CommonReqData.unpack_decodes_common r.toCommonReqData q)
      (fun s u => Flow.Reads.decodes (Flow.Reads.andThen (nextConvert_reads .vector_uint32 convert_vector_uint32 isOk_vector_uint32 _ _ s u)
        (fun s2 u2 => nextConvert_reads .vector_uint32 convert_vector_uint32 isOk_vector_uint32 _ _ s2 u2))))
  | BuildPurchaseSimCallback r =>
    exact Flow.Decodes.map _ (@Flow.Decodes.derived _ _ _ [] _ _ _ _
      (CommonReqData.unpack_decodes_common r.toCommonReqData q) (fun s u => ⟨s, rfl⟩))
  | RecommendIndex r =>
    exact Flow.Decodes.map _ (Flow.Decodes.derived
      (CommonReqData.unpack_decodes_common r.toCommonReqData q)
      (fun s u => Flow.Reads.decodes (Flow.Reads.andThen (Flow.Reads.andThen (nextConvert_reads .vector_string convert_vector_string isOk_vector_string _ _ s u)
        (fun s2 u2 => nextConvert_reads .vector_string convert_vector_string isOk_vector_string _ _ s2 u2))
        (fun s2 u2 => nextConvert_reads .int64 convert_int64 isOk_int64 _ _ s2 u2))))
  | RebuildCronTask r =>
    exact Flow.Decodes.map _ (Flow.Decodes.derived
      (CommonReqData.unpack_decodes_common r.toCommonReqData q)
      (fun s u => Flow.Reads.decodes (Flow.Reads.andThen (nextConvert_reads .int64 convert_int64 isOk_int64 _ _ s u)
        (fun s2 u2 => nextConvert_reads .vector_uint32 convert_vector_uint32 isOk_vector_uint32 _ _ s2 u2))))
  | RebuildFromSCD r =>
    exact Flow.Decodes.map _ (Flow.Decodes.derived
      (CommonReqData.unpack_decodes_common r.toCommonReqData q)
      (fun s u => Flow.Reads.decodes (Flow.Reads.andThen (Flow.Reads.andThen (nextConvert_reads .vector_string convert_vector_string isOk_vector_string _ _ s u)
        (fun s2 u2 => nextConvert_reads .int64 convert_int64 isOk_int64 _ _ s2 u2))
        (fun s2 u2 => nextConvert_reads .vector_uint32 convert_vector_uint32 isOk_vector_uint32 _ _ s2 u2))))

theorem readFields_none_of_atom (k : Nat) :
    ∀ (fts : List FieldType) (s : Bytes) (ft : FieldType) (o : object),
      fts[k]? = some ft → atomAt k s = some o → ft.convertible o = false →
      readFields fts s = none := by
  induction k with
  | zero =>
    intro fts s ft o hft ha hc
    cases fts with
    | nil => simp at hft
    | cons f fs =>
      simp only [List.getElem?_cons_zero, Option.some.injEq] at hft
      subst hft
      simp only [atomAt] at ha
      simp only [readFields]
      cases hn : unpacker.next s with
      | object o2 u =>
        rw [hn] at ha
        simp only [Option.some.injEq] at ha
        subst ha
        simp [hc]
      | none u => rfl
      | unpack_error u => rfl
  | succ k ih =>
    intro fts s ft o hft ha hc
    cases fts with
    | nil => simp at hft
    | cons f fs =>
      simp only [List.getElem?_cons_succ] at hft
      simp only [atomAt] at ha
      simp only [readFields]
      cases hn : unpacker.next s with
      | object o2 u =>
        rw [hn] at ha
        simp only at ha
        simp only [ih fs u ft o hft ha hc]
        split_ifs <;> rfl
      | none u => rfl
      | unpack_error u => rfl

theorem Flow.Decodes.returned {σ : Type} {a : List FieldType} {q : Bytes} {f : Flow σ}
    (hf : f.Decodes a q) : ∃ b s u, f = .returned b s u := by
  unfold Flow.Decodes at hf
  cases h : readFields a q with
  | some u => rw [h] at hf; obtain ⟨s, rfl⟩ := hf; exact ⟨true, s, u, rfl⟩
  | none => rw [h] at hf; obtain ⟨s, u, rfl⟩ := hf; exact ⟨false, s, u, rfl⟩

theorem Flow.Decodes.of_none {σ : Type} {a : List FieldType} {q : Bytes} {f : Flow σ}
    (hf : f.Decodes a q) (h : readFields a q = none) : ∃ s u, f = .returned false s u := by
  unfold Flow.Decodes at hf
  rw [h] at hf
  exact hf

/-! ## The parser keeps its result when bytes follow -/

namespace msgpack

theorem extDone_done {α : Type} (v : α) : ExtDone (fun bs => PRes.done v bs) := by
  intro q s v2 r h
  injection h with h1 h2
  subst h1; subst h2; rfl

theorem extDone_failed {α : Type} : ExtDone (fun _ => (PRes.failed : PRes α)) := by
  intro q s v r h
  exact PRes.noConfusion h

theorem extDone_payload {α : Type} (n : Nat) (k : Bytes → Bytes → PRes α)
    (hk : ∀ p, ExtDone (k p)) : ExtDone (fun bs => PRes.payload n bs k) := by
  intro q s v r h
  simp only [PRes.payload] at h ⊢
  by_cases hn : n ≤ q.length
  · rw [if_pos hn] at h
    have hn2 : n ≤ (q ++ s).length := by rw [List.length_append]; omega
    rw [if_pos hn2, List.take_append_of_le_length hn, List.drop_append_of_le_length hn]
    exact hk _ _ s v r h
  · rw [if_neg hn] at h
    exact PRes.noConfusion h

theorem extDone_parseItems (p : Bytes → PRes object) (hp : ExtDone p) (n : Nat) :
    ExtDone (parseItems p n) := by
  induction n with
  | zero =>
    intro q s v r h
    simp only [parseItems] at h ⊢
    injection h with h1 h2
    subst h1; subst h2; rfl
  | succ n ih =>
    intro q s v r h
    simp only [parseItems] at h ⊢
    cases h1 : p q with
    | more => rw [h1] at h; exact PRes.noConfusion h
    | failed => rw [h1] at h; exact PRes.noConfusion h
    | done o r1 =>
      rw [h1] at h
      simp only at h
      rw [hp q s o r1 h1]
      simp only
      cases h2 : parseItems p n r1 with
      | more => rw [h2] at h; exact PRes.noConfusion h
      | failed => rw [h2] at h; exact PRes.noConfusion h
      | done os r2 =>
        rw [h2] at h
        simp only at h
        rw [ih r1 s os r2 h2]
        injection h with h3 h4
        subst h3; subst h4; rfl

theorem extDone_parsePairs (p : Bytes → PRes object) (hp : ExtDone p) (n : Nat) :
    ExtDone (parsePairs p n) := by
  induction n with
  | zero =>
    intro q s v r h
    simp only [parsePairs] at h ⊢
    injection h with h1 h2
    subst h1; subst h2; rfl
  | succ n ih =>
    intro q s v r h
    simp only [parsePairs] at h ⊢
    cases h1 : p q with
    | more => rw [h1] at h; exact PRes.noConfusion h
    | failed => rw [h1] at h; exact PRes.noConfusion h
    | done o r1 =>
      rw [h1] at h
      simp only at h
      rw [hp q s o r1 h1]
      simp only
      cases h1b : p r1 with
      | more => rw [h1b] at h; exact PRes.noConfusion h
      | failed => rw [h1b] at h; exact PRes.noConfusion h
      | done o2 r1b =>
        rw [h1b] at h
        simp only at h
        rw [hp r1 s o2 r1b h1b]
        simp only
        cases h2 : parsePairs p n r1b with
        | more => rw [h2] at h; exact PRes.noConfusion h
        | failed => rw [h2] at h; exact PRes.noConfusion h
        | done os r2 =>
          rw [h2] at h
          simp only at h
          rw [ih r1b s os r2 h2]
          injection h with h3 h4
          subst h3; subst h4; rfl

theorem extDone_startArray (sub : Option (Bytes → PRes object))
    (hsub : ∀ p, sub = some p → ExtDone p) (n : Nat) : ExtDone (startArray sub n) := by
  intro q s v r h
  cases sub with
  | none => exact PRes.noConfusion h
  | some p =>
    simp only [startArray] at h ⊢
    cases h1 : parseItems p n q with
    | more => rw [h1] at h; exact PRes.noConfusion h
    | failed => rw [h1] at h; exact PRes.noConfusion h
    | done os r1 =>
      rw [h1] at h
      simp only at h
      rw [extDone_parseItems p (hsub p rfl) n q s os r1 h1]
      injection h with h3 h4
      subst h3; subst h4; rfl

theorem extDone_startMap (sub : Option (Bytes → PRes object))
    (hsub : ∀ p, sub = some p → ExtDone p) (n : Nat) : ExtDone (startMap sub n) := by
  intro q s v r h
  cases sub with
  | none => exact PRes.noConfusion h
  | some p =>
    simp only [startMap] at h ⊢
    cases h1 : parsePairs p n q with
    | more => rw [h1] at h; exact PRes.noConfusion h
    | failed => rw [h1] at h; exact PRes.noConfusion h
    | done os r1 =>
      rw [h1] at h
      simp only at h
      rw [extDone_parsePairs p (hsub p rfl) n q s os r1 h1]
      injection h with h3 h4
      subst h3; subst h4; rfl

theorem extDone_ite {α : Type} (c : Prop) [Decidable c] (F G : Bytes → PRes α)
    (hF : ExtDone F) (hG : ExtDone G) : ExtDone (fun bs => if c then F bs else G bs) := by
  by_cases h : c
  · simp only [if_pos h]; exact hF
  · simp only [if_neg h]; exact hG

set_option maxRecDepth 4000 in
theorem extDone_parseByte (sub : Option (Bytes → PRes object))
    (hsub : ∀ p, sub = some p → ExtDone p) (b : Nat) : ExtDone (parseByte sub b) := by
  unfold parseByte
  repeat
    first
    | exact extDone_done _
    | exact extDone_failed
    | exact extDone_startArray sub hsub _
    | exact extDone_startMap sub hsub _
    | (apply extDone_payload; intro _)
    | apply extDone_ite

theorem extDone_parseHead (sub : Option (Bytes → PRes object))
    (hsub : ∀ p, sub = some p → ExtDone p) : ExtDone (parseHead sub) := by
  intro q s v r h
  cases q with
  | nil => exact PRes.noConfusion h
  | cons b bs => exact extDone_parseByte sub hsub b bs s v r h

theorem extDone_parseObj (d : Nat) : ExtDone (parseObj d) := by
  induction d with
  | zero => exact extDone_parseHead none (fun p hp => Option.noConfusion hp)
  | succ d ih =>
    exact extDone_parseHead (some (parseObj d)) (fun p hp => by
      injection hp with hp; subst hp; exact ih)

theorem next_append (q s : Bytes) (o : object) (r : Bytes)
    (h : unpacker.next q = .object o r) : unpacker.next (q ++ s) = .object o (r ++ s) := by
  simp only [unpacker.next] at h ⊢
  cases h1 : parseObj EMBED_STACK_SIZE q with
  | more => rw [h1] at h; exact NextRes.noConfusion h
  | failed => rw [h1] at h; exact NextRes.noConfusion h
  | done o1 r1 =>
    rw [h1] at h
    simp only at h
    rw [extDone_parseObj _ q s o1 r1 h1]
    injection h with h3 h4
    subst h3; subst h4; rfl

end msgpack

theorem readFields_append_bytes (fts : List FieldType) :
    ∀ (q s u : Bytes), readFields fts q = some u → readFields fts (q ++ s) = some (u ++ s) := by
  induction fts with
  | nil =>
    intro q s u h
    simp only [readFields, Option.some.injEq] at h ⊢
    rw [h]
  | cons ft fts ih =>
    intro q s u h
    simp only [readFields] at h ⊢
    cases hn : unpacker.next q with
    | none x => rw [hn] at h; exact Option.noConfusion h
    | unpack_error x => rw [hn] at h; exact Option.noConfusion h
    | object o r =>
      rw [hn] at h
      simp only at h
      rw [next_append q s o r hn]
      simp only
      by_cases hc : ft.convertible o
      · rw [if_pos hc] at h ⊢
        exact ih r s u h
      · rw [if_neg hc] at h
        exact Option.noConfusion h

theorem Flow.Decodes.of_returned_true {σ : Type} {a : List FieldType} {q : Bytes}
    {f : Flow σ} (hf : f.Decodes a q) (x : σ) (u : Bytes) (h : f = .returned true x u) :
    readFields a q = some u := by
  unfold Flow.Decodes at hf
  cases hr : readFields a q with
  | some u2 =>
    rw [hr] at hf
    obtain ⟨s, hs⟩ := hf
    rw [h] at hs
    injection hs with _ _ h3
    rw [h3]
  | none =>
    rw [hr] at hf
    obtain ⟨s, u2, hs⟩ := hf
    rw [h] at hs
    injection hs with h1
    exact Bool.noConfusion h1

theorem ReqData.fields_newLike (r : ReqData) (uninit : Int) :
    (r.newLike uninit).fields = r.fields := by
  cases r <;> rfl

theorem ReqData.fields_of_sameType (a b : ReqData) (h : a.sameType b) :
    a.fields = b.fields := by
  rw [← a.fields_newLike 0, ← b.fields_newLike 0, h]

/-- The encoding of a record holds exactly the members of its type, with no byte left. -/
theorem ReqData.readFields_pack (r : ReqData) (h : r.Legal) :
    readFields r.fields (r.pack []) = some [] := by
  have hd := (r.newLike 0).unpack_decodes (r.pack [])
  rw [r.fields_newLike] at hd
  have he := r.unpack_pack_append h 0 []
  rw [List.append_nil] at he
  exact hd.of_returned_true r [] he

/-- No proper prefix of the encoding of a record holds all members of its type. -/
theorem ReqData.readFields_truncated (r : ReqData) (h : r.Legal) (q : Bytes)
    (hq : q <+: r.pack []) (hne : q ≠ r.pack []) : readFields r.fields q = none := by
  obtain ⟨s, hs⟩ := hq
  cases hr : readFields r.fields q with
  | none => rfl
  | some u =>
    have h1 := readFields_append_bytes r.fields q s u hr
    rw [hs, r.readFields_pack h] at h1
    injection h1 with h2
    have hsnil : s = [] := (List.append_eq_nil.mp h2.symm).2
    rw [hsnil, List.append_nil] at hs
    exact absurd hs hne

/-! ## What a successful `unpack` has read -/

theorem Flow.self_catchReturnFalse {σ : Type} (f : Flow σ) : f.catchReturnFalse.self = f.self := by
  cases f <;> rfl

theorem Flow.self_returnTrue {σ : Type} (f : Flow σ) : f.returnTrue.self = f.self := by
  cases f <;> rfl

theorem proj_self_nextConvert {σ α β : Type} (proj : σ → β) (conv : object → α → ConvRes α)
    (get : σ → α) (set : σ → α → σ) (hset : ∀ s v, proj (set s v) = proj s) (s : σ)
    (u : Bytes) : proj (nextConvert conv get set s u).self = proj s := by
  unfold nextConvert
  cases unpacker.next u with
  | unpack_error x => rfl
  | none x => rfl
  | object o x =>
    simp only
    cases conv o (get s) with
    | ok v => exact hset s v
    | type_error v => exact hset s v

theorem proj_self_andThen {σ β : Type} (proj : σ → β) (f : Flow σ) (g : σ → Bytes → Flow σ)
    (hg : ∀ s u, proj (g s u).self = proj s) : proj (f.andThen g).self = proj f.self := by
  cases f with
  | running s u => exact hg s u
  | returned b s u => rfl
  | thrown e s u => rfl

/-- A derived `unpack` that returns `true` has had `true` from the base call, and the
base sub-object is as that call left it. -/
theorem derived_true_base {σ β : Type} (proj : σ → β) (base : Flow β) (put : β → σ)
    (g : σ → Bytes → Flow σ) (hput : ∀ c, proj (put c) = c)
    (hg : ∀ s u, proj (g s u).self = proj s) (hbase : ∃ b c u, base = .returned b c u)
    (r : σ) (u : Bytes) (h : (baseUnpack base put).andThen g = .returned true r u) :
    ∃ u1, base = .returned true (proj r) u1 := by
  obtain ⟨b, c, u1, rfl⟩ := hbase
  cases b with
  | false => simp only [baseUnpack, Flow.andThen] at h; injection h with h1; exact absurd h1 (by decide)
  | true =>
    simp only [baseUnpack, Flow.andThen] at h
    have h2 := hg (put c) u1
    rw [h, hput] at h2
    simp only [Flow.self] at h2
    rw [h2]
    exact ⟨u1, rfl⟩

theorem convert_uint32_ok_inv (o : object) (t v : Nat) (h : convert_uint32 o t = .ok v) :
    o = .positive_integer v ∧ IsUInt32 v := by
  cases o <;> simp only [convert_uint32] at h <;> try exact ConvRes.noConfusion h
  rename_i n
  split_ifs at h with hn
  · injection h with h1
    subst h1
    exact ⟨rfl, by unfold IsUInt32; omega⟩

theorem nextConvert_running_inv {σ α : Type} (conv : object → α → ConvRes α) (get : σ → α)
    (set : σ → α → σ) (s s2 : σ) (q u : Bytes)
    (h : nextConvert conv get set s q = .running s2 u) :
    ∃ o v, unpacker.next q = .object o u ∧ conv o (get s) = .ok v ∧ s2 = set s v := by
  unfold nextConvert at h
  cases hn : unpacker.next q with
  | unpack_error x => rw [hn] at h; exact Flow.noConfusion h
  | none x => rw [hn] at h; exact Flow.noConfusion h
  | object o x =>
    rw [hn] at h
    simp only at h
    cases hc : conv o (get s) with
    | type_error v => rw [hc] at h; exact Flow.noConfusion h
    | ok v =>
      rw [hc] at h
      injection h with h1 h2
      subst h2
      exact ⟨o, v, rfl, hc, h1.symm⟩

theorem nextConvert_not_true {σ α : Type} (conv : object → α → ConvRes α) (get : σ → α)
    (set : σ → α → σ) (s s2 : σ) (q u : Bytes) :
    nextConvert conv get set s q ≠ .returned true s2 u := by
  unfold nextConvert
  cases unpacker.next q with
  | unpack_error x => exact fun h => Flow.noConfusion h
  | none x => exact fun h => by injection h with h1; exact absurd h1 (by decide)
  | object o x =>
    simp only
    cases conv o (get s) <;> exact fun h => Flow.noConfusion h

theorem andThen_running_inv {σ : Type} (f : Flow σ) (g : σ → Bytes → Flow σ) (s : σ) (u : Bytes)
    (h : f.andThen g = .running s u) : ∃ s1 u1, f = .running s1 u1 ∧ g s1 u1 = .running s u := by
  cases f with
  | running s1 u1 => exact ⟨s1, u1, rfl, h⟩
  | returned b s1 u1 => exact Flow.noConfusion h
  | thrown e s1 u1 => exact Flow.noConfusion h

theorem andThen_true_inv {σ : Type} (f : Flow σ) (g : σ → Bytes → Flow σ) (s : σ) (u : Bytes)
    (h : f.andThen g = .returned true s u) :
    f = .returned true s u ∨ ∃ s1 u1, f = .running s1 u1 ∧ g s1 u1 = .returned true s u := by
  cases f with
  | running s1 u1 => exact Or.inr ⟨s1, u1, rfl, h⟩
  | returned b s1 u1 => exact Or.inl h
  | thrown e s1 u1 => exact Flow.noConfusion h

theorem catch_returnTrue_inv {σ : Type} (f : Flow σ) (s : σ) (u : Bytes)
    (h : f.catchReturnFalse.returnTrue = .returned true s u) :
    f = .running s u ∨ f = .returned true s u := by
  cases f with
  | running s1 u1 =>
    simp only [Flow.catchReturnFalse, Flow.returnTrue, Flow.andThen] at h
    injection h with _ h2 h3
    subst h2; subst h3; exact Or.inl rfl
  | returned b s1 u1 => exact Or.inr h
  | thrown e s1 u1 =>
    simp only [Flow.catchReturnFalse, Flow.returnTrue, Flow.andThen] at h
    injection h with h1
    exact absurd h1 (by decide)

/-- A successful `CommonReqData::unpack` has stored the first two atoms of the buffer,
two unsigned integers of 32 bits, in `inc_id` and `reqtype`. -/
theorem CommonReqData.unpack_true_inv (self c : CommonReqData) (q u : Bytes)
    (h : self.unpack q = .returned true c u) :
    atomAt 0 q = some (.positive_integer c.inc_id) ∧
      atomAt 1 q = some (.positive_integer c.reqtype) ∧
      IsUInt32 c.inc_id ∧ IsUInt32 c.reqtype := by
  unfold CommonReqData.unpack at h
  rcases catch_returnTrue_inv _ _ _ h with h1 | h1
  · obtain ⟨s2, u2, h2, h3⟩ := andThen_running_inv _ _ _ _ h1
    obtain ⟨s1, u1, h4, h5⟩ := andThen_running_inv _ _ _ _ h2
    obtain ⟨o1, v1, hn1, hc1, e1⟩ := nextConvert_running_inv _ _ _ _ _ _ _ h4
    obtain ⟨o2, v2, hn2, hc2, e2⟩ := nextConvert_running_inv _ _ _ _ _ _ _ h5
    obtain ⟨o3, v3, hn3, hc3, e3⟩ := nextConvert_running_inv _ _ _ _ _ _ _ h3
    obtain ⟨ho1, hv1⟩ := convert_uint32_ok_inv _ _ _ hc1
    obtain ⟨ho2, hv2⟩ := convert_uint32_ok_inv _ _ _ hc2
    subst ho1; subst ho2; subst e1; subst e2; subst e3
    refine ⟨?_, ?_, hv1, hv2⟩
    · simp only [atomAt, hn1]
    · simp only [atomAt, hn1, hn2]
  · rcases andThen_true_inv _ _ _ _ h1 with h2 | ⟨s2, u2, _, h3⟩
    · rcases andThen_true_inv _ _ _ _ h2 with h4 | ⟨s1, u1, _, h5⟩
      · exact absurd h4 (nextConvert_not_true _ _ _ _ _ _ _)
      · exact absurd h5 (nextConvert_not_true _ _ _ _ _ _ _)
    · exact absurd h3 (nextConvert_not_true _ _ _ _ _ _ _)

theorem Flow.map_true_inv {β σ : Type} (g : β → σ) (f : Flow β) (r : σ) (u : Bytes)
    (h : f.map g = .returned true r u) : ∃ c, f = .returned true c u ∧ g c = r := by
  cases f with
  | running s x => exact Flow.noConfusion h
  | thrown e s x => exact Flow.noConfusion h
  | returned b s x =>
    simp only [Flow.map] at h
    injection h with h1 h2 h3
    subst h1; subst h3
    exact ⟨s, rfl, h2⟩

theorem proj_self_try {σ β : Type} (proj : σ → β) (f : Flow σ) (s : σ)
    (h : proj f.self = proj s) : proj f.catchReturnFalse.returnTrue.self = proj s := by
  rw [Flow.self_returnTrue, Flow.self_catchReturnFalse]; exact h

theorem proj_self_andThen2 {σ β : Type} (proj : σ → β) (f : Flow σ) (g : σ → Bytes → Flow σ)
    (s : σ) (hf : proj f.self = proj s) (hg : ∀ s2 u2, proj (g s2 u2).self = proj s2) :
    proj (f.andThen g).self = proj s := by
  rw [proj_self_andThen proj f g hg]; exact hf

theorem unpack_true_base_CronJobReqLog (self r : CronJobReqLog) (q u : Bytes)
    (h : self.unpack q = .returned true r u) :
    ∃ u1, self.toCommonReqData.unpack q = .returned true r.toCommonReqData u1 := by
  unfold CronJobReqLog.unpack at h
  refine derived_true_base (fun s : CronJobReqLog => s.toCommonReqData) _ _ _ (fun _ => rfl) ?_
    (CommonReqData.unpack_decodes_common _ q).returned r u h
  intro s x
  apply proj_self_try (fun s : CronJobReqLog => s.toCommonReqData)
  exact proj_self_nextConvert (fun s : CronJobReqLog => s.toCommonReqData) _ _ _ (by intro _ _; rfl) s x

theorem unpack_true_base_TimestampReqLog (self r : TimestampReqLog) (q u : Bytes)
    (h : self.unpack q = .returned true r u) :
    ∃ u1, self.toCommonReqData.unpack q = .returned true r.toCommonReqData u1 := by
  unfold TimestampReqLog.unpack at h
  refine derived_true_base (fun s : TimestampReqLog => s.toCommonReqData) _ _ _ (fun _ => rfl) ?_
    (CommonReqData.unpack_decodes_common _ q).returned r u h
  intro s x
  apply proj_self_try (fun s : TimestampReqLog => s.toCommonReqData)
  exact proj_self_nextConvert (fun s : TimestampReqLog => s.toCommonReqData) _ _ _ (by intro _ _; rfl) s x

theorem unpack_true_base_CreateOrUpdateDocReqLog (self r : CreateOrUpdateDocReqLog) (q u : Bytes)
    (h : self.unpack q = .returned true r u) :
    ∃ u1, self.toCommonReqData.unpack q = .returned true r.toCommonReqData u1 := by
  unfold CreateOrUpdateDocReqLog.unpack at h
  refine derived_true_base (fun s : CreateOrUpdateDocReqLog => s.toCommonReqData) _ _ _ (fun _ => rfl) ?_
    (CommonReqData.unpack_decodes_common _ q).returned r u h
  intro s x
  apply proj_self_try (fun s : CreateOrUpdateDocReqLog => s.toCommonReqData)
  exact proj_self_nextConvert (fun s : CreateOrUpdateDocReqLog => s.toCommonReqData) _ _ _ (by intro _ _; rfl) s x

theorem unpack_true_base_IndexReqLog (self r : IndexReqLog) (q u : Bytes)
    (h : self.unpack q = .returned true r u) :
    ∃ u1, self.toCommonReqData.unpack q = .returned true r.toCommonReqData u1 := by
  unfold IndexReqLog.unpack at h
  refine derived_true_base (fun s : IndexReqLog => s.toCommonReqData) _ _ _ (fun _ => rfl) ?_
    (CommonReqData.unpack_decodes_common _ q).returned r u h
  intro s x
  apply proj_self_try (fun s : IndexReqLog => s.toCommonReqData)
  apply proj_self_andThen2 (fun s : IndexReqLog => s.toCommonReqData) _ _ _ ?_
    (fun s2 u2 => proj_self_nextConvert (fun s : IndexReqLog => s.toCommonReqData) _ _ _ (by intro _ _; rfl) s2 u2)
  exact proj_self_nextConvert (fun s : IndexReqLog => s.toCommonReqData) _ _ _ (by intro _ _; rfl) s x

theorem unpack_true_base_ProductReqLog (self r : ProductReqLog) (q u : Bytes)
    (h : self.unpack q = .returned true r u) :
    ∃ u1, self.toCommonReqData.unpack q = .returned true r.toCommonReqData u1 := by
  unfold ProductReqLog.unpack at h
  refine derived_true_base (fun s : ProductReqLog => s.toCommonReqData) _ _ _ (fun _ => rfl) ?_
    (CommonReqData.unpack_decodes_common _ q).returned r u h
  intro s x
  apply proj_self_try (fun s : ProductReqLog => s.toCommonReqData)
  exact proj_self_nextConvert (fun s : ProductReqLog => s.toCommonReqData) _ _ _ (by intro _ _; rfl) s x

theorem unpack_true_base_UpdateConfigReqLog (self r : UpdateConfigReqLog) (q u : Bytes)
    (h : self.unpack q = .returned true r u) :
    ∃ u1, self.toCommonReqData.unpack q = .returned true r.toCommonReqData u1 := by
  unfold UpdateConfigReqLog.unpack at h
  refine derived_true_base (fun s : UpdateConfigReqLog => s.toCommonReqData) _ _ _ (fun _ => rfl) ?_
    (CommonReqData.unpack_decodes_common _ q).returned r u h
  intro s x
  apply proj_self_try (fun s : UpdateConfigReqLog => s.toCommonReqData)
  exact proj_self_nextConvert (fun s : UpdateConfigReqLog => s.toCommonReqData) _ _ _ (by intro _ _; rfl) s x

theorem unpack_true_base_UpdateRecCallbackReqLog (self r : UpdateRecCallbackReqLog) (q u : Bytes)
    (h : self.unpack q = .returned true r u) :
    ∃ u1, self.toCommonReqData.unpack q = .returned true r.toCommonReqData u1 := by
  unfold UpdateRecCallbackReqLog.unpack at h
  refine derived_true_base (fun s : UpdateRecCallbackReqLog => s.toCommonReqData) _ _ _ (fun _ => rfl) ?_
    (CommonReqData.unpack_decodes_common _ q).returned r u h
  intro s x
  apply proj_self_try (fun s : UpdateRecCallbackReqLog => s.toCommonReqData)
  apply proj_self_andThen2 (fun s : UpdateRecCallbackReqLog => s.toCommonReqData) _ _ _ ?_
    (fun s2 u2 => proj_self_nextConvert (fun s : UpdateRecCallbackReqLog => s.toCommonReqData) _ _ _ (by intro _ _; rfl) s2 u2)
  exact proj_self_nextConvert (fun s : UpdateRecCallbackReqLog => s.toCommonReqData) _ _ _ (by intro _ _; rfl) s x

theorem unpack_true_base_BuildPurchaseSimCallbackReqLog (self r : BuildPurchaseSimCallbackReqLog) (q u : Bytes)
    (h : self.unpack q = .returned true r u) :
    ∃ u1, self.toCommonReqData.unpack q = .returned true r.toCommonReqData u1 := by
  unfold BuildPurchaseSimCallbackReqLog.unpack at h
  refine derived_true_base (fun s : BuildPurchaseSimCallbackReqLog => s.toCommonReqData) _ _ _ (fun _ => rfl) ?_
    (CommonReqData.unpack_decodes_common _ q).returned r u h
  intro s x
  rfl

theorem unpack_true_base_RecommendIndexReqLog (self r : RecommendIndexReqLog) (q u : Bytes)
    (h : self.unpack q = .returned true r u) :
    ∃ u1, self.toCommonReqData.unpack q = .returned true r.toCommonReqData u1 := by
  unfold RecommendIndexReqLog.unpack at h
  refine derived_true_base (fun s : RecommendIndexReqLog => s.toCommonReqData) _ _ _ (fun _ => rfl) ?_
    (CommonReqData.unpack_decodes_common _ q).returned r u h
  intro s x
  apply proj_self_try (fun s : RecommendIndexReqLog => s.toCommonReqData)
  apply proj_self_andThen2 (fun s : RecommendIndexReqLog => s.toCommonReqData) _ _ _ ?_
    (fun s2 u2 => proj_self_nextConvert (fun s : RecommendIndexReqLog => s.toCommonReqData) _ _ _ (by intro _ _; rfl) s2 u2)
  apply proj_self_andThen2 (fun s : RecommendIndexReqLog => s.toCommonReqData) _ _ _ ?_
    (fun s2 u2 => proj_self_nextConvert (fun s : RecommendIndexReqLog => s.toCommonReqData) _ _ _ (by intro _ _; rfl) s2 u2)
  exact proj_self_nextConvert (fun s : RecommendIndexReqLog => s.toCommonReqData) _ _ _ (by intro _ _; rfl) s x

theorem unpack_true_base_RebuildCronTaskReqLog (self r : RebuildCronTaskReqLog) (q u : Bytes)
    (h : self.unpack q = .returned true r u) :
    ∃ u1, self.toCommonReqData.unpack q = .returned true r.toCommonReqData u1 := by
  unfold RebuildCronTaskReqLog.unpack at h
  refine derived_true_base (fun s : RebuildCronTaskReqLog => s.toCommonReqData) _ _ _ (fun _ => rfl) ?_
    (CommonReqData.unpack_decodes_common _ q).returned r u h
  intro s x
  apply proj_self_try (fun s : RebuildCronTaskReqLog => s.toCommonReqData)
  apply proj_self_andThen2 (fun s : RebuildCronTaskReqLog => s.toCommonReqData) _ _ _ ?_
    (fun s2 u2 => proj_self_nextConvert (fun s : RebuildCronTaskReqLog => s.toCommonReqData) _ _ _ (by intro _ _; rfl) s2 u2)
  exact proj_self_nextConvert (fun s : RebuildCronTaskReqLog => s.toCommonReqData) _ _ _ (by intro _ _; rfl) s x

theorem unpack_true_base_RebuildFromSCDReqLog (self r : RebuildFromSCDReqLog) (q u : Bytes)
    (h : self.unpack q = .returned true r u) :
    ∃ u1, self.toCommonReqData.unpack q = .returned true r.toCommonReqData u1 := by
  unfold RebuildFromSCDReqLog.unpack at h
  refine derived_true_base (fun s : RebuildFromSCDReqLog => s.toCommonReqData) _ _ _ (fun _ => rfl) ?_
    (CommonReqData.unpack_decodes_common _ q).returned r u h
  intro s x
  apply proj_self_try (fun s : RebuildFromSCDReqLog => s.toCommonReqData)
  apply proj_self_andThen2 (fun s : RebuildFromSCDReqLog => s.toCommonReqData) _ _ _ ?_
    (fun s2 u2 => proj_self_nextConvert (fun s : RebuildFromSCDReqLog => s.toCommonReqData) _ _ _ (by intro _ _; rfl) s2 u2)
  apply proj_self_andThen2 (fun s : RebuildFromSCDReqLog => s.toCommonReqData) _ _ _ ?_
    (fun s2 u2 => proj_self_nextConvert (fun s : RebuildFromSCDReqLog => s.toCommonReqData) _ _ _ (by intro _ _; rfl) s2 u2)
  exact proj_self_nextConvert (fun s : RebuildFromSCDReqLog => s.toCommonReqData) _ _ _ (by intro _ _; rfl) s x

/-- A successful virtual `unpack` has had `true` from `CommonReqData::unpack` on the
same buffer, and the common part of the result is what that call decoded. -/
theorem ReqData.unpack_true_common (t r : ReqData) (q u : Bytes)
    (h : t.unpack q = .returned true r u) :
    ∃ (c0 : CommonReqData) (u1 : Bytes), c0.unpack q = .returned true r.common u1 := by
  cases t with
  | Common x =>
    obtain ⟨c, hc, rfl⟩ := Flow.map_true_inv _ _ _ _ h
    exact ⟨x, u, hc⟩
  | NoAddition x =>
    obtain ⟨c, hc, rfl⟩ := Flow.map_true_inv _ _ _ _ h
    exact ⟨x.toCommonReqData, u, hc⟩
  | NoAdditionNeedBackup x =>
    obtain ⟨c, hc, rfl⟩ := Flow.map_true_inv _ _ _ _ h
    exact ⟨x.toCommonReqData, u, hc⟩
  | NoAdditionNoRollback x =>
    obtain ⟨c, hc, rfl⟩ := Flow.map_true_inv _ _ _ _ h
    exact ⟨x.toCommonReqData, u, hc⟩
  | CronJob x =>
    obtain ⟨c, hc, rfl⟩ := Flow.map_true_inv _ _ _ _ h
    obtain ⟨u1, h1⟩ := unpack_true_base_CronJobReqLog x c q u hc
    exact ⟨x.toCommonReqData, u1, h1⟩
  | Timestamp x =>
    obtain ⟨c, hc, rfl⟩ := Flow.map_true_inv _ _ _ _ h
    obtain ⟨u1, h1⟩ := unpack_true_base_TimestampReqLog x c q u hc
    exact ⟨x.toCommonReqData, u1, h1⟩
  | CreateOrUpdateDoc x =>
    obtain ⟨c, hc, rfl⟩ := Flow.map_true_inv _ _ _ _ h
    obtain ⟨u1, h1⟩ := unpack_true_base_CreateOrUpdateDocReqLog x c q u hc
    exact ⟨x.toCommonReqData, u1, h1⟩
  | Index x =>
    obtain ⟨c, hc, rfl⟩ := Flow.map_true_inv _ _ _ _ h
    obtain ⟨u1, h1⟩ := unpack_true_base_IndexReqLog x c q u hc
    exact ⟨x.toCommonReqData, u1, h1⟩
  | Product x =>
    obtain ⟨c, hc, rfl⟩ := Flow.map_true_inv _ _ _ _ h
    obtain ⟨u1, h1⟩ := unpack_true_base_ProductReqLog x c q u hc
    exact ⟨x.toCommonReqData, u1, h1⟩
  | UpdateConfig x =>
    obtain ⟨c, hc, rfl⟩ := Flow.map_true_inv _ _ _ _ h
    obtain ⟨u1, h1⟩ := unpack_true_base_UpdateConfigReqLog x c q u hc
    exact ⟨x.toCommonReqData, u1, h1⟩
  | UpdateRecCallback x =>
    obtain ⟨c, hc, rfl⟩ := Flow.map_true_inv _ _ _ _ h
    obtain ⟨u1, h1⟩ := unpack_true_base_UpdateRecCallbackReqLog x c q u hc
    exact ⟨x.toCommonReqData, u1, h1⟩
  | BuildPurchaseSimCallback x =>
    obtain ⟨c, hc, rfl⟩ := Flow.map_true_inv _ _ _ _ h
    obtain ⟨u1, h1⟩ := unpack_true_base_BuildPurchaseSimCallbackReqLog x c q u hc
    exact ⟨x.toCommonReqData, u1, h1⟩
  | RecommendIndex x =>
    obtain ⟨c, hc, rfl⟩ := Flow.map_true_inv _ _ _ _ h
    obtain ⟨u1, h1⟩ := unpack_true_base_RecommendIndexReqLog x c q u hc
    exact ⟨x.toCommonReqData, u1, h1⟩
  | RebuildCronTask x =>
    obtain ⟨c, hc, rfl⟩ := Flow.map_true_inv _ _ _ _ h
    obtain ⟨u1, h1⟩ := unpack_true_base_RebuildCronTaskReqLog x c q u hc
    exact ⟨x.toCommonReqData, u1, h1⟩
  | RebuildFromSCD x =>
    obtain ⟨c, hc, rfl⟩ := Flow.map_true_inv _ _ _ _ h
    obtain ⟨u1, h1⟩ := unpack_true_base_RebuildFromSCDReqLog x c q u hc
    exact ⟨x.toCommonReqData, u1, h1⟩

/-! ## The head index record: layout -/

theorem ReqLogHead.image_length (h : ReqLogHead) : h.image.length = 20 := by
  simp [ReqLogHead.image, storeLE32]

theorem loadLE_storeLE32 (n : Nat) (h : IsUInt32 n) : loadLE (storeLE32 n) = n := by
  unfold IsUInt32 at h
  simp only [loadLE, storeLE32, List.foldr]
  omega

theorem ReqLogHead.image_fields (h : ReqLogHead) :
    (h.image.drop 0).take 4 = storeLE32 h.inc_id ∧
      (h.image.drop 4).take 4 = storeLE32 h.reqtype ∧
      (h.image.drop 8).take 4 = storeLE32 h.req_data_offset ∧
      (h.image.drop 12).take 4 = storeLE32 h.req_data_len ∧
      (h.image.drop 16).take 4 = storeLE32 h.req_data_crc := by
  simp [ReqLogHead.image, storeLE32]

theorem ReqLogHead.read_image (h : ReqLogHead) (hl : h.Legal) :
    ReqLogHead.read h.image = some h := by
  obtain ⟨h1, h2, h3, h4, h5⟩ := hl
  obtain ⟨f1, f2, f3, f4, f5⟩ := h.image_fields
  unfold ReqLogHead.read
  rw [if_pos h.image_length, f1, f2, f3, f4, f5, loadLE_storeLE32 _ h1, loadLE_storeLE32 _ h2,
    loadLE_storeLE32 _ h3, loadLE_storeLE32 _ h4, loadLE_storeLE32 _ h5]

theorem headIndexBytes_slice (hs : List ReqLogHead) :
    ∀ (k : Nat) (hk : k < hs.length),
      ((headIndexBytes hs).drop (20 * k)).take 20 = hs[k].image := by
  induction hs with
  | nil => intro k hk; simp at hk
  | cons h t ih =>
    intro k hk
    cases k with
    | zero =>
      simp only [headIndexBytes, List.map_cons, List.flatten_cons, Nat.mul_zero, List.drop_zero,
        List.getElem_cons_zero]
      rw [List.take_append_of_le_length (by rw [h.image_length])]
      exact List.take_of_length_le (by rw [h.image_length])
    | succ k =>
      have hk2 : k < t.length := by simpa using hk
      have e : 20 * (k + 1) = h.image.length + 20 * k := by rw [h.image_length]; omega
      simp only [headIndexBytes, List.map_cons, List.flatten_cons, List.getElem_cons_succ]
      rw [e, List.drop_append]
      exact ih k hk2

/-! ## The log: what the calls keep -/

theorem unpack_common_cases (s : Bytes) :
    (∃ c u, ReqLogMgr.unpackReqLogData s (.Common CommonReqData.new) = .returned true (.Common c) u) ∨
      (∃ c u, ReqLogMgr.unpackReqLogData s (.Common CommonReqData.new) =
        .returned false (.Common c) u) := by
  simp only [ReqLogMgr.unpackReqLogData, ReqData.unpack]
  obtain ⟨b, c, u, h⟩ := (CommonReqData.unpack_decodes_common CommonReqData.new s).returned
  rw [h]
  cases b with
  | true => exact Or.inl ⟨c, u, rfl⟩
  | false => exact Or.inr ⟨c, u, rfl⟩

/-- An append either changes nothing and returns `false`, or it is the append of the
prepared record. -/
theorem ReqLogMgr.appendReqData_cases (self : ReqLogMgr) (files : LogFiles) (body : Bytes)
    (io_ok : Bool) :
    ((self.appendReqData files body io_ok).ret = false ∧
        (self.appendReqData files body io_ok).mgr = self ∧
        (self.appendReqData files body io_ok).files = files) ∨
      ∃ c u p rest,
        ReqLogMgr.unpackReqLogData body (.Common CommonReqData.new) =
          .returned true (.Common c) u ∧
        self.prepared_req_ = p :: rest ∧ p.inc_id = c.inc_id ∧
        (self.appendReqData files body io_ok).ret = true ∧
        (self.appendReqData files body io_ok).mgr =
          { self with
            last_writed_id_ := c.inc_id
            cached_head_offset_ := (c.inc_id, 20 * files.head.length) :: self.cached_head_offset_
            prepared_req_ := rest } ∧
        (self.appendReqData files body io_ok).files =
          { head :=
              files.head ++
                [{ inc_id := c.inc_id, reqtype := c.reqtype
                   req_data_offset := (files.segments (segmentOf c.inc_id)).length % 4294967296
                   req_data_len := body.length % 4294967296
                   req_data_crc := bodyCrc body }]
            segments :=
              Function.update files.segments (segmentOf c.inc_id)
                (files.segments (segmentOf c.inc_id) ++ body) } := by
  rcases unpack_common_cases body with ⟨c, u, hc⟩ | ⟨c, u, hc⟩
  · cases hq : self.prepared_req_ with
    | nil =>
      left
      simp only [ReqLogMgr.appendReqData, hc, hq, and_self]
    | cons p rest =>
      by_cases hid : p.inc_id = c.inc_id
      · cases io_ok with
        | false =>
          left
          simp [ReqLogMgr.appendReqData, hc, hq, hid]
        | true =>
          right
          refine ⟨c, u, p, rest, hc, rfl, hid, ?_, ?_, ?_⟩ <;>
            simp [ReqLogMgr.appendReqData, hc, hq, hid]
      · left
        simp [ReqLogMgr.appendReqData, hc, hq, hid]
  · left
    simp only [ReqLogMgr.appendReqData, hc, and_self]

theorem ReqLogMgr.prepareReqLog_busy (self : ReqLogMgr) (req : CommonReqData) (isprimary : Bool)
    (h : self.prepared_req_ ≠ []) :
    self.prepareReqLog req isprimary =
      { ret := false, err := some .AlreadyPrepared, mgr := self, prepared_reqdata := req } := by
  simp only [ReqLogMgr.prepareReqLog, if_pos h]

theorem ReqLogMgr.prepareReqLog_primary (self : ReqLogMgr) (req : CommonReqData)
    (h : self.prepared_req_ = []) :
    self.prepareReqLog req true =
      { ret := true, err := none
        mgr :=
          { self with
            inc_id_ := (self.inc_id_ + 1) % 4294967296
            prepared_req_ := [{ req with inc_id := self.inc_id_ }] }
        prepared_reqdata := { req with inc_id := self.inc_id_ } } := by
  simp [ReqLogMgr.prepareReqLog, h]

theorem ReqLogMgr.prepareReqLog_replica (self : ReqLogMgr) (req : CommonReqData)
    (h : self.prepared_req_ = []) :
    self.prepareReqLog req false =
      if req.inc_id = self.inc_id_ then
        { ret := true, err := none
          mgr :=
            { self with
              inc_id_ := (self.inc_id_ + 1) % 4294967296
              prepared_req_ := [req] }
          prepared_reqdata := req }
      else { ret := false, err := some .OutOfOrder, mgr := self, prepared_reqdata := req } := by
  simp [ReqLogMgr.prepareReqLog, h]

/-- The prepared queue after a prepare holds at most one record when it did before. -/
theorem ReqLogMgr.prepareReqLog_queue (self : ReqLogMgr) (req : CommonReqData)
    (isprimary : Bool) (h : self.prepared_req_.length ≤ 1) :
    (self.prepareReqLog req isprimary).mgr.prepared_req_.length ≤ 1 := by
  by_cases hq : self.prepared_req_ = []
  · cases isprimary with
    | true => rw [ReqLogMgr.prepareReqLog_primary self req hq]; simp
    | false =>
      rw [ReqLogMgr.prepareReqLog_replica self req hq]
      split_ifs
      · simp
      · exact h
  · rw [ReqLogMgr.prepareReqLog_busy self req isprimary hq]; exact h

theorem ReqLogMgr.appendReqData_queue (self : ReqLogMgr) (files : LogFiles) (body : Bytes)
    (io_ok : Bool) (h : self.prepared_req_.length ≤ 1) :
    (self.appendReqData files body io_ok).mgr.prepared_req_.length ≤ 1 := by
  rcases self.appendReqData_cases files body io_ok with ⟨_, hm, _⟩ | ⟨c, u, p, rest, _, hq, _, _, hm, _⟩
  · rw [hm]; exact h
  · rw [hm]
    rw [hq] at h
    simp only [List.length_cons] at h ⊢
    omega

theorem LogRun.step_queue (t : LogRun) (op : LogOp) (h : t.mgr.prepared_req_.length ≤ 1) :
    (t.step op).mgr.prepared_req_.length ≤ 1 := by
  cases op with
  | prepareReqLog req isprimary => exact t.mgr.prepareReqLog_queue req isprimary h
  | getPreparedReqLog => exact h
  | delPreparedReqLog =>
    simp only [LogRun.step, ReqLogMgr.delPreparedReqLog, List.length_tail]
    omega
  | appendReqData body io_ok => exact t.mgr.appendReqData_queue t.files body io_ok h

theorem LogRun.run_queue (ops : List LogOp) :
    ∀ t : LogRun, t.mgr.prepared_req_.length ≤ 1 →
      (t.run ops).mgr.prepared_req_.length ≤ 1 := by
  induction ops with
  | nil => intro t h; exact h
  | cons op ops ih => intro t h; exact ih (t.step op) (t.step_queue op h)

theorem ReqLogMgr.appendReqData_inc_id (self : ReqLogMgr) (files : LogFiles) (body : Bytes)
    (io_ok : Bool) : (self.appendReqData files body io_ok).mgr.inc_id_ = self.inc_id_ := by
  rcases self.appendReqData_cases files body io_ok with ⟨_, hm, _⟩ | ⟨c, u, p, rest, _, _, _, _, hm, _⟩
  · rw [hm]
  · rw [hm]

/-- One call made as primary keeps the stamped ids a run `1, 2, ..., k`, with the next
id at `k + 1`. -/
theorem LogRun.step_stamped (t : LogRun) (op : LogOp) (k : Nat)
    (hs : t.stamped = List.range' 1 k) (hi : t.mgr.inc_id_ = k + 1)
    (hp : op.isPrimaryOnly = true) (hk : k + 1 < 4294967295) :
    ∃ k2, k2 ≤ k + 1 ∧ (t.step op).stamped = List.range' 1 k2 ∧
      (t.step op).mgr.inc_id_ = k2 + 1 := by
  cases op with
  | prepareReqLog req isprimary =>
    simp only [LogOp.isPrimaryOnly] at hp
    subst hp
    by_cases hq : t.mgr.prepared_req_ = []
    · refine ⟨k + 1, Nat.le_refl _, ?_, ?_⟩
      · simp only [LogRun.step, ReqLogMgr.prepareReqLog_primary t.mgr req hq, if_true, hs, hi]
        rw [List.range'_1_concat, Nat.add_comm 1 k]
      · simp only [LogRun.step, ReqLogMgr.prepareReqLog_primary t.mgr req hq, hi]
        omega
    · refine ⟨k, Nat.le_succ _, ?_, ?_⟩
      · simp only [LogRun.step, ReqLogMgr.prepareReqLog_busy t.mgr req true hq]
        exact hs
      · simp only [LogRun.step, ReqLogMgr.prepareReqLog_busy t.mgr req true hq]
        exact hi
  | getPreparedReqLog => exact ⟨k, Nat.le_succ _, hs, hi⟩
  | delPreparedReqLog => exact ⟨k, Nat.le_succ _, hs, hi⟩
  | appendReqData body io_ok =>
    refine ⟨k, Nat.le_succ _, hs, ?_⟩
    simp only [LogRun.step, ReqLogMgr.appendReqData_inc_id]
    exact hi

theorem LogRun.run_stamped (ops : List LogOp) :
    ∀ (t : LogRun) (k : Nat), t.stamped = List.range' 1 k → t.mgr.inc_id_ = k + 1 →
      (∀ op ∈ ops, op.isPrimaryOnly = true) → k + ops.length < 4294967295 →
      ∃ k2, (t.run ops).stamped = List.range' 1 k2 ∧ (t.run ops).mgr.inc_id_ = k2 + 1 := by
  induction ops with
  | nil => intro t k hs hi _ _; exact ⟨k, hs, hi⟩
  | cons op ops ih =>
    intro t k hs hi hp hk
    simp only [List.length_cons] at hk
    obtain ⟨k2, hle, hs2, hi2⟩ :=
      t.step_stamped op k hs hi (hp op (List.mem_cons_self _ _)) (by omega)
    exact ih (t.step op) k2 hs2 hi2 (fun o ho => hp o (List.mem_cons_of_mem _ ho)) (by omega)

/-! ## The log: what holds after any sequence of calls -/

theorem LogRun.inv_fresh : LogRun.fresh.Inv 0 0 where
  ids := rfl
  sorted := List.Pairwise.nil
  below := fun id h => by simp [LogRun.fresh] at h
  next := by decide
  prepared := fun p h => by simp [LogRun.fresh, ReqLogMgr.new] at h
  queue := by decide
  stored := fun x h => by simp [LogRun.fresh, LogFiles.empty] at h
  size := fun k => by simp [LogRun.fresh, LogFiles.empty]

/-- A body appended behind a segment leaves what the headers describe in place. -/
theorem Stored.update (files : LogFiles) (k : Nat) (body : Bytes) (heads : List ReqLogHead)
    (h : ReqLogHead) (p : Nat × Bytes) (hs : Stored files h p) :
    Stored { head := heads,
             segments := Function.update files.segments k (files.segments k ++ body) } h p := by
  obtain ⟨h1, h2, h3, h4, h5⟩ := hs
  refine ⟨h1, h2, h3, ?_, ?_⟩
  · by_cases hk : segmentOf p.1 = k
    · subst hk
      simp only [Function.update_same, List.length_append]
      omega
    · simp only [Function.update_noteq hk]
      exact h4
  · by_cases hk : segmentOf p.1 = k
    · subst hk
      simp only [Function.update_same]
      rw [List.drop_append_of_le_length (by omega),
        List.take_append_of_le_length (by rw [List.length_drop]; omega)]
      exact h5
    · simp only [Function.update_noteq hk]
      exact h5

/-- The header written by an append describes the appended body. -/
theorem Stored.appended (files : LogFiles) (heads : List ReqLogHead) (id reqtype : Nat)
    (body : Bytes) (h1 : (files.segments (segmentOf id)).length < 4294967296)
    (h2 : body.length < 4294967296) :
    Stored { head := heads,
             segments := Function.update files.segments (segmentOf id)
               (files.segments (segmentOf id) ++ body) }
      { inc_id := id, reqtype := reqtype
        req_data_offset := (files.segments (segmentOf id)).length % 4294967296
        req_data_len := body.length % 4294967296
        req_data_crc := bodyCrc body } (id, body) := by
  refine ⟨rfl, ?_, rfl, ?_, ?_⟩
  · exact Nat.mod_eq_of_lt h2
  · simp only [Function.update_same, List.length_append, Nat.mod_eq_of_lt h1]
    omega
  · simp only [Function.update_same, Nat.mod_eq_of_lt h1]
    rw [List.drop_append_of_le_length (Nat.le_refl _), List.drop_length, List.nil_append,
      List.take_length]

theorem packedId_eq (body : Bytes) (c : CommonReqData) (u : Bytes)
    (h : ReqLogMgr.unpackReqLogData body (.Common CommonReqData.new) =
      .returned true (.Common c) u) : packedId body = c.inc_id := by
  simp only [packedId, h, ReqData.common]

theorem LogRun.Inv.of_eq {t : LogRun} {n B : Nat} (h : t.Inv n B) (t2 : LogRun)
    (hm : t2.mgr = t.mgr) (hf : t2.files = t.files) (ha : t2.appended = t.appended)
    (n2 B2 : Nat) (hn : n ≤ n2) (hB : B ≤ B2) : t2.Inv n2 B2 where
  ids := by rw [hf, ha]; exact h.ids
  sorted := by rw [ha]; exact h.sorted
  below := by rw [hm, ha]; exact h.below
  next := by rw [hm]; exact Nat.le_trans h.next (by omega)
  prepared := by rw [hm, ha]; exact h.prepared
  queue := by rw [hm]; exact h.queue
  stored := by rw [hf, ha]; exact h.stored
  size := fun k => by rw [hf]; exact Nat.le_trans (h.size k) hB

/-- A successful prepare keeps what holds of the log. -/
theorem LogRun.Inv.prepared_ok {t : LogRun} {n B : Nat} (h : t.Inv n B) (t2 : LogRun)
    (hf : t2.files = t.files) (ha : t2.appended = t.appended) (p : CommonReqData)
    (hp : p.inc_id = t.mgr.inc_id_)
    (hm : t2.mgr =
      { t.mgr with inc_id_ := (t.mgr.inc_id_ + 1) % 4294967296, prepared_req_ := [p] })
    (hn : n + 1 < 4294967295) : t2.Inv (n + 1) B := by
  have hnext := h.next
  have hmod : (t.mgr.inc_id_ + 1) % 4294967296 = t.mgr.inc_id_ + 1 :=
    Nat.mod_eq_of_lt (by omega)
  rw [hmod] at hm
  refine ⟨?_, ?_, ?_, ?_, ?_, ?_, ?_, ?_⟩
  · rw [hf, ha]; exact h.ids
  · rw [ha]; exact h.sorted
  · rw [hm, ha]
    intro id hid
    have := h.below id hid
    exact ⟨Nat.lt_succ_of_lt this.1, this.2⟩
  · rw [hm]; simp only; omega
  · rw [hm, ha]
    intro q hq
    simp only [List.mem_singleton] at hq
    subst hq
    refine ⟨fun id hid => ?_, ?_⟩
    · rw [hp]; exact (h.below id hid).1
    · rw [hp]; exact Nat.lt_succ_self _
  · rw [hm]; simp
  · rw [hf, ha]; exact h.stored
  · intro k; rw [hf]; exact h.size k

theorem mem_zip_append_singleton {α β : Type} (l1 : List α) (l2 : List β) (a : α) (b : β)
    (hl : l1.length = l2.length) (x : α × β) (hx : x ∈ List.zip (l1 ++ [a]) (l2 ++ [b])) :
    x ∈ List.zip l1 l2 ∨ x = (a, b) := by
  rw [List.zip_append hl] at hx
  rcases List.mem_append.mp hx with h | h
  · exact Or.inl h
  · right
    simpa using h

/-- A successful append keeps what holds of the log. -/
theorem LogRun.Inv.appended_ok {t : LogRun} {n B : Nat} (h : t.Inv n B) (t2 : LogRun)
    (c p : CommonReqData) (rest : List CommonReqData) (body : Bytes)
    (hq : t.mgr.prepared_req_ = p :: rest) (hid : p.inc_id = c.inc_id)
    (hm : t2.mgr =
      { t.mgr with
        last_writed_id_ := c.inc_id
        cached_head_offset_ := (c.inc_id, 20 * t.files.head.length) :: t.mgr.cached_head_offset_
        prepared_req_ := rest })
    (hf : t2.files =
      { head :=
          t.files.head ++
            [{ inc_id := c.inc_id, reqtype := c.reqtype
               req_data_offset := (t.files.segments (segmentOf c.inc_id)).length % 4294967296
               req_data_len := body.length % 4294967296
               req_data_crc := bodyCrc body }]
        segments :=
          Function.update t.files.segments (segmentOf c.inc_id)
            (t.files.segments (segmentOf c.inc_id) ++ body) })
    (ha : t2.appended = t.appended ++ [(c.inc_id, body)])
    (hB : B + body.length < 4294967296) : t2.Inv (n + 1) (B + body.length) := by
  have hpin : p ∈ t.mgr.prepared_req_ := by rw [hq]; exact List.mem_cons_self _ _
  obtain ⟨hp1, hp2⟩ := h.prepared p hpin
  rw [hid] at hp1 hp2
  have hrest : rest = [] := by
    have := h.queue
    rw [hq] at this
    simp only [List.length_cons] at this
    exact List.length_eq_zero.mp (by omega)
  have hlen : t.files.head.length = t.appended.length := by
    have := congrArg List.length h.ids
    simpa using this
  refine ⟨?_, ?_, ?_, ?_, ?_, ?_, ?_, ?_⟩
  · rw [hf, ha]
    simp only [List.map_append, List.map_cons, List.map_nil, h.ids]
  · rw [ha]
    simp only [List.map_append, List.map_cons, List.map_nil]
    rw [List.pairwise_append]
    refine ⟨h.sorted, List.pairwise_singleton _ _, ?_⟩
    intro a ha1 b hb
    simp only [List.mem_singleton] at hb
    subst hb
    exact hp1 a ha1
  · rw [hm, ha]
    intro id hmem
    simp only [List.map_append, List.map_cons, List.map_nil, List.mem_append,
      List.mem_singleton] at hmem
    rcases hmem with h1 | h1
    · exact ⟨(h.below id h1).1, Nat.le_of_lt (hp1 id h1)⟩
    · subst h1
      exact ⟨hp2, Nat.le_refl _⟩
  · rw [hm]; exact Nat.le_trans h.next (by omega)
  · rw [hm, hrest]
    intro q hq2
    simp at hq2
  · rw [hm, hrest]; simp
  · rw [hf, ha]
    intro x hx
    rcases mem_zip_append_singleton _ _ _ _ hlen x hx with h1 | h1
    · exact Stored.update t.files _ body _ x.1 x.2 (h.stored x h1)
    · subst h1
      exact Stored.appended t.files _ c.inc_id c.reqtype body
        (Nat.lt_of_le_of_lt (h.size _) (by omega)) (by omega)
  · intro k
    rw [hf]
    by_cases hk : k = segmentOf c.inc_id
    · subst hk
      simp only [Function.update_same, List.length_append]
      have := h.size (segmentOf c.inc_id)
      omega
    · simp only [Function.update_noteq hk]
      exact Nat.le_trans (h.size k) (by omega)

/-- One call keeps what holds of the log. -/
theorem LogRun.Inv.step {t : LogRun} {n B : Nat} (h : t.Inv n B) (op : LogOp)
    (hn : n + 1 < 4294967295) (hB : B + op.bytes < 4294967296) :
    (t.step op).Inv (n + 1) (B + op.bytes) := by
  cases op with
  | prepareReqLog req isprimary =>
    by_cases hq : t.mgr.prepared_req_ = []
    · cases isprimary with
      | true =>
        refine h.prepared_ok (t.step (.prepareReqLog req true)) rfl rfl
          { req with inc_id := t.mgr.inc_id_ } rfl ?_ hn
        simp only [LogRun.step, ReqLogMgr.prepareReqLog_primary t.mgr req hq]
      | false =>
        by_cases hid : req.inc_id = t.mgr.inc_id_
        · refine h.prepared_ok (t.step (.prepareReqLog req false)) rfl rfl req hid ?_ hn
          simp only [LogRun.step, ReqLogMgr.prepareReqLog_replica t.mgr req hq, if_pos hid]
        · refine h.of_eq (t.step (.prepareReqLog req false)) ?_ rfl rfl _ _ (Nat.le_succ _)
            (Nat.le_add_right _ _)
          simp only [LogRun.step, ReqLogMgr.prepareReqLog_replica t.mgr req hq, if_neg hid]
    · refine h.of_eq (t.step (.prepareReqLog req isprimary)) ?_ rfl rfl _ _ (Nat.le_succ _)
        (Nat.le_add_right _ _)
      simp only [LogRun.step, ReqLogMgr.prepareReqLog_busy t.mgr req isprimary hq]
  | getPreparedReqLog =>
    exact h.of_eq (t.step .getPreparedReqLog) rfl rfl rfl _ _ (Nat.le_succ _)
      (Nat.le_add_right _ _)
  | delPreparedReqLog =>
    have h2 := h.of_eq t rfl rfl rfl (n + 1) (B + LogOp.delPreparedReqLog.bytes)
      (Nat.le_succ _) (Nat.le_add_right _ _)
    exact
      { ids := h2.ids, sorted := h2.sorted, below := h2.below, next := h2.next
        prepared := fun p hp => h2.prepared p (List.mem_of_mem_tail hp)
        queue := by
          simp only [LogRun.step, ReqLogMgr.delPreparedReqLog, List.length_tail]
          have := h2.queue
          omega
        stored := h2.stored, size := h2.size }
  | appendReqData body io_ok =>
    rcases t.mgr.appendReqData_cases t.files body io_ok with
      ⟨hr, hm, hf⟩ | ⟨c, u, p, rest, hc, hq, hid, hr, hm, hf⟩
    · refine h.of_eq (t.step (.appendReqData body io_ok)) ?_ ?_ ?_ _ _ (Nat.le_succ _)
        (Nat.le_add_right _ _)
      · simp only [LogRun.step, hm]
      · simp only [LogRun.step, hf]
      · simp [LogRun.step, hr]
    · refine h.appended_ok (t.step (.appendReqData body io_ok)) c p rest body hq hid ?_ ?_ ?_ hB
      · simp only [LogRun.step, hm]
      · simp only [LogRun.step, hf]
      · simp only [LogRun.step, hr, if_true, packedId_eq body c u hc]

theorem LogOp.bytes_sum_cons (op : LogOp) (ops : List LogOp) :
    ((op :: ops).map LogOp.bytes).sum = op.bytes + (ops.map LogOp.bytes).sum := by
  simp

/-- A sequence of calls keeps what holds of the log, as long as the id counter and the
32 bit offsets do not wrap. -/
theorem LogRun.Inv.run (ops : List LogOp) :
    ∀ (t : LogRun) (n B : Nat), t.Inv n B → n + ops.length < 4294967295 →
      B + (ops.map LogOp.bytes).sum < 4294967296 →
      (t.run ops).Inv (n + ops.length) (B + (ops.map LogOp.bytes).sum) := by
  induction ops with
  | nil => intro t n B h _ _; simpa [LogRun.run] using h
  | cons op ops ih =>
    intro t n B h hn hB
    rw [LogOp.bytes_sum_cons] at hB ⊢
    simp only [List.length_cons] at hn ⊢
    have h1 := h.step op (by omega) (by omega)
    have h2 := ih (t.step op) (n + 1) (B + op.bytes) h1 (by omega) (by omega)
    have e1 : n + 1 + ops.length = n + (ops.length + 1) := by omega
    have e2 : B + op.bytes + (ops.map LogOp.bytes).sum =
        B + (op.bytes + (ops.map LogOp.bytes).sum) := by omega
    rw [e1, e2] at h2
    exact h2

/-! ## The log: lookup -/

theorem scanHead_some (n : Nat) (hs : List ReqLogHead) :
    ∀ (off : Nat) (h : ReqLogHead) (off2 : Nat),
      (hs.map fun g => g.inc_id).Pairwise (fun a b => a < b) →
      scanHead n hs off = some (h, off2) →
      h ∈ hs ∧ n ≤ h.inc_id ∧ ∀ g ∈ hs, n ≤ g.inc_id → h.inc_id ≤ g.inc_id := by
  induction hs with
  | nil => intro off h off2 _ hsc; simp [scanHead] at hsc
  | cons g0 rest ih =>
    intro off h off2 hsort hsc
    simp only [List.map_cons, List.pairwise_cons] at hsort
    simp only [scanHead] at hsc
    by_cases hn : n ≤ g0.inc_id
    · rw [if_pos hn] at hsc
      simp only [Option.some.injEq, Prod.mk.injEq] at hsc
      obtain ⟨rfl, _⟩ := hsc
      refine ⟨List.mem_cons_self _ _, hn, ?_⟩
      intro g hg _
      rcases List.mem_cons.mp hg with h1 | h1
      · rw [h1]
      · exact Nat.le_of_lt (hsort.1 g.inc_id (List.mem_map_of_mem _ h1))
    · rw [if_neg hn] at hsc
      obtain ⟨h1, h2, h3⟩ := ih _ h off2 hsort.2 hsc
      refine ⟨List.mem_cons_of_mem _ h1, h2, ?_⟩
      intro g hg hng
      rcases List.mem_cons.mp hg with h4 | h4
      · rw [h4] at hng; exact absurd hng hn
      · exact h3 g h4 hng

theorem scanHead_none (n : Nat) (hs : List ReqLogHead) :
    ∀ off : Nat, scanHead n hs off = none → ∀ g ∈ hs, g.inc_id < n := by
  induction hs with
  | nil => intro off _ g hg; simp at hg
  | cons g0 rest ih =>
    intro off hsc g hg
    simp only [scanHead] at hsc
    by_cases hn : n ≤ g0.inc_id
    · rw [if_pos hn] at hsc; exact Option.noConfusion hsc
    · rw [if_neg hn] at hsc
      rcases List.mem_cons.mp hg with h1 | h1
      · rw [h1]; omega
      · exact ih _ hsc g h1

theorem ReqLogMgr.exactHead_some (self : ReqLogMgr) (files : LogFiles) (n : Nat)
    (h : ReqLogHead) (off : Nat) (he : self.exactHead files n = some (h, off)) :
    h ∈ files.head ∧ h.inc_id = n := by
  simp only [ReqLogMgr.exactHead] at he
  split at he
  · rename_i g hg
    split_ifs at he with hc
    simp only [Option.some.injEq, Prod.mk.injEq] at he
    obtain ⟨rfl, _⟩ := he
    refine ⟨?_, hc.1⟩
    simp only [LogFiles.headAt] at hg
    split_ifs at hg
    exact List.getElem?_mem hg
  · exact Option.noConfusion he

/-- The header that `getHeadOffset` delivers is in the head index and carries the
smallest id that is not less than the requested one; it delivers none only when
every id in the head index is less. -/
theorem ReqLogMgr.getHeadOffset_spec (self : ReqLogMgr) (files : LogFiles) (n : Nat)
    (hsort : (files.head.map fun g => g.inc_id).Pairwise (fun a b => a < b))
    (hlast : ∀ g ∈ files.head, g.inc_id ≤ self.last_writed_id_) :
    (∀ h off, self.getHeadOffset files n = some (h, off) →
        h ∈ files.head ∧ n ≤ h.inc_id ∧ ∀ g ∈ files.head, n ≤ g.inc_id → h.inc_id ≤ g.inc_id) ∧
      (self.getHeadOffset files n = none → ∀ g ∈ files.head, g.inc_id < n) := by
  unfold ReqLogMgr.getHeadOffset
  by_cases hl : self.last_writed_id_ < n
  · simp only [if_pos hl]
    refine ⟨fun h off he => Option.noConfusion he, fun _ g hg => ?_⟩
    exact Nat.lt_of_le_of_lt (hlast g hg) hl
  · simp only [if_neg hl]
    cases he : self.exactHead files n with
    | some r =>
      obtain ⟨h0, off0⟩ := r
      obtain ⟨hm, hid⟩ := self.exactHead_some files n h0 off0 he
      refine ⟨?_, fun hx => Option.noConfusion hx⟩
      intro h off hx
      simp only [Option.some.injEq, Prod.mk.injEq] at hx
      obtain ⟨rfl, _⟩ := hx
      refine ⟨hm, Nat.le_of_eq hid.symm, fun g _ hg => ?_⟩
      rw [hid]; exact hg
    | none =>
      simp only
      exact ⟨fun h off hx => scanHead_some n files.head 0 h off hsort hx,
        fun hx => scanHead_none n files.head 0 hx⟩

/-- The body that a header describes is read back, with matching length and
checksum. -/
theorem ReqLogMgr.getReqPackedDataByHead_stored (files : LogFiles) (h : ReqLogHead)
    (p : Nat × Bytes) (hs : Stored files h p) :
    ReqLogMgr.getReqPackedDataByHead files h = .ok p.2 := by
  obtain ⟨h1, h2, h3, _, h5⟩ := hs
  simp only [ReqLogMgr.getReqPackedDataByHead, h1, h2, h3, h5, ne_eq, not_true_eq_false,
    if_false]

theorem exists_zip_of_mem {α β : Type} (l1 : List α) :
    ∀ (l2 : List β), l1.length = l2.length → ∀ a ∈ l1, ∃ b, (a, b) ∈ List.zip l1 l2 := by
  induction l1 with
  | nil => intro l2 _ a ha; simp at ha
  | cons x xs ih =>
    intro l2 hl a ha
    cases l2 with
    | nil => simp at hl
    | cons y ys =>
      rcases List.mem_cons.mp ha with h1 | h1
      · exact ⟨y, by rw [h1]; simp⟩
      · obtain ⟨b, hb⟩ := ih ys (by simpa using hl) a h1
        exact ⟨b, by simp [hb]⟩

/-- On a log that satisfies the invariant, `getReqData` delivers the appended record
with the smallest id not less than the requested one, and `false` when there is
none. -/
theorem LogRun.Inv.lookup {t : LogRun} {n B : Nat} (h : t.Inv n B) (inc_id : Nat) :
    ((∃ q ∈ t.appended, inc_id ≤ q.1) →
        ∃ p ∈ t.appended, inc_id ≤ p.1 ∧ (∀ q ∈ t.appended, inc_id ≤ q.1 → p.1 ≤ q.1) ∧
          ∃ hd off, t.mgr.getReqData t.files inc_id = .found p.1 hd off p.2) ∧
      ((∀ q ∈ t.appended, q.1 < inc_id) → t.mgr.getReqData t.files inc_id = .notFound) := by
  have hsort : (t.files.head.map fun g => g.inc_id).Pairwise (fun a b => a < b) := by
    rw [h.ids]; exact h.sorted
  have hids : ∀ g ∈ t.files.head, g.inc_id ∈ t.appended.map (fun p => p.1) := by
    intro g hg
    rw [← h.ids]
    exact List.mem_map_of_mem _ hg
  have hlast : ∀ g ∈ t.files.head, g.inc_id ≤ t.mgr.last_writed_id_ :=
    fun g hg => (h.below _ (hids g hg)).2
  have hback : ∀ q ∈ t.appended, ∃ g ∈ t.files.head, g.inc_id = q.1 := by
    intro q hq
    have : q.1 ∈ t.files.head.map (fun g => g.inc_id) := by
      rw [h.ids]; exact List.mem_map_of_mem _ hq
    obtain ⟨g, hg, he⟩ := List.mem_map.mp this
    exact ⟨g, hg, he⟩
  have hlen : t.files.head.length = t.appended.length := by
    have := congrArg List.length h.ids
    simpa using this
  obtain ⟨hsome, hnone⟩ := t.mgr.getHeadOffset_spec t.files inc_id hsort hlast
  constructor
  · rintro ⟨q, hq, hqn⟩
    cases hg : t.mgr.getHeadOffset t.files inc_id with
    | none =>
      obtain ⟨g, hg1, hg2⟩ := hback q hq
      have := hnone hg g hg1
      omega
    | some r =>
      obtain ⟨hd, off⟩ := r
      obtain ⟨hm, hge, hmin⟩ := hsome hd off hg
      obtain ⟨p, hp⟩ := exists_zip_of_mem t.files.head t.appended hlen hd hm
      have hst := h.stored (hd, p) hp
      have hpid : hd.inc_id = p.1 := hst.1
      refine ⟨p, (List.of_mem_zip hp).2, by omega, ?_, hd, off, ?_⟩
      · intro q2 hq2 hq2n
        obtain ⟨g, hg1, hg2⟩ := hback q2 hq2
        have := hmin g hg1 (by omega)
        omega
      · simp only [ReqLogMgr.getReqData, hg,
          ReqLogMgr.getReqPackedDataByHead_stored t.files hd p hst, hpid]
  · intro hall
    cases hg : t.mgr.getHeadOffset t.files inc_id with
    | none => simp only [ReqLogMgr.getReqData, hg]
    | some r =>
      obtain ⟨hd, off⟩ := r
      obtain ⟨hm, hge, _⟩ := hsome hd off hg
      obtain ⟨p, hp⟩ := exists_zip_of_mem t.files.head t.appended hlen hd hm
      have hst := h.stored (hd, p) hp
      have := hall p (List.of_mem_zip hp).2
      have hpid : hd.inc_id = p.1 := hst.1
      omega

/-- Splitting the data of a checksum run: the run over `a ++ b` is the run over `b`
started from the result of the run over `a`. -/
theorem crc_append (a b : Bytes) : ∀ c : Nat,
    ReqLogMgr.crc (ReqLogMgr.crc c a a.length) b b.length =
      ReqLogMgr.crc c (a ++ b) (a.length + b.length) := by
  induction a with
  | nil =>
    intro c
    cases b <;> simp [ReqLogMgr.crc]
  | cons x a ih =>
    intro c
    have h1 : (0 : Int) < ((x :: a).length : Int) := by
      simp only [List.length_cons]; push_cast; omega
    have h2 : (0 : Int) < ((x :: a).length : Int) + (b.length : Int) := by omega
    have e1 : ((x :: a).length : Int) - 1 = (a.length : Int) := by
      simp only [List.length_cons]; push_cast; omega
    have e2 : ((x :: a).length : Int) + (b.length : Int) - 1 = (a.length : Int) + b.length := by
      simp only [List.length_cons]; push_cast; omega
    simp only [List.cons_append, ReqLogMgr.crc, if_pos h1, if_pos h2, e1, e2]
    exact ih _

/-- A checksum run with a length that is not positive reads nothing. -/
theorem crc_nonpositive (c : Nat) (data : Bytes) (len : Int) (h : len ≤ 0) :
    ReqLogMgr.crc c data len = c := by
  cases data with
  | nil => simp [ReqLogMgr.crc]
  | cons b data =>
    have h0 : ¬ (0 : Int) < len := by omega
    simp only [ReqLogMgr.crc, if_neg h0]

/-- The result of `replaceCommonReqData` in terms of the two encodings. -/
theorem ReqLogMgr.replaceCommon_eq (old_common new_common : ReqData) (p : Bytes) :
    ReqLogMgr.replaceCommonReqData old_common new_common p =
      .ok (ReqLogMgr.packReqLogData new_common ++
        p.drop (min (ReqLogMgr.packReqLogData old_common).length p.length)) := by
  simp only [ReqLogMgr.replaceCommonReqData, ReqLogMgr.string_replace]
  have h0 : ¬ 0 > p.length := by omega
  rw [if_neg h0]
  simp

/-- Records of the same dynamic type have the same default constructed record, whatever
is found in the member the constructor leaves alone. -/
theorem ReqData.newLike_of_sameType (a b : ReqData) (h : a.sameType b) (uninit : Int) :
    a.newLike uninit = b.newLike uninit := by
  unfold ReqData.sameType at h
  cases a <;> cases b <;> first | rfl | exact absurd h (by simp [ReqData.newLike])

/-- Two record types whose constructors set the same `reqtype` are the same type, or the
`reqtype` is `Req_CronJob` or `Req_Callback`. -/
theorem ReqData.sameType_of_reqtype (a b : ReqData)
    (h : (a.newLike 0).common.reqtype = (b.newLike 0).common.reqtype) :
    a.sameType b ∨ (a.newLike 0).common.reqtype = ReqLogType.Req_CronJob.val ∨
      (a.newLike 0).common.reqtype = ReqLogType.Req_Callback.val := by
  cases a <;> cases b <;>
    first
    | exact Or.inl rfl
    | exact Or.inr (Or.inl rfl)
    | exact Or.inr (Or.inr rfl)
    | (simp only [ReqData.newLike, ReqData.common] at h; exact absurd h (by decide))

/-! ## The members after `unpack` -/

/-- Reading the members of a base sub-object and then further members. -/
theorem readValues_append (a b : List FieldValue) : ∀ q : Bytes,
    readValues (a ++ b) q =
      match readValues a q with
      | .ok va u =>
        match readValues b u with
        | .ok vb r => .ok (va ++ vb) r
        | .fail vb => .fail (va ++ vb)
      | .fail va => .fail (va ++ b) := by
  induction a with
  | nil =>
    intro q
    simp only [List.nil_append, readValues]
    cases readValues b q <;> rfl
  | cons t a ih =>
    intro q
    simp only [List.cons_append, readValues]
    cases unpacker.next q with
    | unpack_error u => rfl
    | none u => rfl
    | object o r =>
      simp only []
      cases t.convert o with
      | type_error v => rfl
      | ok v =>
        simp only []
        rw [List.append_eq, ih r]
        cases readValues a r with
        | fail va => rfl
        | ok va u =>
          simp only []
          cases readValues b u <;> rfl

/-- The members a `CommonReqData` holds after `unpack`, and what `unpack` returns. -/
theorem CommonReqData.unpack_values_common (self : CommonReqData) (q : Bytes) :
    (self.unpack q).DecodesTo CommonReqData.values self.values q := by
  unfold Flow.DecodesTo
  cases h1 : unpacker.next q with
  | unpack_error u => simp [CommonReqData.unpack, CommonReqData.values, Flow.andThen, Flow.catchReturnFalse, Flow.returnTrue, nextConvert, readValues, FieldValue.convert, ConvRes.map, h1]
  | none u => simp [CommonReqData.unpack, CommonReqData.values, Flow.andThen, Flow.catchReturnFalse, Flow.returnTrue, nextConvert, readValues, FieldValue.convert, ConvRes.map, h1]
  | object o1 u1 =>
    cases c1 : convert_uint32 o1 self.inc_id with
    | type_error v1 => simp [CommonReqData.unpack, CommonReqData.values, Flow.andThen, Flow.catchReturnFalse, Flow.returnTrue, nextConvert, readValues, FieldValue.convert, ConvRes.map, h1, c1]
    | ok v1 =>
      cases h2 : unpacker.next u1 with
      | unpack_error u => simp [CommonReqData.unpack, CommonReqData.values, Flow.andThen, Flow.catchReturnFalse, Flow.returnTrue, nextConvert, readValues, FieldValue.convert, ConvRes.map, h1, c1, h2]
      | none u => simp [CommonReqData.unpack, CommonReqData.values, Flow.andThen, Flow.catchReturnFalse, Flow.returnTrue, nextConvert, readValues, FieldValue.convert, ConvRes.map, h1, c1, h2]
      | object o2 u2 =>
        cases c2 : convert_uint32 o2 self.reqtype with
        | type_error v2 => simp [CommonReqData.unpack, CommonReqData.values, Flow.andThen, Flow.catchReturnFalse, Flow.returnTrue, nextConvert, readValues, FieldValue.convert, ConvRes.map, h1, c1, h2, c2]
        | ok v2 =>
          cases h3 : unpacker.next u2 with
          | unpack_error u => simp [CommonReqData.unpack, CommonReqData.values, Flow.andThen, Flow.catchReturnFalse, Flow.returnTrue, nextConvert, readValues, FieldValue.convert, ConvRes.map, h1, c1, h2, c2, h3]
          | none u => simp [CommonReqData.unpack, CommonReqData.values, Flow.andThen, Flow.catchReturnFalse, Flow.returnTrue, nextConvert, readValues, FieldValue.convert, ConvRes.map, h1, c1, h2, c2, h3]
          | object o3 u3 =>
            cases c3 : convert_string o3 self.req_json_data with
            | type_error v3 => simp [CommonReqData.unpack, CommonReqData.values, Flow.andThen, Flow.catchReturnFalse, Flow.returnTrue, nextConvert, readValues, FieldValue.convert, ConvRes.map, h1, c1, h2, c2, h3, c3]
            | ok v3 =>
              simp [CommonReqData.unpack, CommonReqData.values, Flow.andThen, Flow.catchReturnFalse, Flow.returnTrue, nextConvert, readValues, FieldValue.convert, ConvRes.map, h1, c1, h2, c2, h3, c3]

/-- The members a `CronJobReqLog` holds after `unpack`, and what `unpack` returns. -/
theorem unpack_values_CronJobReqLog (self : CronJobReqLog) (q : Bytes) :
    (self.unpack q).DecodesTo (fun x => (ReqData.CronJob x).values) (ReqData.CronJob self).values q := by
  have hc := CommonReqData.unpack_values_common self.toCommonReqData q
  unfold Flow.DecodesTo at hc ⊢
  simp only [ReqData.values]
  rw [readValues_append]
  cases hr : readValues self.toCommonReqData.values q with
  | fail vs =>
    rw [hr] at hc
    obtain ⟨c, u, hc, hv⟩ := hc
    simp [CronJobReqLog.unpack, hc, baseUnpack, Flow.andThen, Flow.returnTrue, hv]
  | ok vs u0 =>
    rw [hr] at hc
    obtain ⟨c, hc, hv⟩ := hc
    cases h1 : unpacker.next u0 with
    | unpack_error u => simp [CronJobReqLog.unpack, hc, baseUnpack, Flow.andThen, Flow.catchReturnFalse, Flow.returnTrue, nextConvert, readValues, FieldValue.convert, ConvRes.map, hv, h1]
    | none u => simp [CronJobReqLog.unpack, hc, baseUnpack, Flow.andThen, Flow.catchReturnFalse, Flow.returnTrue, nextConvert, readValues, FieldValue.convert, ConvRes.map, hv, h1]
    | object o1 u1 =>
      cases c1 : convert_int64 o1 self.cron_time with
      | type_error v1 => simp [CronJobReqLog.unpack, hc, baseUnpack, Flow.andThen, Flow.catchReturnFalse, Flow.returnTrue, nextConvert, readValues, FieldValue.convert, ConvRes.map, hv, h1, c1]
      | ok v1 =>
        simp [CronJobReqLog.unpack, hc, baseUnpack, Flow.andThen, Flow.catchReturnFalse, Flow.returnTrue, nextConvert, readValues, FieldValue.convert, ConvRes.map, hv, h1, c1]

/-- The members a `TimestampReqLog` holds after `unpack`, and what `unpack` returns. -/
theorem unpack_values_TimestampReqLog (self : TimestampReqLog) (q : Bytes) :
    (self.unpack q).DecodesTo (fun x => (ReqData.Timestamp x).values) (ReqData.Timestamp self).values q := by
  have hc := CommonReqData.unpack_values_common self.toCommonReqData q
  unfold Flow.DecodesTo at hc ⊢
  simp only [ReqData.values]
  rw [readValues_append]
  cases hr : readValues self.toCommonReqData.values q with
  | fail vs =>
    rw [hr] at hc
    obtain ⟨c, u, hc, hv⟩ := hc
    simp [TimestampReqLog.unpack, hc, baseUnpack, Flow.andThen, Flow.returnTrue, hv]
  | ok vs u0 =>
    rw [hr] at hc
    obtain ⟨c, hc, hv⟩ := hc
    cases h1 : unpacker.next u0 with
    | unpack_error u => simp [TimestampReqLog.unpack, hc, baseUnpack, Flow.andThen, Flow.catchReturnFalse, Flow.returnTrue, nextConvert, readValues, FieldValue.convert, ConvRes.map, hv, h1]
    | none u => simp [TimestampReqLog.unpack, hc, baseUnpack, Flow.andThen, Flow.catchReturnFalse, Flow.returnTrue, nextConvert, readValues, FieldValue.convert, ConvRes.map, hv, h1]
    | object o1 u1 =>
      cases c1 : convert_int64 o1 self.timestamp with
      | type_error v1 => simp [TimestampReqLog.unpack, hc, baseUnpack, Flow.andThen, Flow.catchReturnFalse, Flow.returnTrue, nextConvert, readValues, FieldValue.convert, ConvRes.map, hv, h1, c1]
      | ok v1 =>
        simp [TimestampReqLog.unpack, hc, baseUnpack, Flow.andThen, Flow.catchReturnFalse, Flow.returnTrue, nextConvert, readValues, FieldValue.convert, ConvRes.map, hv, h1, c1]

/-- The members a `CreateOrUpdateDocReqLog` holds after `unpack`, and what `unpack` returns. -/
theorem unpack_values_CreateOrUpdateDocReqLog (self : CreateOrUpdateDocReqLog) (q : Bytes) :
    (self.unpack q).DecodesTo (fun x => (ReqData.CreateOrUpdateDoc x).values) (ReqData.CreateOrUpdateDoc self).values q := by
  have hc := CommonReqData.unpack_values_common self.toCommonReqData q
  unfold Flow.DecodesTo at hc ⊢
  simp only [ReqData.values]
  rw [readValues_append]
  cases hr : readValues self.toCommonReqData.values q with
  | fail vs =>
    rw [hr] at hc
    obtain ⟨c, u, hc, hv⟩ := hc
    simp [CreateOrUpdateDocReqLog.unpack, hc, baseUnpack, Flow.andThen, Flow.returnTrue, hv]
  | ok vs u0 =>
    rw [hr] at hc
    obtain ⟨c, hc, hv⟩ := hc
    cases h1 : unpacker.next u0 with
    | unpack_error u => simp [CreateOrUpdateDocReqLog.unpack, hc, baseUnpack, Flow.andThen, Flow.catchReturnFalse, Flow.returnTrue, nextConvert, readValues, FieldValue.convert, ConvRes.map, hv, h1]
    | none u => simp [CreateOrUpdateDocReqLog.unpack, hc, baseUnpack, Flow.andThen, Flow.catchReturnFalse, Flow.returnTrue, nextConvert, readValues, FieldValue.convert, ConvRes.map, hv, h1]
    | object o1 u1 =>
      cases c1 : convert_int64 o1 self.timestamp with
      | type_error v1 => simp [CreateOrUpdateDocReqLog.unpack, hc, baseUnpack, Flow.andThen, Flow.catchReturnFalse, Flow.returnTrue, nextConvert, readValues, FieldValue.convert, ConvRes.map, hv, h1, c1]
      | ok v1 =>
        simp [CreateOrUpdateDocReqLog.unpack, hc, baseUnpack, Flow.andThen, Flow.catchReturnFalse, Flow.returnTrue, nextConvert, readValues, FieldValue.convert, ConvRes.map, hv, h1, c1]

/-- The members a `IndexReqLog` holds after `unpack`, and what `unpack` returns. -/
theorem unpack_values_IndexReqLog (self : IndexReqLog) (q : Bytes) :
    (self.unpack q).DecodesTo (fun x => (ReqData.Index x).values) (ReqData.Index self).values q := by
  have hc := CommonReqData.unpack_values_common self.toCommonReqData q
  unfold Flow.DecodesTo at hc ⊢
  simp only [ReqData.values]
  rw [readValues_append]
  cases hr : readValues self.toCommonReqData.values q with
  | fail vs =>
    rw [hr] at hc
    obtain ⟨c, u, hc, hv⟩ := hc
    simp [IndexReqLog.unpack, hc, baseUnpack, Flow.andThen, Flow.returnTrue, hv]
  | ok vs u0 =>
    rw [hr] at hc
    obtain ⟨c, hc, hv⟩ := hc
    cases h1 : unpacker.next u0 with
    | unpack_error u => simp [IndexReqLog.unpack, hc, baseUnpack, Flow.andThen, Flow.catchReturnFalse, Flow.returnTrue, nextConvert, readValues, FieldValue.convert, ConvRes.map, hv, h1]
    | none u => simp [IndexReqLog.unpack, hc, baseUnpack, Flow.andThen, Flow.catchReturnFalse, Flow.returnTrue, nextConvert, readValues, FieldValue.convert, ConvRes.map, hv, h1]
    | object o1 u1 =>
      cases c1 : convert_vector_string o1 self.scd_list with
      | type_error v1 => simp [IndexReqLog.unpack, hc, baseUnpack, Flow.andThen, Flow.catchReturnFalse, Flow.returnTrue, nextConvert, readValues, FieldValue.convert, ConvRes.map, hv, h1, c1]
      | ok v1 =>
        cases h2 : unpacker.next u1 with
        | unpack_error u => simp [IndexReqLog.unpack, hc, baseUnpack, Flow.andThen, Flow.catchReturnFalse, Flow.returnTrue, nextConvert, readValues, FieldValue.convert, ConvRes.map, hv, h1, c1, h2]
        | none u => simp [IndexReqLog.unpack, hc, baseUnpack, Flow.andThen, Flow.catchReturnFalse, Flow.returnTrue, nextConvert, readValues, FieldValue.convert, ConvRes.map, hv, h1, c1, h2]
        | object o2 u2 =>
          cases c2 : convert_int64 o2 self.timestamp with
          | type_error v2 => simp [IndexReqLog.unpack, hc, baseUnpack, Flow.andThen, Flow.catchReturnFalse, Flow.returnTrue, nextConvert, readValues, FieldValue.convert, ConvRes.map, hv, h1, c1, h2, c2]
          | ok v2 =>
            simp [IndexReqLog.unpack, hc, baseUnpack, Flow.andThen, Flow.catchReturnFalse, Flow.returnTrue, nextConvert, readValues, FieldValue.convert, ConvRes.map, hv, h1, c1, h2, c2]

/-- The members a `ProductReqLog` holds after `unpack`, and what `unpack` returns. -/
theorem unpack_values_ProductReqLog (self : ProductReqLog) (q : Bytes) :
    (self.unpack q).DecodesTo (fun x => (ReqData.Product x).values) (ReqData.Product self).values q := by
  have hc := CommonReqData.unpack_values_common self.toCommonReqData q
  unfold Flow.DecodesTo at hc ⊢
  simp only [ReqData.values]
  rw [readValues_append]
  cases hr : readValues self.toCommonReqData.values q with
  | fail vs =>
    rw [hr] at hc
    obtain ⟨c, u, hc, hv⟩ := hc
    simp [ProductReqLog.unpack, hc, baseUnpack, Flow.andThen, Flow.returnTrue, hv]
  | ok vs u0 =>
    rw [hr] at hc
    obtain ⟨c, hc, hv⟩ := hc
    cases h1 : unpacker.next u0 with
    | unpack_error u => simp [ProductReqLog.unpack, hc, baseUnpack, Flow.andThen, Flow.catchReturnFalse, Flow.returnTrue, nextConvert, readValues, FieldValue.convert, ConvRes.map, hv, h1]
    | none u => simp [ProductReqLog.unpack, hc, baseUnpack, Flow.andThen, Flow.catchReturnFalse, Flow.returnTrue, nextConvert, readValues, FieldValue.convert, ConvRes.map, hv, h1]
    | object o1 u1 =>
      cases c1 : convert_vector_string o1 self.str_uuid_list with
      | type_error v1 => simp [ProductReqLog.unpack, hc, baseUnpack, Flow.andThen, Flow.catchReturnFalse, Flow.returnTrue, nextConvert, readValues, FieldValue.convert, ConvRes.map, hv, h1, c1]
      | ok v1 =>
        simp [ProductReqLog.unpack, hc, baseUnpack, Flow.andThen, Flow.catchReturnFalse, Flow.returnTrue, nextConvert, readValues, FieldValue.convert, ConvRes.map, hv, h1, c1]

/-- The members a `UpdateConfigReqLog` holds after `unpack`, and what `unpack` returns. -/
theorem unpack_values_UpdateConfigReqLog (self : UpdateConfigReqLog) (q : Bytes) :
    (self.unpack q).DecodesTo (fun x => (ReqData.UpdateConfig x).values) (ReqData.UpdateConfig self).values q := by
  have hc := CommonReqData.unpack_values_common self.toCommonReqData q
  unfold Flow.DecodesTo at hc ⊢
  simp only [ReqData.values]
  rw [readValues_append]
  cases hr : readValues self.toCommonReqData.values q with
  | fail vs =>
    rw [hr] at hc
    obtain ⟨c, u, hc, hv⟩ := hc
    simp [UpdateConfigReqLog.unpack, hc, baseUnpack, Flow.andThen, Flow.returnTrue, hv]
  | ok vs u0 =>
    rw [hr] at hc
    obtain ⟨c, hc, hv⟩ := hc
    cases h1 : unpacker.next u0 with
    | unpack_error u => simp [UpdateConfigReqLog.unpack, hc, baseUnpack, Flow.andThen, Flow.catchReturnFalse, Flow.returnTrue, nextConvert, readValues, FieldValue.convert, ConvRes.map, hv, h1]
    | none u => simp [UpdateConfigReqLog.unpack, hc, baseUnpack, Flow.andThen, Flow.catchReturnFalse, Flow.returnTrue, nextConvert, readValues, FieldValue.convert, ConvRes.map, hv, h1]
    | object o1 u1 =>
      cases c1 : convert_map_string o1 self.config_file_list with
      | type_error v1 => simp [UpdateConfigReqLog.unpack, hc, baseUnpack, Flow.andThen, Flow.catchReturnFalse, Flow.returnTrue, nextConvert, readValues, FieldValue.convert, ConvRes.map, hv, h1, c1]
      | ok v1 =>
        simp [UpdateConfigReqLog.unpack, hc, baseUnpack, Flow.andThen, Flow.catchReturnFalse, Flow.returnTrue, nextConvert, readValues, FieldValue.convert, ConvRes.map, hv, h1, c1]

/-- The members a `UpdateRecCallbackReqLog` holds after `unpack`, and what `unpack` returns. -/
theorem unpack_values_UpdateRecCallbackReqLog (self : UpdateRecCallbackReqLog) (q : Bytes) :
    (self.unpack q).DecodesTo (fun x => (ReqData.UpdateRecCallback x).values) (ReqData.UpdateRecCallback self).values q := by
  have hc := CommonReqData.unpack_values_common self.toCommonReqData q
  unfold Flow.DecodesTo at hc ⊢
  simp only [ReqData.values]
  rw [readValues_append]
  cases hr : readValues self.toCommonReqData.values q with
  | fail vs =>
    rw [hr] at hc
    obtain ⟨c, u, hc, hv⟩ := hc
    simp [UpdateRecCallbackReqLog.unpack, hc, baseUnpack, Flow.andThen, Flow.returnTrue, hv]
  | ok vs u0 =>
    rw [hr] at hc
    obtain ⟨c, hc, hv⟩ := hc
    cases h1 : unpacker.next u0 with
    | unpack_error u => simp [UpdateRecCallbackReqLog.unpack, hc, baseUnpack, Flow.andThen, Flow.catchReturnFalse, Flow.returnTrue, nextConvert, readValues, FieldValue.convert, ConvRes.map, hv, h1]
    | none u => simp [UpdateRecCallbackReqLog.unpack, hc, baseUnpack, Flow.andThen, Flow.catchReturnFalse, Flow.returnTrue, nextConvert, readValues, FieldValue.convert, ConvRes.map, hv, h1]
    | object o1 u1 =>
      cases c1 : convert_vector_uint32 o1 self.oldItems with
      | type_error v1 => simp [UpdateRecCallbackReqLog.unpack, hc, baseUnpack, Flow.andThen, Flow.catchReturnFalse, Flow.returnTrue, nextConvert, readValues, FieldValue.convert, ConvRes.map, hv, h1, c1]
      | ok v1 =>
        cases h2 : unpacker.next u1 with
        | unpack_error u => simp [UpdateRecCallbackReqLog.unpack, hc, baseUnpack, Flow.andThen, Flow.catchReturnFalse, Flow.returnTrue, nextConvert, readValues, FieldValue.convert, ConvRes.map, hv, h1, c1, h2]
        | none u => simp [UpdateRecCallbackReqLog.unpack, hc, baseUnpack, Flow.andThen, Flow.catchReturnFalse, Flow.returnTrue, nextConvert, readValues, FieldValue.convert, ConvRes.map, hv, h1, c1, h2]
        | object o2 u2 =>
          cases c2 : convert_vector_uint32 o2 self.newItems with
          | type_error v2 => simp [UpdateRecCallbackReqLog.unpack, hc, baseUnpack, Flow.andThen, Flow.catchReturnFalse, Flow.returnTrue, nextConvert, readValues, FieldValue.convert, ConvRes.map, hv, h1, c1, h2, c2]
          | ok v2 =>
            simp [UpdateRecCallbackReqLog.unpack, hc, baseUnpack, Flow.andThen, Flow.catchReturnFalse, Flow.returnTrue, nextConvert, readValues, FieldValue.convert, ConvRes.map, hv, h1, c1, h2, c2]

/-- The members a `BuildPurchaseSimCallbackReqLog` holds after `unpack`, and what `unpack` returns. -/
theorem unpack_values_BuildPurchaseSimCallbackReqLog (self : BuildPurchaseSimCallbackReqLog) (q : Bytes) :
    (self.unpack q).DecodesTo (fun x => (ReqData.BuildPurchaseSimCallback x).values) (ReqData.BuildPurchaseSimCallback self).values q := by
  have hc := CommonReqData.unpack_values_common self.toCommonReqData q
  unfold Flow.DecodesTo at hc ⊢
  simp only [ReqData.values]
  cases hr : readValues self.toCommonReqData.values q with
  | fail vs =>
    rw [hr] at hc
    obtain ⟨c, u, hc, hv⟩ := hc
    simp [BuildPurchaseSimCallbackReqLog.unpack, hc, baseUnpack, Flow.andThen, Flow.returnTrue, hv]
  | ok vs u0 =>
    rw [hr] at hc
    obtain ⟨c, hc, hv⟩ := hc
    simp [BuildPurchaseSimCallbackReqLog.unpack, hc, baseUnpack, Flow.andThen, Flow.catchReturnFalse, Flow.returnTrue, nextConvert, readValues, FieldValue.convert, ConvRes.map, hv]

/-- The members a `RecommendIndexReqLog` holds after `unpack`, and what `unpack` returns. -/
theorem unpack_values_RecommendIndexReqLog (self : RecommendIndexReqLog) (q : Bytes) :
    (self.unpack q).DecodesTo (fun x => (ReqData.RecommendIndex x).values) (ReqData.RecommendIndex self).values q := by
  have hc := CommonReqData.unpack_values_common self.toCommonReqData q
  unfold Flow.DecodesTo at hc ⊢
  simp only [ReqData.values]
  rw [readValues_append]
  cases hr : readValues self.toCommonReqData.values q with
  | fail vs =>
    rw [hr] at hc
    obtain ⟨c, u, hc, hv⟩ := hc
    simp [RecommendIndexReqLog.unpack, hc, baseUnpack, Flow.andThen, Flow.returnTrue, hv]
  | ok vs u0 =>
    rw [hr] at hc
    obtain ⟨c, hc, hv⟩ := hc
    cases h1 : unpacker.next u0 with
    | unpack_error u => simp [RecommendIndexReqLog.unpack, hc, baseUnpack, Flow.andThen, Flow.catchReturnFalse, Flow.returnTrue, nextConvert, readValues, FieldValue.convert, ConvRes.map, hv, h1]
    | none u => simp [RecommendIndexReqLog.unpack, hc, baseUnpack, Flow.andThen, Flow.catchReturnFalse, Flow.returnTrue, nextConvert, readValues, FieldValue.convert, ConvRes.map, hv, h1]
    | object o1 u1 =>
      cases c1 : convert_vector_string o1 self.user_scd_list with
      | type_error v1 => simp [RecommendIndexReqLog.unpack, hc, baseUnpack, Flow.andThen, Flow.catchReturnFalse, Flow.returnTrue, nextConvert, readValues, FieldValue.convert, ConvRes.map, hv, h1, c1]
      | ok v1 =>
        cases h2 : unpacker.next u1 with
        | unpack_error u => simp [RecommendIndexReqLog.unpack, hc, baseUnpack, Flow.andThen, Flow.catchReturnFalse, Flow.returnTrue, nextConvert, readValues, FieldValue.convert, ConvRes.map, hv, h1, c1, h2]
        | none u => simp [RecommendIndexReqLog.unpack, hc, baseUnpack, Flow.andThen, Flow.catchReturnFalse, Flow.returnTrue, nextConvert, readValues, FieldValue.convert, ConvRes.map, hv, h1, c1, h2]
        | object o2 u2 =>
          cases c2 : convert_vector_string o2 self.order_scd_list with
          | type_error v2 => simp [RecommendIndexReqLog.unpack, hc, baseUnpack, Flow.andThen, Flow.catchReturnFalse, Flow.returnTrue, nextConvert, readValues, FieldValue.convert, ConvRes.map, hv, h1, c1, h2, c2]
          | ok v2 =>
            cases h3 : unpacker.next u2 with
            | unpack_error u => simp [RecommendIndexReqLog.unpack, hc, baseUnpack, Flow.andThen, Flow.catchReturnFalse, Flow.returnTrue, nextConvert, readValues, FieldValue.convert, ConvRes.map, hv, h1, c1, h2, c2, h3]
            | none u => simp [RecommendIndexReqLog.unpack, hc, baseUnpack, Flow.andThen, Flow.catchReturnFalse, Flow.returnTrue, nextConvert, readValues, FieldValue.convert, ConvRes.map, hv, h1, c1, h2, c2, h3]
            | object o3 u3 =>
              cases c3 : convert_int64 o3 self.timestamp with
              | type_error v3 => simp [RecommendIndexReqLog.unpack, hc, baseUnpack, Flow.andThen, Flow.catchReturnFalse, Flow.returnTrue, nextConvert, readValues, FieldValue.convert, ConvRes.map, hv, h1, c1, h2, c2, h3, c3]
              | ok v3 =>
                simp [RecommendIndexReqLog.unpack, hc, baseUnpack, Flow.andThen, Flow.catchReturnFalse, Flow.returnTrue, nextConvert, readValues, FieldValue.convert, ConvRes.map, hv, h1, c1, h2, c2, h3, c3]

/-- The members a `RebuildCronTaskReqLog` holds after `unpack`, and what `unpack` returns. -/
theorem unpack_values_RebuildCronTaskReqLog (self : RebuildCronTaskReqLog) (q : Bytes) :
    (self.unpack q).DecodesTo (fun x => (ReqData.RebuildCronTask x).values) (ReqData.RebuildCronTask self).values q := by
  have hc := CommonReqData.unpack_values_common self.toCommonReqData q
  unfold Flow.DecodesTo at hc ⊢
  simp only [ReqData.values]
  rw [readValues_append]
  cases hr : readValues self.toCommonReqData.values q with
  | fail vs =>
    rw [hr] at hc
    obtain ⟨c, u, hc, hv⟩ := hc
    simp [RebuildCronTaskReqLog.unpack, hc, baseUnpack, Flow.andThen, Flow.returnTrue, hv]
  | ok vs u0 =>
    rw [hr] at hc
    obtain ⟨c, hc, hv⟩ := hc
    cases h1 : unpacker.next u0 with
    | unpack_error u => simp [RebuildCronTaskReqLog.unpack, hc, baseUnpack, Flow.andThen, Flow.catchReturnFalse, Flow.returnTrue, nextConvert, readValues, FieldValue.convert, ConvRes.map, hv, h1]
    | none u => simp [RebuildCronTaskReqLog.unpack, hc, baseUnpack, Flow.andThen, Flow.catchReturnFalse, Flow.returnTrue, nextConvert, readValues, FieldValue.convert, ConvRes.map, hv, h1]
    | object o1 u1 =>
      cases c1 : convert_int64 o1 self.cron_time with
      | type_error v1 => simp [RebuildCronTaskReqLog.unpack, hc, baseUnpack, Flow.andThen, Flow.catchReturnFalse, Flow.returnTrue, nextConvert, readValues, FieldValue.convert, ConvRes.map, hv, h1, c1]
      | ok v1 =>
        cases h2 : unpacker.next u1 with
        | unpack_error u => simp [RebuildCronTaskReqLog.unpack, hc, baseUnpack, Flow.andThen, Flow.catchReturnFalse, Flow.returnTrue, nextConvert, readValues, FieldValue.convert, ConvRes.map, hv, h1, c1, h2]
        | none u => simp [RebuildCronTaskReqLog.unpack, hc, baseUnpack, Flow.andThen, Flow.catchReturnFalse, Flow.returnTrue, nextConvert, readValues, FieldValue.convert, ConvRes.map, hv, h1, c1, h2]
        | object o2 u2 =>
          cases c2 : convert_vector_uint32 o2 self.replayed_id_list with
          | type_error v2 => simp [RebuildCronTaskReqLog.unpack, hc, baseUnpack, Flow.andThen, Flow.catchReturnFalse, Flow.returnTrue, nextConvert, readValues, FieldValue.convert, ConvRes.map, hv, h1, c1, h2, c2]
          | ok v2 =>
            simp [RebuildCronTaskReqLog.unpack, hc, baseUnpack, Flow.andThen, Flow.catchReturnFalse, Flow.returnTrue, nextConvert, readValues, FieldValue.convert, ConvRes.map, hv, h1, c1, h2, c2]

/-- The members a `RebuildFromSCDReqLog` holds after `unpack`, and what `unpack` returns. -/
theorem unpack_values_RebuildFromSCDReqLog (self : RebuildFromSCDReqLog) (q : Bytes) :
    (self.unpack q).DecodesTo (fun x => (ReqData.RebuildFromSCD x).values) (ReqData.RebuildFromSCD self).values q := by
  have hc := CommonReqData.unpack_values_common self.toCommonReqData q
  unfold Flow.DecodesTo at hc ⊢
  simp only [ReqData.values]
  rw [readValues_append]
  cases hr : readValues self.toCommonReqData.values q with
  | fail vs =>
    rw [hr] at hc
    obtain ⟨c, u, hc, hv⟩ := hc
    simp [RebuildFromSCDReqLog.unpack, hc, baseUnpack, Flow.andThen, Flow.returnTrue, hv]
  | ok vs u0 =>
    rw [hr] at hc
    obtain ⟨c, hc, hv⟩ := hc
    cases h1 : unpacker.next u0 with
    | unpack_error u => simp [RebuildFromSCDReqLog.unpack, hc, baseUnpack, Flow.andThen, Flow.catchReturnFalse, Flow.returnTrue, nextConvert, readValues, FieldValue.convert, ConvRes.map, hv, h1]
    | none u => simp [RebuildFromSCDReqLog.unpack, hc, baseUnpack, Flow.andThen, Flow.catchReturnFalse, Flow.returnTrue, nextConvert, readValues, FieldValue.convert, ConvRes.map, hv, h1]
    | object o1 u1 =>
      cases c1 : convert_vector_string o1 self.scd_list with
      | type_error v1 => simp [RebuildFromSCDReqLog.unpack, hc, baseUnpack, Flow.andThen, Flow.catchReturnFalse, Flow.returnTrue, nextConvert, readValues, FieldValue.convert, ConvRes.map, hv, h1, c1]
      | ok v1 =>
        cases h2 : unpacker.next u1 with
        | unpack_error u => simp [RebuildFromSCDReqLog.unpack, hc, baseUnpack, Flow.andThen, Flow.catchReturnFalse, Flow.returnTrue, nextConvert, readValues, FieldValue.convert, ConvRes.map, hv, h1, c1, h2]
        | none u => simp [RebuildFromSCDReqLog.unpack, hc, baseUnpack, Flow.andThen, Flow.catchReturnFalse, Flow.returnTrue, nextConvert, readValues, FieldValue.convert, ConvRes.map, hv, h1, c1, h2]
        | object o2 u2 =>
          cases c2 : convert_int64 o2 self.timestamp with
          | type_error v2 => simp [RebuildFromSCDReqLog.unpack, hc, baseUnpack, Flow.andThen, Flow.catchReturnFalse, Flow.returnTrue, nextConvert, readValues, FieldValue.convert, ConvRes.map, hv, h1, c1, h2, c2]
          | ok v2 =>
            cases h3 : unpacker.next u2 with
            | unpack_error u => simp [RebuildFromSCDReqLog.unpack, hc, baseUnpack, Flow.andThen, Flow.catchReturnFalse, Flow.returnTrue, nextConvert, readValues, FieldValue.convert, ConvRes.map, hv, h1, c1, h2, c2, h3]
            | none u => simp [RebuildFromSCDReqLog.unpack, hc, baseUnpack, Flow.andThen, Flow.catchReturnFalse, Flow.returnTrue, nextConvert, readValues, FieldValue.convert, ConvRes.map, hv, h1, c1, h2, c2, h3]
            | object o3 u3 =>
              cases c3 : convert_vector_uint32 o3 self.replayed_id_list with
              | type_error v3 => simp [RebuildFromSCDReqLog.unpack, hc, baseUnpack, Flow.andThen, Flow.catchReturnFalse, Flow.returnTrue, nextConvert, readValues, FieldValue.convert, ConvRes.map, hv, h1, c1, h2, c2, h3, c3]
              | ok v3 =>
                simp [RebuildFromSCDReqLog.unpack, hc, baseUnpack, Flow.andThen, Flow.catchReturnFalse, Flow.returnTrue, nextConvert, readValues, FieldValue.convert, ConvRes.map, hv, h1, c1, h2, c2, h3, c3]

theorem Flow.self_map {β σ : Type} (g : β → σ) (f : Flow β) : (f.map g).self = g f.self := by
  cases f <;> rfl

/-- The virtual `unpack` leaves the dynamic type of the object alone. -/
theorem ReqData.sameType_unpack (t : ReqData) (q : Bytes) : (t.unpack q).self.sameType t := by
  cases t <;> simp only [ReqData.unpack, Flow.self_map] <;> exact rfl

theorem Flow.DecodesTo.map_view {β σ : Type} (g : β → σ) (view : β → List FieldValue)
    (view2 : σ → List FieldValue) (hv : ∀ s, view2 (g s) = view s) (ts : List FieldValue)
    (q : Bytes) (f : Flow β) (h : f.DecodesTo view ts q) : (f.map g).DecodesTo view2 ts q := by
  unfold Flow.DecodesTo at h ⊢
  cases hr : readValues ts q with
  | ok vs u =>
    rw [hr] at h
    obtain ⟨s, rfl, hs⟩ := h
    exact ⟨g s, rfl, by rw [hv, hs]⟩
  | fail vs =>
    rw [hr] at h
    obtain ⟨s, u, rfl, hs⟩ := h
    exact ⟨g s, u, rfl, by rw [hv, hs]⟩

/-- The members a record holds after the virtual `unpack`, and what `unpack` returns. -/
theorem ReqData.unpack_values (t : ReqData) (q : Bytes) :
    (t.unpack q).DecodesTo ReqData.values t.values q := by
  cases t with
  | Common r =>
    exact Flow.DecodesTo.map_view _ _ _ (fun _ => rfl) _ _ _ (CommonReqData.unpack_values_common r q)
  | NoAddition r =>
    exact Flow.DecodesTo.map_view _ _ _ (fun _ => rfl) _ _ _
      (CommonReqData.unpack_values_common r.toCommonReqData q)
  | NoAdditionNeedBackup r =>
    exact Flow.DecodesTo.map_view _ _ _ (fun _ => rfl) _ _ _
      (CommonReqData.unpack_values_common r.toCommonReqData q)
  | NoAdditionNoRollback r =>
    exact Flow.DecodesTo.map_view _ _ _ (fun _ => rfl) _ _ _
      (CommonReqData.unpack_values_common r.toCommonReqData q)
  | CronJob r =>
    exact Flow.DecodesTo.map_view _ _ _ (fun _ => rfl) _ _ _ (unpack_values_CronJobReqLog r q)
  | Timestamp r =>
    exact Flow.DecodesTo.map_view _ _ _ (fun _ => rfl) _ _ _ (unpack_values_TimestampReqLog r q)
  | CreateOrUpdateDoc r =>
    exact Flow.DecodesTo.map_view _ _ _ (fun _ => rfl) _ _ _
      (unpack_values_CreateOrUpdateDocReqLog r q)
  | Index r =>
    exact Flow.DecodesTo.map_view _ _ _ (fun _ => rfl) _ _ _ (unpack_values_IndexReqLog r q)
  | Product r =>
    exact Flow.DecodesTo.map_view _ _ _ (fun _ => rfl) _ _ _ (unpack_values_ProductReqLog r q)
  | UpdateConfig r =>
    exact Flow.DecodesTo.map_view _ _ _ (fun _ => rfl) _ _ _ (unpack_values_UpdateConfigReqLog r q)
  | UpdateRecCallback r =>
    exact Flow.DecodesTo.map_view _ _ _ (fun _ => rfl) _ _ _
      (unpack_values_UpdateRecCallbackReqLog r q)
  | BuildPurchaseSimCallback r =>
    exact Flow.DecodesTo.map_view _ _ _ (fun _ => rfl) _ _ _
      (unpack_values_BuildPurchaseSimCallbackReqLog r q)
  | RecommendIndex r =>
    exact Flow.DecodesTo.map_view _ _ _ (fun _ => rfl) _ _ _ (unpack_values_RecommendIndexReqLog r q)
  | RebuildCronTask r =>
    exact Flow.DecodesTo.map_view _ _ _ (fun _ => rfl) _ _ _ (unpack_values_RebuildCronTaskReqLog r q)
  | RebuildFromSCD r =>
    exact Flow.DecodesTo.map_view _ _ _ (fun _ => rfl) _ _ _ (unpack_values_RebuildFromSCDReqLog r q)

/-- The members after a virtual `unpack` that returned `false`. -/
theorem ReqData.unpack_false_values (t r : ReqData) (q u : Bytes)
    (h : t.unpack q = .returned false r u) : readValues t.values q = .fail r.values := by
  have hv := t.unpack_values q
  unfold Flow.DecodesTo at hv
  cases hr : readValues t.values q with
  | ok vs u2 =>
    rw [hr] at hv
    obtain ⟨s, hs, _⟩ := hv
    rw [h] at hs
    exact absurd hs (by simp)
  | fail vs =>
    rw [hr] at hv
    obtain ⟨s, u2, hs, hvs⟩ := hv
    rw [h] at hs
    injection hs with _ h2 _
    rw [h2, hvs]

/-- The members after a virtual `unpack` that returned `true`. -/
theorem ReqData.unpack_true_values (t r : ReqData) (q u : Bytes)
    (h : t.unpack q = .returned true r u) : readValues t.values q = .ok r.values u := by
  have hv := t.unpack_values q
  unfold Flow.DecodesTo at hv
  cases hr : readValues t.values q with
  | ok vs u2 =>
    rw [hr] at hv
    obtain ⟨s, hs, hvs⟩ := hv
    rw [h] at hs
    injection hs with _ h2 h3
    rw [h2, hvs, h3]
  | fail vs =>
    rw [hr] at hv
    obtain ⟨s, u2, hs, _⟩ := hv
    rw [h] at hs
    exact absurd hs (by simp)

/-- Where a reading of members stopped: the members before the stop hold what was
converted from their objects, the members behind it hold what they held, and the member
at the stop holds what the failed conversion left, or what it held when its object is
missing. -/
theorem readValues_fail : ∀ (ts : List FieldValue) (s : Bytes) (vs : List FieldValue),
    readValues ts s = .fail vs →
    ∃ k, k < ts.length ∧ vs.length = ts.length ∧
      (∀ i, i < k → ∃ o tv v, atomAt i s = some o ∧ ts[i]? = some tv ∧
        tv.convert o = .ok v ∧ vs[i]? = some v) ∧
      (∀ i, k < i → vs[i]? = ts[i]?) ∧
      ∃ tv, ts[k]? = some tv ∧
        ((atomAt k s = none ∧ vs[k]? = some tv) ∨
          ∃ o v, atomAt k s = some o ∧ tv.convert o = .type_error v ∧ vs[k]? = some v) := by
  intro ts
  induction ts with
  | nil => intro s vs h; simp [readValues] at h
  | cons t ts ih =>
    intro s vs h
    unfold readValues at h
    cases hn : unpacker.next s with
    | unpack_error u =>
      rw [hn] at h
      simp only [ReadValues.fail.injEq] at h
      subst h
      refine ⟨0, by simp, rfl, fun i hi => absurd hi (by omega), ?_, t, by simp, Or.inl ?_⟩
      · intro i hi
        rfl
      · simp [atomAt, hn]
    | none u =>
      rw [hn] at h
      simp only [ReadValues.fail.injEq] at h
      subst h
      refine ⟨0, by simp, rfl, fun i hi => absurd hi (by omega), ?_, t, by simp, Or.inl ?_⟩
      · intro i hi
        rfl
      · simp [atomAt, hn]
    | object o r =>
      rw [hn] at h
      simp only [] at h
      cases hc : t.convert o with
      | type_error v =>
        rw [hc] at h
        simp only [ReadValues.fail.injEq] at h
        subst h
        refine ⟨0, by simp, rfl, fun i hi => absurd hi (by omega), ?_, t, by simp,
          Or.inr ⟨o, v, ?_, hc, by simp⟩⟩
        · intro i hi
          cases i with
          | zero => omega
          | succ j => rfl
        · simp [atomAt, hn]
      | ok v =>
        rw [hc] at h
        simp only [] at h
        cases hr : readValues ts r with
        | ok vs2 u2 =>
          rw [hr] at h
          exact absurd h (by simp)
        | fail vs2 =>
          rw [hr] at h
          simp only [ReadValues.fail.injEq] at h
          subst h
          obtain ⟨k, hk, hlen, hlt, hgt, tv, htv, hat⟩ := ih r vs2 hr
          refine ⟨k + 1, by simp; omega, by simp [hlen], ?_, ?_, tv, by simpa using htv, ?_⟩
          · intro i hi
            cases i with
            | zero => exact ⟨o, t, v, by simp [atomAt, hn], by simp, hc, by simp⟩
            | succ j =>
              obtain ⟨o2, tv2, v2, h1, h2, h3, h4⟩ := hlt j (by omega)
              exact ⟨o2, tv2, v2, by simpa [atomAt, hn] using h1, by simpa using h2, h3,
                by simpa using h4⟩
          · intro i hi
            cases i with
            | zero => omega
            | succ j => simpa using hgt j (by omega)
          · rcases hat with ⟨h1, h2⟩ | ⟨o2, v2, h1, h2, h3⟩
            · exact Or.inl ⟨by simpa [atomAt, hn] using h1, by simpa using h2⟩
            · exact Or.inr ⟨o2, v2, by simpa [atomAt, hn] using h1, h2, by simpa using h3⟩

theorem convert_uint32_type_error (o : object) (t v : Nat)
    (h : convert_uint32 o t = .type_error v) : v = t := by
  unfold convert_uint32 at h
  split at h
  · split_ifs at h
    injection h with h
    exact h.symm
  · injection h with h
    exact h.symm

theorem convert_int64_type_error (o : object) (t v : Int)
    (h : convert_int64 o t = .type_error v) : v = t := by
  unfold convert_int64 at h
  split at h
  · split_ifs at h
    injection h with h
    exact h.symm
  · split_ifs at h
    injection h with h
    exact h.symm
  · injection h with h
    exact h.symm

theorem convert_string_type_error (o : object) (t v : Bytes)
    (h : convert_string o t = .type_error v) : v = t := by
  unfold convert_string at h
  split at h
  · exact absurd h (by simp)
  · injection h with h
    exact h.symm

theorem msgpack.ConvRes.map_type_error {α β : Type} (f : α → β) (c : ConvRes α) (v : β)
    (h : c.map f = .type_error v) : ∃ x, c = .type_error x ∧ v = f x := by
  cases c with
  | ok x => simp [ConvRes.map] at h
  | type_error x =>
    simp only [ConvRes.map, ConvRes.type_error.injEq] at h
    exact ⟨x, rfl, h.symm⟩

theorem msgpack.ConvRes.map_ok {α β : Type} (f : α → β) (c : ConvRes α) (v : β)
    (h : c.map f = .ok v) : ∃ x, c = .ok x ∧ v = f x := by
  cases c with
  | ok x =>
    simp only [ConvRes.map, ConvRes.ok.injEq] at h
    exact ⟨x, rfl, h.symm⟩
  | type_error x => simp [ConvRes.map] at h

/-- A conversion that throws has left the member alone, unless the member is a list and
the object an array, or the member is the map and the object a map. -/
theorem FieldValue.convert_type_error (tv : FieldValue) (o : object) (v : FieldValue)
    (h : tv.convert o = .type_error v) :
    v = tv ∨
      ((tv.type = .vector_string ∨ tv.type = .vector_uint32) ∧ ∃ items, o = .array items) ∨
      (tv.type = .map_string ∧ ∃ items, o = .map items) := by
  cases tv with
  | uint32 t =>
    obtain ⟨x, hx, rfl⟩ := ConvRes.map_type_error _ _ _ h
    rw [convert_uint32_type_error o t x hx]
    exact Or.inl rfl
  | int64 t =>
    obtain ⟨x, hx, rfl⟩ := ConvRes.map_type_error _ _ _ h
    rw [convert_int64_type_error o t x hx]
    exact Or.inl rfl
  | string t =>
    obtain ⟨x, hx, rfl⟩ := ConvRes.map_type_error _ _ _ h
    rw [convert_string_type_error o t x hx]
    exact Or.inl rfl
  | vector_string t =>
    obtain ⟨x, hx, rfl⟩ := ConvRes.map_type_error _ _ _ h
    cases o with
    | array items => exact Or.inr (Or.inl ⟨Or.inl rfl, items, rfl⟩)
    | _ =>
      simp only [convert_vector_string, ConvRes.type_error.injEq] at hx
      rw [hx]
      exact Or.inl rfl
  | vector_uint32 t =>
    obtain ⟨x, hx, rfl⟩ := ConvRes.map_type_error _ _ _ h
    cases o with
    | array items => exact Or.inr (Or.inl ⟨Or.inr rfl, items, rfl⟩)
    | _ =>
      simp only [convert_vector_uint32, ConvRes.type_error.injEq] at hx
      rw [hx]
      exact Or.inl rfl
  | map_string t =>
    obtain ⟨x, hx, rfl⟩ := ConvRes.map_type_error _ _ _ h
    cases o with
    | map items => exact Or.inr (Or.inr ⟨rfl, items, rfl⟩)
    | _ =>
      simp only [convert_map_string, ConvRes.type_error.injEq] at hx
      rw [hx]
      exact Or.inl rfl

theorem convert_uint32_ok_indep (o : object) (x y v : Nat) (h : convert_uint32 o x = .ok v) :
    convert_uint32 o y = .ok v := by
  unfold convert_uint32 at h ⊢
  split at h
  · split_ifs at h with hu
    simp only [if_neg hu]
    exact h
  · exact absurd h (by simp)

theorem convert_int64_ok_indep (o : object) (x y v : Int) (h : convert_int64 o x = .ok v) :
    convert_int64 o y = .ok v := by
  unfold convert_int64 at h ⊢
  split at h
  · split_ifs at h with hu
    simp only [if_neg hu]
    exact h
  · split_ifs at h with hu
    simp only [if_neg hu]
    exact h
  · exact absurd h (by simp)

theorem convert_string_ok_indep (o : object) (x y v : Bytes) (h : convert_string o x = .ok v) :
    convert_string o y = .ok v := by
  unfold convert_string at h ⊢
  split at h
  · exact h
  · exact absurd h (by simp)

/-- A completed element-wise conversion has overwritten every element: the result does
not depend on what the resized container held. -/
theorem convert_items_ok_indep {α : Type} (conv : object → α → ConvRes α)
    (hconv : ∀ o x y v, conv o x = .ok v → conv o y = .ok v) :
    ∀ (items : List object) (xs ys v : List α), xs.length = items.length →
      ys.length = items.length → convert_items conv items xs = .ok v →
      convert_items conv items ys = .ok v := by
  intro items
  induction items with
  | nil =>
    intro xs ys v hx hy h
    have ex : xs = [] := List.length_eq_zero.mp hx
    have ey : ys = [] := List.length_eq_zero.mp hy
    subst ex ey
    exact h
  | cons o os ih =>
    intro xs ys v hx hy h
    cases xs with
    | nil => simp at hx
    | cons x xs =>
      cases ys with
      | nil => simp at hy
      | cons y ys =>
        simp only [List.length_cons, Nat.add_right_cancel_iff] at hx hy
        simp only [convert_items] at h ⊢
        cases hc : conv o x with
        | type_error a =>
          rw [hc] at h
          exact absurd h (by simp)
        | ok a =>
          rw [hc] at h
          rw [hconv o x y a hc]
          simp only [] at h ⊢
          cases hr : convert_items conv os xs with
          | type_error bs =>
            rw [hr] at h
            exact absurd h (by simp)
          | ok bs =>
            rw [hr] at h
            rw [ih xs ys bs hx hy hr]
            exact h

/-- A completed conversion into a member does not depend on what the member held, when
the member is not the map. -/
theorem FieldValue.convert_ok_agree (a b : FieldValue) (hab : a.Agree b) (o : object)
    (v : FieldValue) (h : a.convert o = .ok v) : b.convert o = .ok v := by
  obtain ⟨ht, hm⟩ := hab
  cases a with
  | uint32 x =>
    cases b <;> simp only [FieldValue.type] at ht <;> try exact absurd ht (by decide)
    obtain ⟨w, hw, rfl⟩ := ConvRes.map_ok _ _ _ h
    simp only [FieldValue.convert, convert_uint32_ok_indep o x _ w hw, ConvRes.map]
  | int64 x =>
    cases b <;> simp only [FieldValue.type] at ht <;> try exact absurd ht (by decide)
    obtain ⟨w, hw, rfl⟩ := ConvRes.map_ok _ _ _ h
    simp only [FieldValue.convert, convert_int64_ok_indep o x _ w hw, ConvRes.map]
  | string x =>
    cases b <;> simp only [FieldValue.type] at ht <;> try exact absurd ht (by decide)
    obtain ⟨w, hw, rfl⟩ := ConvRes.map_ok _ _ _ h
    simp only [FieldValue.convert, convert_string_ok_indep o x _ w hw, ConvRes.map]
  | vector_string x =>
    cases b <;> simp only [FieldValue.type] at ht <;> try exact absurd ht (by decide)
    rename_i y
    obtain ⟨w, hw, rfl⟩ := ConvRes.map_ok _ _ _ h
    cases o with
    | array items =>
      simp only [convert_vector_string] at hw
      have h2 := convert_items_ok_indep convert_string convert_string_ok_indep items _
        (resize [] y items.length) w (resize_length _ _ _) (resize_length _ _ _) hw
      simp only [FieldValue.convert, convert_vector_string, h2, ConvRes.map]
    | _ => simp [convert_vector_string] at hw
  | vector_uint32 x =>
    cases b <;> simp only [FieldValue.type] at ht <;> try exact absurd ht (by decide)
    rename_i y
    obtain ⟨w, hw, rfl⟩ := ConvRes.map_ok _ _ _ h
    cases o with
    | array items =>
      simp only [convert_vector_uint32] at hw
      have h2 := convert_items_ok_indep convert_uint32 convert_uint32_ok_indep items _
        (resize 0 y items.length) w (resize_length _ _ _) (resize_length _ _ _) hw
      simp only [FieldValue.convert, convert_vector_uint32, h2, ConvRes.map]
    | _ => simp [convert_vector_uint32] at hw
  | map_string x =>
    rw [← hm rfl]
    exact h

/-- A completed reading of members does not depend on what the members held, the map
apart. -/
theorem readValues_ok_agree : ∀ (ts ts2 : List FieldValue) (s : Bytes) (vs : List FieldValue)
    (u : Bytes), List.Forall₂ FieldValue.Agree ts ts2 → readValues ts s = .ok vs u →
    readValues ts2 s = .ok vs u := by
  intro ts ts2 s vs u hf
  induction hf generalizing s vs with
  | nil => exact fun h => h
  | @cons a b l1 l2 hab _ ih =>
    intro h
    unfold readValues at h ⊢
    cases hn : unpacker.next s with
    | unpack_error x => rw [hn] at h; exact absurd h (by simp)
    | none x => rw [hn] at h; exact absurd h (by simp)
    | object o r =>
      rw [hn] at h
      simp only [] at h ⊢
      cases hc : a.convert o with
      | type_error v => rw [hc] at h; exact absurd h (by simp)
      | ok v =>
        rw [hc] at h
        rw [a.convert_ok_agree b hab o v hc]
        simp only [] at h ⊢
        cases hr : readValues l1 r with
        | fail w => rw [hr] at h; exact absurd h (by simp)
        | ok w rest =>
          rw [hr] at h
          simp only [ReadValues.ok.injEq] at h
          obtain ⟨h1, h2⟩ := h
          subst h1 h2
          rw [ih r w hr]

theorem CommonReqData.eq_iff (c d : CommonReqData) :
    c = d ↔ c.inc_id = d.inc_id ∧ c.reqtype = d.reqtype ∧ c.req_json_data = d.req_json_data := by
  cases c
  cases d
  simp

/-- A record is determined by its dynamic type and the values of its members. -/
theorem ReqData.eq_of_values (a b : ReqData) (h : a.sameType b) (hv : a.values = b.values) :
    a = b := by
  unfold ReqData.sameType at h
  cases a <;> cases b <;>
    first
    | (simp [ReqData.newLike] at h; done)
    | (rename_i x y
       cases x
       cases y
       simp [ReqData.values, CommonReqData.values] at hv
       simp [hv, CommonReqData.eq_iff])

/-- The members of two records of the same dynamic type agree, when the records hold the
same `config_file_list` in case they are `UpdateConfigReqLog`. -/
theorem ReqData.values_agree (a b : ReqData) (h : a.sameType b)
    (hm : ∀ m1 m2, a = .UpdateConfig m1 → b = .UpdateConfig m2 →
      m1.config_file_list = m2.config_file_list) :
    List.Forall₂ FieldValue.Agree a.values b.values := by
  unfold ReqData.sameType at h
  cases a <;> cases b <;>
    first
    | (simp [ReqData.newLike] at h; done)
    | (simp [ReqData.values, CommonReqData.values, FieldValue.Agree, FieldValue.type]; done)
    | (simp [ReqData.values, CommonReqData.values, FieldValue.Agree, FieldValue.type]
       exact hm _ _ rfl rfl)

/-- The outcome `true` of `CommonReqData::unpack` carries an object that does not depend
on what the target held. -/
theorem CommonReqData.unpack_true_indep (c1 c2 r1 r2 : CommonReqData) (q u1 u2 : Bytes)
    (h1 : c1.unpack q = .returned true r1 u1) (h2 : c2.unpack q = .returned true r2 u2) :
    r1 = r2 := by
  have e1 : (ReqData.Common c1).unpack q = .returned true (.Common r1) u1 := by
    simp only [ReqData.unpack, h1, Flow.map]
  have e2 : (ReqData.Common c2).unpack q = .returned true (.Common r2) u2 := by
    simp only [ReqData.unpack, h2, Flow.map]
  have v1 := ReqData.unpack_true_values _ _ _ _ e1
  have v2 := ReqData.unpack_true_values _ _ _ _ e2
  have ha : List.Forall₂ FieldValue.Agree (ReqData.Common c1).values (ReqData.Common c2).values :=
    ReqData.values_agree _ _ rfl (fun _ _ h => by cases h)
  rw [readValues_ok_agree _ _ _ _ _ ha v1] at v2
  simp only [ReadValues.ok.injEq] at v2
  have := ReqData.eq_of_values (.Common r1) (.Common r2) rfl v2.1
  injection this

/-! ## The claims -/

/-- C1 (round trip): for every record variant and every record `r` of it whose
members hold values of their C++ types, `unpackReqLogData(packReqLogData(r))` into a
freshly constructed record of the same variant returns `true` and yields a record
equal to `r` in every field. -/
theorem C1_round_trip (r : ReqData) (h : r.Legal) (uninit : Int) :
    ReqLogMgr.unpackReqLogData (ReqLogMgr.packReqLogData r) (r.newLike uninit) =
      .returned true r [] := by
  have := r.unpack_pack_append h uninit []
  simpa [ReqLogMgr.unpackReqLogData, ReqLogMgr.packReqLogData] using this

theorem C1_round_trip_witness :
    sampleRebuild.Legal ∧
      ReqLogMgr.unpackReqLogData (ReqLogMgr.packReqLogData sampleRebuild)
        (sampleRebuild.newLike 0) = .returned true sampleRebuild [] :=
  ⟨by decide, C1_round_trip sampleRebuild (by decide) 0⟩

/-- C2 (replace-common): for every record `r` and every new common part `c`, after
`replaceCommonReqData(common of r, c, p)` on `p = packReqLogData(r)`, unpacking `p` as
the variant of `r` succeeds, the decoded common fields are `c` and every
variant-specific field is that of `r`. -/
theorem C2_replace_common (r : ReqData) (h : r.Legal) (c : CommonReqData) (hc : c.Legal)
    (uninit : Int) :
    ∃ p : Bytes,
      ReqLogMgr.replaceCommonReqData (.Common r.common) (.Common c)
          (ReqLogMgr.packReqLogData r) = .ok p ∧
        ReqLogMgr.unpackReqLogData p (r.newLike uninit) =
          .returned true (r.withCommon c) [] ∧
        (r.withCommon c).common = c := by
  refine ⟨ReqLogMgr.packReqLogData (r.withCommon c), ReqLogMgr.replaceCommon_pack r c, ?_,
    r.common_withCommon c⟩
  have := (r.withCommon c).unpack_pack_append (r.legal_withCommon h c hc) uninit []
  rw [r.newLike_withCommon] at this
  simpa [ReqLogMgr.unpackReqLogData, ReqLogMgr.packReqLogData] using this

theorem C2_replace_common_witness :
    sampleRebuild.Legal ∧ sampleCommon128.Legal ∧
      ∃ p : Bytes,
        ReqLogMgr.replaceCommonReqData (.Common sampleRebuild.common) (.Common sampleCommon128)
            (ReqLogMgr.packReqLogData sampleRebuild) = .ok p ∧
          ReqLogMgr.unpackReqLogData p (sampleRebuild.newLike 0) =
            .returned true (sampleRebuild.withCommon sampleCommon128) [] ∧
          (sampleRebuild.withCommon sampleCommon128).common = sampleCommon128 :=
  ⟨by decide, by decide,
    C2_replace_common sampleRebuild (by decide) sampleCommon128 (by decide) 0⟩

/-- C3 (forward prefix): for every record `r` of every variant,
`unpackReqLogData(packReqLogData(r))` into a plain `CommonReqData` returns `true` and
yields exactly `r.inc_id`, `r.reqtype` and `r.req_json_data`; the atoms that follow
are left unread. -/
theorem C3_common_part_decodes (r : ReqData) (h : r.common.Legal) (target : CommonReqData) :
    ∃ rest : Bytes,
      ReqLogMgr.unpackReqLogData (ReqLogMgr.packReqLogData r) (.Common target) =
        .returned true (.Common r.common) rest := by
  obtain ⟨tail, ht⟩ := r.pack_tail
  have h1 := ht r.common
  rw [r.withCommon_common] at h1
  refine ⟨tail, ?_⟩
  simp only [ReqLogMgr.unpackReqLogData, ReqLogMgr.packReqLogData, h1, ReqData.unpack,
    CommonReqData.unpack_pack r.common h, Flow.map]

theorem C3_common_part_decodes_witness :
    sampleRebuild.common.Legal ∧
      ∃ rest : Bytes,
        ReqLogMgr.unpackReqLogData (ReqLogMgr.packReqLogData sampleRebuild)
          (.Common CommonReqData.new) = .returned true (.Common sampleRebuild.common) rest :=
  ⟨by decide, C3_common_part_decodes sampleRebuild (by decide) CommonReqData.new⟩

/-- C4 (checksum correctness): for every initial register value `c` and every byte
sequence `b` (bytes from 0x80 up are sign extended by the `char` before the exclusive
or), the table driven `ReqLogMgr::crc(c, b, |b|)` is the bitwise reflected CRC-32
register update with polynomial `0xEDB88320` folded over `b`; and
`crc(0xFFFFFFFF, "123456789") XOR 0xFFFFFFFF` is `0xCBF43926`. -/
theorem C4_crc_is_bitwise_crc32 :
    (∀ (c : Nat) (b : Bytes), (∀ x ∈ b, x < 256) →
        ReqLogMgr.crc c b b.length = crcBitwise c b) ∧
      ReqLogMgr.crc 0xFFFFFFFF crcCheckInput 9 ^^^ 0xFFFFFFFF = 0xCBF43926 := by
  refine ⟨fun c b hb => crc_eq_bitwise b hb c, ?_⟩
  decide

theorem C4_crc_is_bitwise_crc32_witness :
    (∀ x ∈ ([128, 255, 0, 49] : Bytes), x < 256) ∧
      ReqLogMgr.crc 4294967295 [128, 255, 0, 49] ([128, 255, 0, 49] : Bytes).length =
        crcBitwise 4294967295 [128, 255, 0, 49] :=
  ⟨by decide, C4_crc_is_bitwise_crc32.1 4294967295 [128, 255, 0, 49] (by decide)⟩

/-- C5 (corruption detection): for every initial value `c` and any two byte sequences
of the same length that differ in exactly one byte position, `ReqLogMgr::crc(c, ., len)`
returns different values. -/
theorem C5_single_byte_change_detected (c : Nat) (hc : IsUInt32 c) (a b : Bytes)
    (ha : ∀ x ∈ a, x < 256) (hb : ∀ x ∈ b, x < 256) (hlen : a.length = b.length)
    (i : Nat) (hi : i < a.length) (hdiff : a[i]? ≠ b[i]?)
    (hsame : ∀ j, j ≠ i → a[j]? = b[j]?) :
    ReqLogMgr.crc c a a.length ≠ ReqLogMgr.crc c b b.length := by
  have hib : i < b.length := hlen ▸ hi
  have hpre : a.take i = b.take i := by
    apply List.ext_getElem?
    intro m
    rw [List.getElem?_take, List.getElem?_take]
    split_ifs with hm
    · exact hsame m (by omega)
    · rfl
  have hsuf : a.drop (i + 1) = b.drop (i + 1) := by
    apply List.ext_getElem?
    intro m
    rw [List.getElem?_drop, List.getElem?_drop]
    exact hsame _ (by omega)
  have ea : a = a.take i ++ a[i] :: a.drop (i + 1) := by
    rw [← List.drop_eq_getElem_cons hi, List.take_append_drop]
  have eb : b = a.take i ++ b[i] :: a.drop (i + 1) := by
    rw [hpre, hsuf, ← List.drop_eq_getElem_cons hib, List.take_append_drop]
  have hxy : a[i] ≠ b[i] := by
    intro h
    apply hdiff
    rw [List.getElem?_eq_getElem hi, List.getElem?_eq_getElem hib, h]
  have h := crc_one_byte_differs c hc (a.take i) (a.drop (i + 1)) a[i] b[i]
    (fun x hx => ha x (List.mem_of_mem_take hx))
    (fun x hx => ha x (List.mem_of_mem_drop hx))
    (ha _ (List.getElem_mem _)) (hb _ (List.getElem_mem _)) hxy
  rw [← ea, ← eb] at h
  exact h

theorem C5_single_byte_change_detected_witness :
    IsUInt32 0 ∧ (∀ x ∈ ([1, 2, 3] : Bytes), x < 256) ∧ (∀ x ∈ ([1, 130, 3] : Bytes), x < 256) ∧
      ReqLogMgr.crc 0 [1, 2, 3] ([1, 2, 3] : Bytes).length ≠
        ReqLogMgr.crc 0 [1, 130, 3] ([1, 130, 3] : Bytes).length :=
  ⟨by decide, by decide, by decide,
    C5_single_byte_change_detected 0 (by decide) [1, 2, 3] [1, 130, 3] (by decide) (by decide)
      rfl 1 (by decide) (by decide)
      (fun j hj => by
        match j with
        | 0 => rfl
        | 1 => exact absurd rfl hj
        | 2 => rfl
        | _ + 3 => rfl)⟩

/-- C6 (truncated input): for every record `r` of every variant and every proper
prefix `q` of `packReqLogData(r)`, the empty string and prefixes ending on an atom
boundary included, `unpackReqLogData(q)` into a record of the same variant returns
`false`. -/
theorem C6_truncated_input_rejected (r : ReqData) (h : r.Legal) (target : ReqData)
    (ht : target.sameType r) (q : Bytes) (hq : q <+: ReqLogMgr.packReqLogData r)
    (hne : q ≠ ReqLogMgr.packReqLogData r) :
    ∃ r2 u, ReqLogMgr.unpackReqLogData q target = .returned false r2 u := by
  have hd := target.unpack_decodes q
  rw [target.fields_of_sameType r ht] at hd
  exact hd.of_none (r.readFields_truncated h q hq hne)

theorem C6_truncated_input_rejected_witness :
    sampleCron.Legal ∧ (sampleCron.newLike 0).sameType sampleCron ∧
      ([7, 4, 163, 106, 111, 98] : Bytes) <+: ReqLogMgr.packReqLogData sampleCron ∧
      ([7, 4, 163, 106, 111, 98] : Bytes) ≠ ReqLogMgr.packReqLogData sampleCron ∧
      ∃ r2 u, ReqLogMgr.unpackReqLogData [7, 4, 163, 106, 111, 98] (sampleCron.newLike 0) =
        .returned false r2 u :=
  ⟨by decide, by decide, ⟨[206, 81, 15, 244, 0], rfl⟩, by decide,
    C6_truncated_input_rejected sampleCron (by decide) (sampleCron.newLike 0) (by decide)
      [7, 4, 163, 106, 111, 98] ⟨[206, 81, 15, 244, 0], rfl⟩ (by decide)⟩

/-- C7 (trailing bytes), as the code has it: for every record `r` and every byte
string `g`, `unpackReqLogData(packReqLogData(r) ++ g)` into a freshly constructed
record of the same variant returns `true` and yields `r`; the bytes of `g` are left
unread in the unpacker and are not an error. -/
theorem C7_trailing_bytes_ignored (r : ReqData) (h : r.Legal) (uninit : Int) (g : Bytes) :
    ReqLogMgr.unpackReqLogData (ReqLogMgr.packReqLogData r ++ g) (r.newLike uninit) =
      .returned true r g := by
  have := r.unpack_pack_append h uninit g
  simpa [ReqLogMgr.unpackReqLogData, ReqLogMgr.packReqLogData] using this

theorem C7_trailing_bytes_ignored_witness :
    sampleCron.Legal ∧
      ReqLogMgr.unpackReqLogData (ReqLogMgr.packReqLogData sampleCron ++ [193, 0])
        (sampleCron.newLike 0) = .returned true sampleCron [193, 0] :=
  ⟨by decide, C7_trailing_bytes_ignored sampleCron (by decide) 0 [193, 0]⟩

/-- C7, counterexample: with the non-empty garbage `[0xc1]` after the encoding of a
configuration record, unpacking does not fail: it returns `true` with the record and
leaves the garbage byte unread. -/
theorem C7_trailing_garbage_counterexample :
    ([193] : Bytes) ≠ [] ∧
      ReqLogMgr.unpackReqLogData (ReqLogMgr.packReqLogData sampleConfig ++ [193])
        (sampleConfig.newLike 0) = .returned true sampleConfig [193] :=
  ⟨by decide, by rfl⟩

/-- C8 (type mismatch): `unpackReqLogData` returns a boolean for every byte string and
every target record, no exception leaves it; and when the `k`-th atom of the byte
string is well formed but not convertible to the type of the `k`-th member of the
target, it returns `false`.  Not convertible are, among others, a string, a negative
integer and an integer above `2^32 - 1` for `inc_id`/`reqtype`, and an integer for a
string, a list or a map. -/
theorem C8_type_mismatch_returns_false (t : ReqData) (s : Bytes) :
    (∃ b r u, ReqLogMgr.unpackReqLogData s t = .returned b r u) ∧
      (∀ (k : Nat) (ft : FieldType) (o : object),
        t.fields[k]? = some ft → atomAt k s = some o → ft.convertible o = false →
        ∃ r u, ReqLogMgr.unpackReqLogData s t = .returned false r u) ∧
      (∀ p, FieldType.uint32.convertible (.raw p) = false) ∧
      (∀ i, FieldType.uint32.convertible (.negative_integer i) = false) ∧
      (∀ u, 4294967295 < u → FieldType.uint32.convertible (.positive_integer u) = false) ∧
      (∀ u, FieldType.string.convertible (.positive_integer u) = false ∧
        FieldType.vector_string.convertible (.positive_integer u) = false ∧
        FieldType.vector_uint32.convertible (.positive_integer u) = false ∧
        FieldType.map_string.convertible (.positive_integer u) = false) := by
  refine ⟨(t.unpack_decodes s).returned, ?_, fun _ => rfl, fun _ => rfl, ?_,
    fun _ => ⟨rfl, rfl, rfl, rfl⟩⟩
  · intro k ft o hft ha hc
    exact (t.unpack_decodes s).of_none (readFields_none_of_atom k _ s ft o hft ha hc)
  · intro u hu
    simp only [FieldType.convertible, convert_uint32, gt_iff_lt, if_pos hu, ConvRes.isOk]

theorem C8_type_mismatch_returns_false_witness :
    (sampleCron.newLike 0).fields[1]? = some FieldType.uint32 ∧
      atomAt 1 [7, 161, 65, 192] = some (.raw [65]) ∧
      FieldType.uint32.convertible (.raw [65]) = false ∧
      ∃ r u, ReqLogMgr.unpackReqLogData [7, 161, 65, 192] (sampleCron.newLike 0) =
        .returned false r u :=
  ⟨rfl, rfl, rfl,
    (C8_type_mismatch_returns_false (sampleCron.newLike 0) [7, 161, 65, 192]).2.1 1
      FieldType.uint32 (.raw [65]) rfl rfl rfl⟩

/-- C9 (no verification in `replaceCommonReqData`), as the code has it: for all
common parts `old` and `new` and every payload `p`, whatever the two packed lengths
are, `replaceCommonReqData` returns normally and leaves `p` equal to the encoding of
`new` followed by `p` without its first `|pack(old)|` bytes. -/
theorem C9_replace_common_unchecked (old_common new_common : ReqData) (p : Bytes) :
    ReqLogMgr.replaceCommonReqData old_common new_common p =
      .ok (ReqLogMgr.packReqLogData new_common ++
        p.drop (ReqLogMgr.packReqLogData old_common).length) := by
  simp only [ReqLogMgr.replaceCommonReqData, ReqLogMgr.string_replace]
  have h0 : ¬ 0 > p.length := by omega
  rw [if_neg h0]
  congr 2
  rcases Nat.le_total (ReqLogMgr.packReqLogData old_common).length p.length with hle | hle
  · simp [Nat.min_eq_left hle]
  · simp [Nat.min_eq_right hle, List.drop_eq_nil_of_le hle]

/-- C9, counterexample: the packed lengths of the two common parts differ (5 bytes
against 6 bytes) and `replaceCommonReqData` still delivers a spliced
payload instead of failing. -/
theorem C9_replace_common_counterexample :
    (ReqLogMgr.packReqLogData (.Common sampleCommon127)).length ≠
        (ReqLogMgr.packReqLogData (.Common sampleCommon128)).length ∧
      ReqLogMgr.replaceCommonReqData (.Common sampleCommon127) (.Common sampleCommon128)
          (ReqLogMgr.packReqLogData (.Common sampleCommon127)) =
        .ok [204, 128, 1, 162, 123, 125] := by
  constructor
  · decide
  · rfl

/-- C10 (packed length when only the id changes), as the code has it: two common
parts with the same `reqtype` and `req_json_data` have encodings of the same length
exactly when their `inc_id`s take the same msgpack integer form (fixnum below 128,
8 bit below 256, 16 bit below 65536, 32 bit otherwise). -/
theorem C10_same_length_iff_same_form (c d : CommonReqData) (ht : c.reqtype = d.reqtype)
    (hj : c.req_json_data = d.req_json_data) :
    (ReqLogMgr.packReqLogData (.Common c)).length =
        (ReqLogMgr.packReqLogData (.Common d)).length ↔
      uint32_form c.inc_id = uint32_form d.inc_id := by
  have hlen : ∀ n : Nat, (pack_uint32 n).length =
      if uint32_form n = 0 then 1 else if uint32_form n = 1 then 2
        else if uint32_form n = 2 then 3 else 5 := by
    intro n
    unfold pack_uint32 uint32_form store16 store32
    split_ifs <;> first | rfl | omega | contradiction
  have hform : ∀ n : Nat, uint32_form n ≤ 3 := by
    intro n; unfold uint32_form; split_ifs <;> omega
  have h1 := hlen c.inc_id
  have h2 := hlen d.inc_id
  have h3 := hform c.inc_id
  have h4 := hform d.inc_id
  simp only [ReqLogMgr.packReqLogData, ReqData.pack, CommonReqData.pack, List.nil_append,
    List.length_append, ht, hj, h1, h2]
  split_ifs <;> omega

theorem C10_same_length_iff_same_form_witness :
    sampleCommon127.reqtype = sampleCommon128.reqtype ∧
      sampleCommon127.req_json_data = sampleCommon128.req_json_data ∧
      ((ReqLogMgr.packReqLogData (.Common sampleCommon127)).length =
          (ReqLogMgr.packReqLogData (.Common sampleCommon128)).length ↔
        uint32_form sampleCommon127.inc_id = uint32_form sampleCommon128.inc_id) :=
  ⟨rfl, rfl, C10_same_length_iff_same_form sampleCommon127 sampleCommon128 rfl rfl⟩

/-- C10, counterexample: the two common parts differ only in `inc_id` (127 against
128) and their encodings have different lengths (5 and 6 bytes). -/
theorem C10_same_length_counterexample :
    sampleCommon127.reqtype = sampleCommon128.reqtype ∧
      sampleCommon127.req_json_data = sampleCommon128.req_json_data ∧
      (ReqLogMgr.packReqLogData (.Common sampleCommon127)).length = 5 ∧
      (ReqLogMgr.packReqLogData (.Common sampleCommon128)).length = 6 := by
  decide

/-- C11 (decoded identifiers), as the code has it: for every record variant and every
byte string on which `unpackReqLogData` succeeds, the decoded `inc_id` and `reqtype`
are the first two atoms of the byte string, two unsigned values below `2^32`; no
lower bound on `inc_id` and no membership of `reqtype` in the kinds is checked. -/
theorem C11_decoded_ids_are_any_uint32 (t r : ReqData) (s u : Bytes)
    (h : ReqLogMgr.unpackReqLogData s t = .returned true r u) :
    IsUInt32 r.common.inc_id ∧ IsUInt32 r.common.reqtype ∧
      atomAt 0 s = some (.positive_integer r.common.inc_id) ∧
      atomAt 1 s = some (.positive_integer r.common.reqtype) := by
  obtain ⟨c0, u1, h1⟩ := ReqData.unpack_true_common t r s u h
  obtain ⟨a0, a1, hi, ht⟩ := CommonReqData.unpack_true_inv c0 r.common s u1 h1
  exact ⟨hi, ht, a0, a1⟩

theorem C11_decoded_ids_are_any_uint32_witness :
    ReqLogMgr.unpackReqLogData [0, 13, 160] (.Common CommonReqData.new) =
        .returned true (.Common { inc_id := 0, reqtype := 13, req_json_data := [] }) [] ∧
      IsUInt32 0 ∧ IsUInt32 13 ∧
      atomAt 0 [0, 13, 160] = some (.positive_integer 0) ∧
      atomAt 1 [0, 13, 160] = some (.positive_integer 13) :=
  ⟨rfl, C11_decoded_ids_are_any_uint32 (.Common CommonReqData.new)
    (.Common { inc_id := 0, reqtype := 13, req_json_data := [] }) [0, 13, 160] [] rfl⟩

/-- C11, counterexample: the three bytes `00 0d a0` unpack successfully into a
`CommonReqData` whose `inc_id` is 0 (not at least 1) and whose `reqtype` is 13 (above
`Req_Rebuild_FromSCD = 12`). -/
theorem C11_record_invariants_counterexample :
    ReqLogMgr.unpackReqLogData [0, 13, 160] (.Common CommonReqData.new) =
        .returned true (.Common { inc_id := 0, reqtype := 13, req_json_data := [] }) [] ∧
      ¬ (1 ≤ (0 : Nat)) ∧
      ¬ (ReqLogType.Req_NoAdditionDataReq.val ≤ 13 ∧ 13 ≤ ReqLogType.Req_Rebuild_FromSCD.val) :=
  ⟨rfl, by decide, by decide⟩

/-- C12 (header layout): under `#pragma pack(1)` the five `uint32_t` members of
`ReqLogHead` lie at byte offsets 0, 4, 8, 12 and 16 and the struct occupies 20 bytes;
the image of a header is 20 bytes holding `inc_id`, `reqtype`, `req_data_offset`,
`req_data_len`, `req_data_crc` in that order; the `k`-th header (from 0) of the head
index starts at byte `20 * k`; and a header is read back unchanged from its 20
bytes. -/
theorem C12_header_layout :
    packedOffsets 1 0 ReqLogHead.members = [0, 4, 8, 12, 16] ∧
      packedSize 1 ReqLogHead.members = 20 ∧
      (∀ h : ReqLogHead, h.image.length = 20) ∧
      (∀ h : ReqLogHead, h.Legal →
        loadLE ((h.image.drop 0).take 4) = h.inc_id ∧
        loadLE ((h.image.drop 4).take 4) = h.reqtype ∧
        loadLE ((h.image.drop 8).take 4) = h.req_data_offset ∧
        loadLE ((h.image.drop 12).take 4) = h.req_data_len ∧
        loadLE ((h.image.drop 16).take 4) = h.req_data_crc) ∧
      (∀ (hs : List ReqLogHead) (k : Nat) (hk : k < hs.length),
        ((headIndexBytes hs).drop (20 * k)).take 20 = hs[k].image) ∧
      (∀ h : ReqLogHead, h.Legal → ReqLogHead.read h.image = some h) := by
  refine ⟨by decide, by decide, ReqLogHead.image_length, ?_, headIndexBytes_slice,
    ReqLogHead.read_image⟩
  intro h hl
  obtain ⟨h1, h2, h3, h4, h5⟩ := hl
  obtain ⟨f1, f2, f3, f4, f5⟩ := h.image_fields
  rw [f1, f2, f3, f4, f5]
  exact ⟨loadLE_storeLE32 _ h1, loadLE_storeLE32 _ h2, loadLE_storeLE32 _ h3,
    loadLE_storeLE32 _ h4, loadLE_storeLE32 _ h5⟩

theorem C12_header_layout_witness :
    sampleHead.Legal ∧ ReqLogHead.read sampleHead.image = some sampleHead ∧
      ((headIndexBytes [sampleHead, sampleHead]).drop (20 * 1)).take 20 = sampleHead.image :=
  ⟨by decide, C12_header_layout.2.2.2.2.2 sampleHead (by decide),
    C12_header_layout.2.2.2.2.1 [sampleHead, sampleHead] 1 (by decide)⟩

/-- C13 (fresh log state): a newly constructed `ReqLogMgr` has the next id to issue
(`inc_id_`) equal to 1 and `getLastSuccessReqId()` equal to 0, an empty prepared queue
and an empty id-to-offset cache; the first prepare on it, made as primary, stamps the
identifier 1. -/
theorem C13_fresh_log_state :
    ReqLogMgr.new.inc_id_ = 1 ∧ ReqLogMgr.new.getLastSuccessReqId = 0 ∧
      ReqLogMgr.new.prepared_req_ = [] ∧ ReqLogMgr.new.cached_head_offset_ = [] ∧
      ∀ req : CommonReqData,
        (ReqLogMgr.new.prepareReqLog req true).ret = true ∧
          (ReqLogMgr.new.prepareReqLog req true).prepared_reqdata.inc_id = 1 := by
  refine ⟨rfl, rfl, rfl, rfl, fun req => ?_⟩
  rw [ReqLogMgr.prepareReqLog_primary ReqLogMgr.new req rfl]
  exact ⟨rfl, rfl⟩

/-- C14 (prepare exclusivity): in every state reached from a fresh `ReqLogMgr` by a
sequence of `prepareReqLog`, `getPreparedReqLog`, `delPreparedReqLog` and
`appendReqData` calls the prepared queue holds at most one record; and on a manager
whose queue is non-empty `prepareReqLog` returns `false` (`AlreadyPrepared`) and leaves
the queue, the next id and the `inc_id` of its argument as they were. -/
theorem C14_prepare_exclusive (ops : List LogOp) :
    (LogRun.fresh.run ops).mgr.prepared_req_.length ≤ 1 ∧
      ∀ (self : ReqLogMgr) (req : CommonReqData) (isprimary : Bool),
        self.prepared_req_ ≠ [] →
        (self.prepareReqLog req isprimary).ret = false ∧
          (self.prepareReqLog req isprimary).err = some .AlreadyPrepared ∧
          (self.prepareReqLog req isprimary).mgr = self ∧
          (self.prepareReqLog req isprimary).prepared_reqdata = req := by
  refine ⟨LogRun.run_queue ops LogRun.fresh (by decide), ?_⟩
  intro self req isprimary h
  rw [ReqLogMgr.prepareReqLog_busy self req isprimary h]
  exact ⟨rfl, rfl, rfl, rfl⟩

theorem C14_prepare_exclusive_witness :
    (LogRun.fresh.step (.prepareReqLog sampleCommon127 true)).mgr.prepared_req_ ≠ [] ∧
      ((LogRun.fresh.step (.prepareReqLog sampleCommon127 true)).mgr.prepareReqLog
          sampleCommon128 true).ret = false ∧
      ((LogRun.fresh.step (.prepareReqLog sampleCommon127 true)).mgr.prepareReqLog
          sampleCommon128 true).prepared_reqdata = sampleCommon128 :=
  ⟨by decide,
    ((C14_prepare_exclusive []).2 (LogRun.fresh.step (.prepareReqLog sampleCommon127 true)).mgr
      sampleCommon128 true (by decide)).1,
    ((C14_prepare_exclusive []).2 (LogRun.fresh.step (.prepareReqLog sampleCommon127 true)).mgr
      sampleCommon128 true (by decide)).2.2.2⟩

/-- C15 (primary id allocation): starting from a fresh log, whatever appends,
abandonments and peeks lie between them, the ids stamped by the successive successful
`prepareReqLog(req, isprimary = true)` calls are `1, 2, 3, ...`: each is one more than
the id stamped before, so an abandoned id is never issued again (as long as the 32 bit
counter does not wrap). -/
theorem C15_primary_ids_consecutive (ops : List LogOp)
    (hp : ∀ op ∈ ops, op.isPrimaryOnly = true) (hn : ops.length < 4294967295) :
    (LogRun.fresh.run ops).stamped = List.range' 1 (LogRun.fresh.run ops).stamped.length := by
  obtain ⟨k, hk, _⟩ := LogRun.run_stamped ops LogRun.fresh 0 rfl rfl hp (by omega)
  rw [hk, List.length_range']

theorem C15_primary_ids_consecutive_witness :
    (∀ op ∈ [LogOp.prepareReqLog sampleCommon127 true, LogOp.delPreparedReqLog,
        LogOp.prepareReqLog sampleCommon127 true], op.isPrimaryOnly = true) ∧
      (LogRun.fresh.run [LogOp.prepareReqLog sampleCommon127 true, LogOp.delPreparedReqLog,
          LogOp.prepareReqLog sampleCommon127 true]).stamped =
        List.range' 1 (LogRun.fresh.run [LogOp.prepareReqLog sampleCommon127 true,
          LogOp.delPreparedReqLog, LogOp.prepareReqLog sampleCommon127 true]).stamped.length :=
  ⟨by decide,
    C15_primary_ids_consecutive [LogOp.prepareReqLog sampleCommon127 true,
      LogOp.delPreparedReqLog, LogOp.prepareReqLog sampleCommon127 true] (by decide) (by decide)⟩

/-- C16 (replica order): `prepareReqLog(req, isprimary = false)` succeeds only when the
supplied `req.inc_id` is the current next id; for any other supplied id, lower or
higher, it returns `false` and leaves the next id and the prepared queue unchanged,
the error being `OutOfOrder` when no record is prepared; with the next id supplied and
no record prepared it succeeds.  On a fresh log a supplied id of 1 succeeds and a
supplied id of 2 fails with `OutOfOrder`. -/
theorem C16_replica_order (self : ReqLogMgr) (req : CommonReqData) :
    ((self.prepareReqLog req false).ret = true → req.inc_id = self.inc_id_) ∧
      (req.inc_id ≠ self.inc_id_ →
        (self.prepareReqLog req false).ret = false ∧
          (self.prepareReqLog req false).mgr = self ∧
          (self.prepared_req_ = [] → (self.prepareReqLog req false).err = some .OutOfOrder)) ∧
      (self.prepared_req_ = [] → req.inc_id = self.inc_id_ →
        (self.prepareReqLog req false).ret = true) ∧
      (ReqLogMgr.new.prepareReqLog { req with inc_id := 1 } false).ret = true ∧
      (ReqLogMgr.new.prepareReqLog { req with inc_id := 2 } false).ret = false ∧
      (ReqLogMgr.new.prepareReqLog { req with inc_id := 2 } false).err = some .OutOfOrder := by
  by_cases hq : self.prepared_req_ = []
  · rw [ReqLogMgr.prepareReqLog_replica self req hq,
      ReqLogMgr.prepareReqLog_replica ReqLogMgr.new _ rfl,
      ReqLogMgr.prepareReqLog_replica ReqLogMgr.new _ rfl]
    refine ⟨?_, ?_, ?_, rfl, rfl, rfl⟩
    · split_ifs with h
      · exact fun _ => h
      · exact fun h2 => absurd h2 (by simp)
    · intro h
      rw [if_neg h]
      exact ⟨rfl, rfl, fun _ => rfl⟩
    · intro _ h
      rw [if_pos h]
  · rw [ReqLogMgr.prepareReqLog_busy self req false hq,
      ReqLogMgr.prepareReqLog_replica ReqLogMgr.new _ rfl,
      ReqLogMgr.prepareReqLog_replica ReqLogMgr.new _ rfl]
    refine ⟨fun h => Bool.noConfusion h, fun _ => ⟨rfl, rfl, fun h => absurd h hq⟩,
      fun h => absurd h hq, rfl, rfl, rfl⟩

theorem C16_replica_order_witness :
    sampleCommon127.inc_id ≠ ReqLogMgr.new.inc_id_ ∧
      (ReqLogMgr.new.prepareReqLog sampleCommon127 false).ret = false ∧
      (ReqLogMgr.new.prepareReqLog sampleCommon127 false).mgr = ReqLogMgr.new :=
  ⟨by decide,
    ((C16_replica_order ReqLogMgr.new sampleCommon127).2.1 (by decide)).1,
    ((C16_replica_order ReqLogMgr.new sampleCommon127).2.1 (by decide)).2.1⟩

/-- C17 (lookup with fallback): on a log reached from a fresh one by any sequence of
calls (as long as the id counter and the 32 bit offsets do not wrap),
`getReqData(inc_id, ...)` returns `true` with the appended record whose id is the
smallest appended id not less than the requested `inc_id`, the id being left in
`inc_id`; and it returns `false` when no appended record has an id not less than the
requested one. -/
theorem C17_lookup_with_fallback (ops : List LogOp) (hn : ops.length < 4294967295)
    (hB : (ops.map LogOp.bytes).sum < 4294967296) (inc_id : Nat) :
    ((∃ q ∈ (LogRun.fresh.run ops).appended, inc_id ≤ q.1) →
        ∃ p ∈ (LogRun.fresh.run ops).appended,
          inc_id ≤ p.1 ∧ (∀ q ∈ (LogRun.fresh.run ops).appended, inc_id ≤ q.1 → p.1 ≤ q.1) ∧
          ∃ hd off,
            (LogRun.fresh.run ops).mgr.getReqData (LogRun.fresh.run ops).files inc_id =
              .found p.1 hd off p.2) ∧
      ((∀ q ∈ (LogRun.fresh.run ops).appended, q.1 < inc_id) →
        (LogRun.fresh.run ops).mgr.getReqData (LogRun.fresh.run ops).files inc_id =
          .notFound) :=
  (LogRun.Inv.run ops LogRun.fresh 0 0 LogRun.inv_fresh (by omega) (by omega)).lookup inc_id

theorem C17_lookup_with_fallback_witness :
    sampleOps.length < 4294967295 ∧ (sampleOps.map LogOp.bytes).sum < 4294967296 ∧
      (∃ q ∈ (LogRun.fresh.run sampleOps).appended, 2 ≤ q.1) ∧
      ∃ p ∈ (LogRun.fresh.run sampleOps).appended,
        2 ≤ p.1 ∧ (∀ q ∈ (LogRun.fresh.run sampleOps).appended, 2 ≤ q.1 → p.1 ≤ q.1) ∧
        ∃ hd off,
          (LogRun.fresh.run sampleOps).mgr.getReqData (LogRun.fresh.run sampleOps).files 2 =
            .found p.1 hd off p.2 :=
  ⟨by decide, by decide, ⟨(3, [3, 1, 161, 1]), by decide, by decide⟩,
    (C17_lookup_with_fallback sampleOps (by decide) (by decide) 2).1
      ⟨(3, [3, 1, 161, 1]), by decide, by decide⟩⟩

/-- C18 (segment mapping): for every record id `n >= 1` the data file chosen by
`getDataPath(n)` is `<base>/<k>.req.log` with `k = (n - 1) / 1000`; the ids that map to
segment `k` are exactly `1000 k + 1 .. 1000 k + 1000`, so ids 1..1000 map to
`0.req.log` and id 1001 maps to `1.req.log`. -/
theorem C18_segment_mapping (self : ReqLogMgr) :
    (∀ n, 1 ≤ n →
      self.getDataPath n =
        self.base_path_ ++ [47] ++ decimal ((n - 1) / 1000) ++
          [46, 114, 101, 113, 46, 108, 111, 103]) ∧
      (∀ n k, 1 ≤ n → (segmentOf n = k ↔ 1000 * k + 1 ≤ n ∧ n ≤ 1000 * k + 1000)) ∧
      (∀ n, 1 ≤ n → n ≤ 1000 →
        self.getDataPath n = self.base_path_ ++ [47, 48, 46, 114, 101, 113, 46, 108, 111, 103]) ∧
      self.getDataPath 1001 =
        self.base_path_ ++ [47, 49, 46, 114, 101, 113, 46, 108, 111, 103] := by
  refine ⟨fun n _ => rfl, ?_, ?_, ?_⟩
  · intro n k hn
    unfold segmentOf
    constructor
    · intro h; omega
    · intro h; omega
  · intro n h1 h2
    have e : segmentOf n = 0 := by unfold segmentOf; omega
    simp [ReqLogMgr.getDataPath, e, decimal, decimalDigits]
  · simp [ReqLogMgr.getDataPath, segmentOf, decimal, decimalDigits]

theorem C18_segment_mapping_witness :
    (1 ≤ 2000) ∧ (segmentOf 2000 = 1 ↔ 1000 * 1 + 1 ≤ 2000 ∧ 2000 ≤ 1000 * 1 + 1000) :=
  ⟨by decide, (C18_segment_mapping ReqLogMgr.new).2.1 2000 1 (by decide)⟩

/-- C19 (classifier): for all strings `controller` and `action`, `isWriteRequest`,
`isReplayWriteReq` and `isAutoShardWriteReq` return `true` exactly when
`controller + "_" + action` is a member of `write_req_set_`, `replay_write_req_set_`
and `auto_shard_write_set_` respectively, and the three sets are as before the
query. -/
theorem C19_classifier_semantics (sets : WriteRequestSets) (controller action : Bytes) :
    ((ReqLogMgr.isWriteRequest sets controller action).1 = true ↔
        controller ++ [95] ++ action ∈ sets.write_req_set_) ∧
      ((ReqLogMgr.isReplayWriteReq sets controller action).1 = true ↔
        controller ++ [95] ++ action ∈ sets.replay_write_req_set_) ∧
      ((ReqLogMgr.isAutoShardWriteReq sets controller action).1 = true ↔
        controller ++ [95] ++ action ∈ sets.auto_shard_write_set_) ∧
      (ReqLogMgr.isWriteRequest sets controller action).2 = sets ∧
      (ReqLogMgr.isReplayWriteReq sets controller action).2 = sets ∧
      (ReqLogMgr.isAutoShardWriteReq sets controller action).2 = sets := by
  simp only [ReqLogMgr.isWriteRequest, ReqLogMgr.isReplayWriteReq,
    ReqLogMgr.isAutoShardWriteReq, requestKey]
  refine ⟨?_, ?_, ?_, ?_, ?_, ?_⟩ <;> split_ifs with h <;> simp_all

/-- C20 (checksum table): `_crc32tab` has exactly 256 entries and, for every `i` in
0..255, entry `i` is the value obtained from `i` by eight iterations of
`v := (v >> 1) XOR (0xEDB88320 if v is odd, else 0)`. -/
theorem C20_crc_table_entries :
    _crc32tab.length = 256 ∧ ∀ i, i < 256 → _crc32tab.getD i 0 = crcBitStep^[8] i :=
  ⟨crc32tab_length, crc32tab_entries⟩

theorem C20_crc_table_entries_witness :
    (255 < 256) ∧ _crc32tab.getD 255 0 = crcBitStep^[8] 255 :=
  ⟨by decide, C20_crc_table_entries.2 255 (by decide)⟩

/-- C21 (dispatch by kind tag), as the code has it: two record types whose constructors
set the same `reqtype` are the same type unless that `reqtype` is `Req_CronJob`
(set by `CronJobReqLog` and by `RebuildCronTaskReqLog`) or `Req_Callback` (set by
`UpdateRecCallbackReqLog` and by `BuildPurchaseSimCallbackReqLog`); and the packed bytes
of a record are decoded, giving the record back, by the `unpack` of the type of that
record, which for every other `reqtype` is the one type whose constructor sets it. -/
theorem C21_kind_tag_dispatch (a b : ReqData) (uninit : Int) :
    ((a.newLike 0).common.reqtype = (b.newLike 0).common.reqtype →
      a.sameType b ∨ (a.newLike 0).common.reqtype = ReqLogType.Req_CronJob.val ∨
        (a.newLike 0).common.reqtype = ReqLogType.Req_Callback.val) ∧
    (a.Legal → (b.sameType a ∨
        ((b.newLike 0).common.reqtype = (a.newLike 0).common.reqtype ∧
          (a.newLike 0).common.reqtype ≠ ReqLogType.Req_CronJob.val ∧
          (a.newLike 0).common.reqtype ≠ ReqLogType.Req_Callback.val)) →
      ReqLogMgr.unpackReqLogData (ReqLogMgr.packReqLogData a) (b.newLike uninit) =
        .returned true a []) := by
  refine ⟨a.sameType_of_reqtype b, fun hl hb => ?_⟩
  have hs : b.sameType a := by
    rcases hb with hb | ⟨h1, h2, h3⟩
    · exact hb
    · rcases b.sameType_of_reqtype a h1 with h | h | h
      · exact h
      · exact absurd (h1 ▸ h) h2
      · exact absurd (h1 ▸ h) h3
  rw [b.newLike_of_sameType a hs uninit]
  have h := a.unpack_pack_append hl uninit []
  rw [List.append_nil] at h
  exact h

theorem C21_kind_tag_dispatch_witness :
    ((sampleConfig.newLike 0).common.reqtype = ((sampleConfig.newLike 7).newLike 0).common.reqtype ∧
      (sampleConfig.sameType (sampleConfig.newLike 7) ∨
        (sampleConfig.newLike 0).common.reqtype = ReqLogType.Req_CronJob.val ∨
        (sampleConfig.newLike 0).common.reqtype = ReqLogType.Req_Callback.val)) ∧
    (sampleConfig.Legal ∧
      ReqLogMgr.unpackReqLogData (ReqLogMgr.packReqLogData sampleConfig)
          ((sampleConfig.newLike 7).newLike 0) = .returned true sampleConfig []) :=
  ⟨⟨rfl, (C21_kind_tag_dispatch sampleConfig (sampleConfig.newLike 7) 0).1 rfl⟩,
    by decide,
    (C21_kind_tag_dispatch sampleConfig (sampleConfig.newLike 7) 0).2 (by decide)
      (Or.inr ⟨rfl, by decide, by decide⟩)⟩

/-- C21, counterexample: `UpdateRecCallbackReqLog` and `BuildPurchaseSimCallbackReqLog`
are distinct record types whose constructors both set `reqtype` to `Req_Callback`, and
`CronJobReqLog` and `RebuildCronTaskReqLog` both set `Req_CronJob`; the packed bytes of a
`BuildPurchaseSimCallbackReqLog` are rejected by the `unpack` of
`UpdateRecCallbackReqLog`, and those of a `CronJobReqLog` by the `unpack` of
`RebuildCronTaskReqLog`. -/
theorem C21_shared_kind_tag_counterexample :
    (UpdateRecCallbackReqLog.new.reqtype = BuildPurchaseSimCallbackReqLog.new.reqtype ∧
      ¬ (ReqData.UpdateRecCallback UpdateRecCallbackReqLog.new).sameType
        (.BuildPurchaseSimCallback BuildPurchaseSimCallbackReqLog.new) ∧
      ReqLogMgr.unpackReqLogData
          (ReqLogMgr.packReqLogData (.BuildPurchaseSimCallback BuildPurchaseSimCallbackReqLog.new))
          (.UpdateRecCallback UpdateRecCallbackReqLog.new) =
        .returned false (.UpdateRecCallback UpdateRecCallbackReqLog.new) []) ∧
    (CronJobReqLog.new.reqtype = (RebuildCronTaskReqLog.new 0).reqtype ∧
      ¬ (ReqData.CronJob CronJobReqLog.new).sameType
        (.RebuildCronTask (RebuildCronTaskReqLog.new 0)) ∧
      ReqLogMgr.unpackReqLogData (ReqLogMgr.packReqLogData (.CronJob CronJobReqLog.new))
          (.RebuildCronTask (RebuildCronTaskReqLog.new 0)) =
        .returned false (.RebuildCronTask (RebuildCronTaskReqLog.new 0)) []) := by
  decide

/-- C22 (unvalidated splice): for arbitrary records `old_common` and `new_common` and an
arbitrary byte string `p` (whether or not `p` begins with the encoding of `old_common`,
and whatever the two packed lengths are) `replaceCommonReqData` returns normally and
leaves `p` equal to the encoding of `new_common` followed by `p` without its first
`min(|pack(old)|, |p|)` bytes; the bytes of `p` after position `|pack(old)|` are kept
unchanged behind the new encoding, and the length of the result is
`|pack(new)| + |p| - min(|pack(old)|, |p|)`. -/
theorem C22_unvalidated_splice (old_common new_common : ReqData) (p : Bytes) :
    ∃ q, ReqLogMgr.replaceCommonReqData old_common new_common p = .ok q ∧
      q = ReqLogMgr.packReqLogData new_common ++
        p.drop (min (ReqLogMgr.packReqLogData old_common).length p.length) ∧
      q.drop (ReqLogMgr.packReqLogData new_common).length =
        p.drop (ReqLogMgr.packReqLogData old_common).length ∧
      q.length = (ReqLogMgr.packReqLogData new_common).length + p.length -
        min (ReqLogMgr.packReqLogData old_common).length p.length := by
  refine ⟨_, ReqLogMgr.replaceCommon_eq old_common new_common p, rfl, ?_, ?_⟩
  · rw [List.drop_left]
    rcases Nat.le_total (ReqLogMgr.packReqLogData old_common).length p.length with hle | hle
    · rw [Nat.min_eq_left hle]
    · rw [Nat.min_eq_right hle, List.drop_eq_nil_of_le hle, List.drop_eq_nil_of_le (le_refl _)]
  · simp only [List.length_append, List.length_drop]
    omega

/-- C23 (the checksum is incremental): for every initial value `c` and byte sequences `a`
and `b`, `crc(crc(c, a, |a|), b, |b|) = crc(c, a ++ b, |a| + |b|)`; and for every
`len <= 0`, the negative values of the signed length included, `crc(c, data, len)`
returns `c` unchanged. -/
theorem C23_crc_incremental (c : Nat) (a b data : Bytes) :
    ReqLogMgr.crc (ReqLogMgr.crc c a a.length) b b.length =
        ReqLogMgr.crc c (a ++ b) (a.length + b.length) ∧
      ∀ len : Int, len ≤ 0 → ReqLogMgr.crc c data len = c :=
  ⟨crc_append a b c, fun len h => crc_nonpositive c data len h⟩

theorem C23_crc_incremental_witness :
    ReqLogMgr.crc (ReqLogMgr.crc 4294967295 [49, 50, 51, 52] 4) [53, 54, 55, 56, 57] 5 =
        ReqLogMgr.crc 4294967295 crcCheckInput 9 ∧
      ((-2147483648 : Int) ≤ 0 ∧
        ReqLogMgr.crc 4294967295 crcCheckInput (-2147483648) = 4294967295) :=
  ⟨(C23_crc_incremental 4294967295 [49, 50, 51, 52] [53, 54, 55, 56, 57] crcCheckInput).1,
    by decide,
    (C23_crc_incremental 4294967295 [49, 50, 51, 52] [53, 54, 55, 56, 57] crcCheckInput).2
      (-2147483648) (by decide)⟩

/-- C24 (unpack is not atomic but is ordered), as the code has it: when `unpack` of any
record type returns `false`, there is a member `k` (from 0) at which it stopped; the
members before `k` hold the values converted from the first `k` objects of the input, the
members behind `k` hold the values they had before the call, and member `k` holds the
value it had before the call when its object is missing, and otherwise what the failed
conversion left in it, which is the value it had before the call unless the member is a
list and the object an array, or the member is the map and the object a map. -/
theorem C24_unpack_ordered (t : ReqData) (s : Bytes) (r : ReqData) (u : Bytes)
    (h : ReqLogMgr.unpackReqLogData s t = .returned false r u) :
    r.sameType t ∧
    ∃ k, k < t.values.length ∧ r.values.length = t.values.length ∧
      (∀ i, i < k → ∃ o tv v, atomAt i s = some o ∧ t.values[i]? = some tv ∧
        tv.convert o = .ok v ∧ r.values[i]? = some v) ∧
      (∀ i, k < i → r.values[i]? = t.values[i]?) ∧
      ∃ tv, t.values[k]? = some tv ∧
        ((atomAt k s = none ∧ r.values[k]? = some tv) ∨
          ∃ o v, atomAt k s = some o ∧ tv.convert o = .type_error v ∧ r.values[k]? = some v ∧
            (v = tv ∨
              ((tv.type = .vector_string ∨ tv.type = .vector_uint32) ∧
                ∃ items, o = .array items) ∨
              (tv.type = .map_string ∧ ∃ items, o = .map items))) := by
  unfold ReqLogMgr.unpackReqLogData at h
  refine ⟨?_, ?_⟩
  · have hs := t.sameType_unpack s
    rw [h] at hs
    exact hs
  · obtain ⟨k, hk, hlen, hlt, hgt, tv, htv, hat⟩ :=
      readValues_fail t.values s r.values (t.unpack_false_values r s u h)
    refine ⟨k, hk, hlen, hlt, hgt, tv, htv, ?_⟩
    rcases hat with hat | ⟨o, v, h1, h2, h3⟩
    · exact Or.inl hat
    · exact Or.inr ⟨o, v, h1, h2, h3, tv.convert_type_error o v h2⟩

theorem C24_unpack_ordered_witness :
    ReqLogMgr.unpackReqLogData [5, 192] (sampleCron.newLike 0) =
        .returned false
          (.CronJob { inc_id := 5, reqtype := 4, req_json_data := [], cron_time := 0 }) [] ∧
    ((ReqData.CronJob { inc_id := 5, reqtype := 4, req_json_data := [], cron_time := 0 }).sameType
        (sampleCron.newLike 0) ∧
    ∃ k, k < (sampleCron.newLike 0).values.length ∧
      (ReqData.CronJob
        { inc_id := 5, reqtype := 4, req_json_data := [], cron_time := 0 }).values.length =
        (sampleCron.newLike 0).values.length ∧
      (∀ i, i < k → ∃ o tv v, atomAt i [5, 192] = some o ∧
        (sampleCron.newLike 0).values[i]? = some tv ∧ tv.convert o = .ok v ∧
        (ReqData.CronJob
          { inc_id := 5, reqtype := 4, req_json_data := [], cron_time := 0 }).values[i]? =
          some v) ∧
      (∀ i, k < i →
        (ReqData.CronJob
          { inc_id := 5, reqtype := 4, req_json_data := [], cron_time := 0 }).values[i]? =
          (sampleCron.newLike 0).values[i]?) ∧
      ∃ tv, (sampleCron.newLike 0).values[k]? = some tv ∧
        ((atomAt k [5, 192] = none ∧
            (ReqData.CronJob
              { inc_id := 5, reqtype := 4, req_json_data := [], cron_time := 0 }).values[k]? =
              some tv) ∨
          ∃ o v, atomAt k [5, 192] = some o ∧ tv.convert o = .type_error v ∧
            (ReqData.CronJob
              { inc_id := 5, reqtype := 4, req_json_data := [], cron_time := 0 }).values[k]? =
              some v ∧
            (v = tv ∨
              ((tv.type = .vector_string ∨ tv.type = .vector_uint32) ∧
                ∃ items, o = .array items) ∨
              (tv.type = .map_string ∧ ∃ items, o = .map items)))) :=
  ⟨by decide, C24_unpack_ordered (sampleCron.newLike 0) [5, 192]
    (.CronJob { inc_id := 5, reqtype := 4, req_json_data := [], cron_time := 0 }) [] (by decide)⟩

/-- C24, counterexample: `unpack` of an `IndexReqLog` that holds the list `[1], [2], [3]`
stops at `scd_list` on an array of a raw and an integer and returns `false` with the list
cut to two elements and its first element overwritten; and `unpack` of an
`UpdateConfigReqLog` stops at `config_file_list` on a map whose second key is an integer
and returns `false` with the first entry of the map stored.  In both the member at which
`unpack` stopped does not keep the value it had before the call. -/
theorem C24_member_partly_overwritten_counterexample :
    ReqLogMgr.unpackReqLogData [0, 7, 160, 146, 161, 97, 5] sampleIndexTarget =
      .returned false
        (.Index
          { inc_id := 0, reqtype := 7, req_json_data := []
            scd_list := [[97], [2]], timestamp := 4 }) [] ∧
    sampleIndexTarget.values[3]? = some (.vector_string [[1], [2], [3]]) ∧
    ReqLogMgr.unpackReqLogData [0, 10, 160, 130, 161, 97, 161, 120, 5, 161, 121]
        sampleConfigTarget =
      .returned false
        (.UpdateConfig
          { inc_id := 0, reqtype := 10, req_json_data := []
            config_file_list := [([97], [120]), ([98], [1])] }) [] ∧
    sampleConfigTarget.values[3]? = some (.map_string [([98], [1])]) := by
  decide

/-- C25 (the unpack result and the bytes), as the code has it: for every record type,
every byte string `s` and two targets `t1`, `t2` of that type with arbitrary prior
contents, if `unpackReqLogData` succeeds on both then the common parts of the two targets
are equal afterwards, and the two targets are equal afterwards when they are not
`UpdateConfigReqLog` or held the same `config_file_list` before the call: every member is
overwritten, except `config_file_list`, into which the decoded entries are stored next to
the entries it held. -/
theorem C25_unpack_result_from_bytes (s : Bytes) (t1 t2 r1 r2 : ReqData) (u1 u2 : Bytes)
    (ht : t1.sameType t2)
    (h1 : ReqLogMgr.unpackReqLogData s t1 = .returned true r1 u1)
    (h2 : ReqLogMgr.unpackReqLogData s t2 = .returned true r2 u2) :
    r1.common = r2.common ∧
      ((∀ m1 m2, t1 = .UpdateConfig m1 → t2 = .UpdateConfig m2 →
          m1.config_file_list = m2.config_file_list) → r1 = r2) := by
  unfold ReqLogMgr.unpackReqLogData at h1 h2
  refine ⟨?_, fun hm => ?_⟩
  · obtain ⟨c1, w1, e1⟩ := t1.unpack_true_common r1 s u1 h1
    obtain ⟨c2, w2, e2⟩ := t2.unpack_true_common r2 s u2 h2
    exact CommonReqData.unpack_true_indep c1 c2 _ _ s w1 w2 e1 e2
  · have v1 := t1.unpack_true_values r1 s u1 h1
    have v2 := t2.unpack_true_values r2 s u2 h2
    rw [readValues_ok_agree _ _ _ _ _ (t1.values_agree t2 ht hm) v1] at v2
    simp only [ReadValues.ok.injEq] at v2
    have s1 := t1.sameType_unpack s
    have s2 := t2.sameType_unpack s
    rw [h1] at s1
    rw [h2] at s2
    refine ReqData.eq_of_values r1 r2 ?_ v2.1
    unfold ReqData.sameType at s1 s2 ht ⊢
    simp only [Flow.self] at s1 s2
    rw [s1, s2, ht]

theorem C25_unpack_result_from_bytes_witness :
    (sampleIndexTarget.sameType (sampleIndexTarget.newLike 0) ∧
      ReqLogMgr.unpackReqLogData [0, 7, 160, 145, 161, 97, 5] sampleIndexTarget =
        .returned true
          (.Index
            { inc_id := 0, reqtype := 7, req_json_data := []
              scd_list := [[97]], timestamp := 5 }) [] ∧
      ReqLogMgr.unpackReqLogData [0, 7, 160, 145, 161, 97, 5] (sampleIndexTarget.newLike 0) =
        .returned true
          (.Index
            { inc_id := 0, reqtype := 7, req_json_data := []
              scd_list := [[97]], timestamp := 5 }) []) ∧
    ((ReqData.Index
        { inc_id := 0, reqtype := 7, req_json_data := []
          scd_list := [[97]], timestamp := 5 }).common =
      (ReqData.Index
        { inc_id := 0, reqtype := 7, req_json_data := []
          scd_list := [[97]], timestamp := 5 }).common ∧
      ((∀ m1 m2, sampleIndexTarget = .UpdateConfig m1 →
          sampleIndexTarget.newLike 0 = .UpdateConfig m2 →
          m1.config_file_list = m2.config_file_list) →
        ReqData.Index
          { inc_id := 0, reqtype := 7, req_json_data := []
            scd_list := [[97]], timestamp := 5 } =
        ReqData.Index
          { inc_id := 0, reqtype := 7, req_json_data := []
            scd_list := [[97]], timestamp := 5 })) :=
  ⟨⟨by decide, by decide, by decide⟩,
    C25_unpack_result_from_bytes [0, 7, 160, 145, 161, 97, 5] sampleIndexTarget
      (sampleIndexTarget.newLike 0) _ _ [] [] (by decide) (by decide) (by decide)⟩

/-- C25, counterexample: the bytes of a record whose map holds the one entry `a -> x` are
unpacked with success into an `UpdateConfigReqLog` whose map holds `b -> 01` and into a
freshly constructed one; afterwards the first holds both entries and the second only the
decoded one, so the two targets are not equal. -/
theorem C25_map_merged_counterexample :
    sampleConfigTarget.sameType (.UpdateConfig UpdateConfigReqLog.new) ∧
    ReqLogMgr.unpackReqLogData [0, 10, 160, 129, 161, 97, 161, 120] sampleConfigTarget =
      .returned true
        (.UpdateConfig
          { inc_id := 0, reqtype := 10, req_json_data := []
            config_file_list := [([97], [120]), ([98], [1])] }) [] ∧
    ReqLogMgr.unpackReqLogData [0, 10, 160, 129, 161, 97, 161, 120]
        (.UpdateConfig UpdateConfigReqLog.new) =
      .returned true
        (.UpdateConfig
          { inc_id := 0, reqtype := 10, req_json_data := []
            config_file_list := [([97], [120])] }) [] ∧
    ReqLogMgr.packReqLogData
        (.UpdateConfig
          { inc_id := 0, reqtype := 10, req_json_data := []
            config_file_list := [([97], [120])] }) =
      [0, 10, 160, 129, 161, 97, 161, 120] := by
  decide

end sf1r
